import Mathlib

/-!
# 996-Simulator 2.0: the day/event simulation engine of `src/main.js`

A shallow embedding of the game logic (the closure that starts at line 241 of
`src/main.js`) and theorems about it.

Modelling conventions.

* A JavaScript `Number` that takes part in arithmetic with event deltas or with
  rounding (mood, money, relationship, the performance and expense accumulators)
  is a rational `ℚ`; counters that only ever receive integer steps are `ℕ` or `ℤ`.
* The arithmetic of the end-of-day settlement (lines 802-804, 815, 818-820, 831, 849, 851
  and 961: the daily performance, the weekly base and total, the finish hour, the salary
  and the money after salary, rent and the daily deduction) is IEEE 754 binary64
  arithmetic, as in the source: every `+`, `-`, `*`, `/` there is the exact operation
  followed by `toDouble`, the rounding to the nearest double (ties to even). These are
  the places where values that are not integers arise (`clicksToday / 400`, tenths).
  Overflow and subnormal numbers are out of reach of these values and are not modelled.
* The additions of event deltas, expenses and penalties (mood, money, relationship, the
  expense and penalty accumulators) are exact: the catalogs and the prizes hold integers
  only, on which double arithmetic is exact below `2^53`.
* `Math.round(x)` is `⌊x + 1/2⌋` (ties go up), so `Math.round(x * 10) / 10` is `round1`.
* Every `Math.random()` call site receives its draw as an argument.
* The mutable `state` object, the mutable `triggered` marks of the scripted catalog and
  the few pieces of DOM and timer state that the logic reads back (modal visibility,
  bound click handlers, pending `setTimeout` callbacks, the `prestart` class) are the
  fields of one record `State`; every function of the source is a function `State → State`.
* Calls to the presentation layer that carry a result (ending, daily and weekly summary
  card) are recorded, most recent first, in `State.log`.
* A `return` in the middle of a function body is the `else` branch of the rest of the body.
* Sound, CSS classes, `console.log` and `render()` have no effect on the state and are left out.
-/

namespace Sim996

/-! ## Numbers -/

/-- Round to the nearest integer, ties to the even one: the rounding of IEEE 754
arithmetic. -/
def roundHalfEven (x : ℚ) : ℤ :=
  if x - ⌊x⌋ < 1 / 2 then ⌊x⌋
  else if 1 / 2 < x - ⌊x⌋ then ⌊x⌋ + 1
  else if ⌊x⌋ % 2 = 0 then ⌊x⌋ else ⌊x⌋ + 1

/-- The binary logarithm of `n`, rounded down, by halving at most `fuel` times. -/
def log2Fuel : ℕ → ℕ → ℕ
  | 0, _ => 0
  | fuel + 1, n => if n < 2 then 0 else log2Fuel fuel (n / 2) + 1

/-- The binary logarithm of a positive natural number, rounded down. -/
def natLog2 (n : ℕ) : ℕ := log2Fuel n n

/-- The binary exponent `e` of a rational `x ≠ 0`: `2^e ≤ |x| < 2^(e+1)`. -/
def binaryExponent (x : ℚ) : ℤ :=
  if (2 : ℚ) ^ ((natLog2 x.num.natAbs : ℤ) - (natLog2 x.den : ℤ)) ≤ |x| then
    (natLog2 x.num.natAbs : ℤ) - (natLog2 x.den : ℤ)
  else (natLog2 x.num.natAbs : ℤ) - (natLog2 x.den : ℤ) - 1

/-- The IEEE 754 binary64 number nearest to `x` (53 significant bits, round to nearest,
ties to even), as a rational. The exponent range is not limited: overflow and subnormal
numbers, which need magnitudes above `1.7e308` or below `2.3e-308`, are not modelled. -/
def toDouble (x : ℚ) : ℚ :=
  if x = 0 then 0
  else (roundHalfEven (|x| / 2 ^ (binaryExponent x - 52)) : ℚ) * 2 ^ (binaryExponent x - 52)
    * (if x < 0 then -1 else 1)

/-- JavaScript `x + y` on Numbers. -/
def jsAdd (x y : ℚ) : ℚ := toDouble (x + y)

/-- JavaScript `x - y` on Numbers. -/
def jsSub (x y : ℚ) : ℚ := toDouble (x - y)

/-- JavaScript `x * y` on Numbers. -/
def jsMul (x y : ℚ) : ℚ := toDouble (x * y)

/-- JavaScript `x / y` on Numbers. -/
def jsDiv (x y : ℚ) : ℚ := toDouble (x / y)

/-- JavaScript `Math.round`: the nearest integer, ties toward plus infinity. -/
def jsRound (x : ℚ) : ℤ := ⌊x + 1 / 2⌋

/-- The idiom `Math.round(x * 10) / 10` of the source: one decimal place. -/
def round1 (x : ℚ) : ℚ := jsDiv (jsRound (jsMul x 10) : ℚ) 10

/-- Line 610: `clamp(n, min, max) = Math.max(min, Math.min(max, n))`. -/
def clamp (n lo hi : ℚ) : ℚ := max lo (min hi n)

/-- Index computed by `Math.floor(Math.random() * n)` from the draw `r`. -/
def pickIndex (r : ℚ) (n : ℕ) : ℕ := (⌊r * (n : ℚ)⌋).toNat

/-- Line 242: four minutes of real time are one day. -/
def ONE_DAY_SECONDS : ℤ := 4 * 60

/-- Line 243: the daily click quota. -/
def WORK_TARGET_CLICKS : ℕ := 400

/-! ## Event catalogs -/

/-- One outcome record `{ mood, perf, money, relationship, special }` (labels are display only). -/
structure Outcome where
  mood : ℚ
  perf : ℚ
  money : ℚ
  relationship : ℚ
  special : Option String
  deriving DecidableEq, Repr

/-- An entry of the random event table `events` (lines 321-399). -/
structure RandomEvent where
  id : String
  a : Outcome
  b : Outcome
  deriving DecidableEq, Repr

/-- The `condition` of a scripted event: a relationship threshold or a story flag value. -/
inductive Condition where
  | relationship (value : ℚ)
  | flag (flag : String) (value : String)
  deriving DecidableEq, Repr

/-- An entry of the scripted event table `scriptedEvents` (lines 402-608). The mutable
`triggered` mark is kept in `State.triggered`. -/
structure ScriptedEvent where
  id : String
  day : Option ℕ
  a : Outcome
  b : Outcome
  condition : Option Condition
  flags : List (String × String)
  deriving DecidableEq, Repr

/-- Outcome record without a `special` tag. -/
def mkO (mood perf money relationship : ℚ) : Outcome :=
  { mood := mood, perf := perf, money := money, relationship := relationship, special := none }

/-- Lines 321-399. -/
def events : List RandomEvent :=
  [ { id := "colleague_help", a := mkO (-2) 0 0 2, b := mkO 1 0 0 (-3) },
    { id := "takeout_coupon", a := mkO 3 0 (-25) 0, b := mkO (-1) 0 0 0 },
    { id := "urgent_request", a := mkO (-3) 1 0 0, b := mkO 2 (-1) 0 (-1) },
    { id := "new_gacha", a := mkO 3 0 (-100) 0, b := mkO 1 0 0 0 },
    { id := "colleague_birthday", a := mkO 1 0 (-30) 3, b := mkO 3 0 0 (-3) },
    { id := "team_building", a := mkO 1 0 0 2, b := mkO 2 0 0 (-3) },
    { id := "bathroom_smoking", a := mkO (-2) 0 0 0, b := mkO 5 0 0 1 },
    { id := "daily_report", a := mkO (-2) 0 0 0, b := mkO 2 (-1) 0 0 },
    { id := "lunch_choice", a := mkO 3 0 (-25) 0, b := mkO (-1) 0 0 0 },
    { id := "overtime_question", a := mkO (-2) 2 0 0, b := mkO 3 (-3) 0 1 },
    { id := "lottery_ticket",
      a := { mood := 0, perf := 0, money := -10, relationship := 0, special := some "lottery" },
      b := mkO (-1) 0 0 0 } ]

/-- Lines 402-608. -/
def scriptedEvents : List ScriptedEvent :=
  [ { id := "DAY1_MENTOR_INTRO", day := some 1, a := mkO 3 1 0 3, b := mkO 1 0 0 1,
      condition := none, flags := [("mentor_closeness", "A")] },
    { id := "DAY2_BLAME_GAME", day := some 2, a := mkO (-2) 0 0 (-1), b := mkO (-5) (-1) 0 2,
      condition := none, flags := [("annoying_first_impression", "A_or_B")] },
    { id := "DAY3_CROSS_TEAM", day := some 3, a := mkO 1 2 0 2, b := mkO 0 1 0 0,
      condition := none, flags := [("partner_impression", "A_or_B")] },
    { id := "DAY4_MENTOR_GUIDANCE", day := some 4, a := mkO 2 3 0 3, b := mkO (-1) 2 0 1,
      condition := some (.flag "mentor_closeness" "A"), flags := [] },
    { id := "DAY5_WEEKEND_WORK", day := some 5, a := mkO (-3) 3 0 3, b := mkO 2 (-1) 0 (-2),
      condition := none, flags := [("weekend_work", "A_or_B")] },
    { id := "DAY8_PARTNER_RELIABLE", day := some 8, a := mkO 3 2 0 4, b := mkO 1 2 0 (-1),
      condition := none, flags := [("partner_trust", "A_or_B")] },
    { id := "DAY4_XIAOYA_LUNCH", day := some 4, a := mkO 2 0 (-20) 3, b := mkO 0 0 0 (-1),
      condition := none, flags := [("xiaoya_lunch", "A_or_B")] },
    { id := "DAY9_XIAOYA_SKILL", day := some 9, a := mkO 1 2 0 3, b := mkO 1 1 0 1,
      condition := none, flags := [] },
    { id := "DAY10_XIAOYA_SUPPORT", day := some 10, a := mkO 3 0 0 4, b := mkO 1 0 0 1,
      condition := none, flags := [("xiaoya_support", "A_or_B")] },
    { id := "DAY11_XIAOYA_CRISIS_HELP", day := some 11, a := mkO 2 2 0 5, b := mkO 1 2 0 2,
      condition := none, flags := [] },
    { id := "DAY12_XIAOYA_PERSONAL", day := some 12, a := mkO 2 0 0 3, b := mkO 1 0 0 2,
      condition := some (.flag "xiaoya_support" "A"), flags := [("xiaoya_friendship", "A_or_B")] },
    { id := "DAY9_ANNOYING_HELP", day := some 9, a := mkO 2 0 0 3, b := mkO (-1) 0 0 (-1),
      condition := none, flags := [("annoying_complex", "A_or_B")] },
    { id := "DAY10_MENTOR_PERSONAL", day := some 10, a := mkO 2 0 (-15) 5, b := mkO 0 0 (-15) 2,
      condition := some (.flag "weekend_work" "A"), flags := [("mentor_personal", "A_or_B")] },
    { id := "DAY9_TEAM_CRISIS", day := some 9, a := mkO (-3) 0 0 (-2), b := mkO (-5) (-2) 0 1,
      condition := none, flags := [("crisis_response", "A_or_B")] },
    { id := "DAY12_MENTOR_HINT", day := some 12, a := mkO (-2) 0 0 3, b := mkO 1 0 0 1,
      condition := some (.flag "mentor_personal" "A"), flags := [("mentor_leaving_hint", "A_or_B")] },
    { id := "RELATIONSHIP_80_BONUS", day := none, a := mkO 5 3 0 2, b := mkO 3 2 0 0,
      condition := some (.relationship 80), flags := [] } ]

/-! ## State -/

/-- The two boss images, `state.currentBossVariant`. -/
inductive BossVariant where
  | boss
  | boss01
  deriving DecidableEq, Repr

/-- First argument of `showEndingModal`. -/
inductive EndingKind where
  | bad
  | good
  deriving DecidableEq, Repr

/-- A call to the presentation layer that carries a result of the resolver. -/
inductive Effect where
  | ending (kind : EndingKind) (message : String)
  | dailySummary (dailyPerf : ℚ) (mood : ℤ) (dailyTotalExpenses : ℚ)
  | weeklySummary (weeklyPerfTotal : ℚ) (salary : ℚ) (weeklyTotalExpensesDisplay : ℚ)
  deriving DecidableEq, Repr

/-- What is bound to `opt1.onclick` or `opt2.onclick`. -/
inductive Handler where
  | random (ev : RandomEvent) (o : Outcome)
  | scripted (ev : ScriptedEvent) (o : Outcome) (choiceType : String)
  | crisis
  deriving DecidableEq, Repr

/-- The `state` object (lines 246-292) together with the catalog marks and the DOM and
timer state that the logic depends on. -/
structure State where
  day : ℕ
  secondsLeft : ℤ
  clicksToday : ℕ
  mood : ℚ
  money : ℚ
  isFishing : Bool
  bossVisible : Bool
  lastMinuteMark : ℤ
  lockEventOrBoss : Bool
  lastEventMinute : ℤ
  lastScriptedEventCheck : ℤ
  fishAccumSec : ℕ
  bossAccumSec : ℕ
  bossActiveWindowId : Option ℕ
  dailyCaught : ℕ
  weeklyCaught : ℕ
  weeklyBasePerf : ℚ
  weeklyExtraPerf : ℚ
  dailyPenaltyPerf : ℚ
  overtimeOfferedDay : ℕ
  lowMoodDaysStreak : ℕ
  dayEnded : Bool
  workDoneNotified : Bool
  pausedForEvent : Bool
  currentBossVariant : BossVariant
  gameEnded : Bool
  dailyEventExpenses : ℚ
  weeklyEventExpenses : ℚ
  relationship : ℚ
  relationshipEventTriggered : Bool
  dailyTriggeredEvents : List String
  storyFlags : List (String × String)
  highPerfWeeksStreak : ℕ
  perfectFishWeeksStreak : ℕ
  socialEventCount : ℕ
  earlyFinishDaysStreak : ℕ
  /-- Ids of the scripted events whose `triggered` mark is set. -/
  triggered : List String
  /-- The `#app` element carries the class `prestart` (the start overlay is up). -/
  prestart : Bool
  /-- The event modal is visible. -/
  modalOpen : Bool
  /-- The handler bound to `opt1.onclick`. -/
  opt1 : Option Handler
  /-- The handler bound to `opt2.onclick`. -/
  opt2 : Option Handler
  /-- The second option button has `display: none`. -/
  opt2Hidden : Bool
  /-- The toast is visible. -/
  toastOpen : Bool
  /-- The summary modal is visible. -/
  summaryOpen : Bool
  /-- The ending modal is visible. -/
  endingOpen : Bool
  /-- Pending boss reaction windows: timer id and duration in milliseconds. -/
  bossTimers : List (ℕ × ℕ)
  /-- The id the next `setTimeout` for a reaction window returns. -/
  nextTimerId : ℕ
  /-- Number of pending callbacks that hide the boss one second after a window ran out. -/
  hideTimers : ℕ
  /-- Pending lottery result toasts (the prize each one announces). -/
  lotteryTimers : List ℚ
  /-- Results handed to the presentation layer, most recent first. -/
  log : List Effect
  deriving DecidableEq, Repr

/-- The object literal of lines 246-292 with an untouched page: its start overlay up and
nothing else shown. -/
def init : State :=
  { day := 1, secondsLeft := ONE_DAY_SECONDS, clicksToday := 0, mood := 100, money := 800,
    isFishing := false, bossVisible := false, lastMinuteMark := -1, lockEventOrBoss := false,
    lastEventMinute := -1, lastScriptedEventCheck := -1, fishAccumSec := 0, bossAccumSec := 0,
    bossActiveWindowId := none, dailyCaught := 0, weeklyCaught := 0, weeklyBasePerf := 0,
    weeklyExtraPerf := 0, dailyPenaltyPerf := 0, overtimeOfferedDay := 0, lowMoodDaysStreak := 0,
    dayEnded := false, workDoneNotified := false, pausedForEvent := false,
    currentBossVariant := .boss, gameEnded := false, dailyEventExpenses := 0,
    weeklyEventExpenses := 0, relationship := 60, relationshipEventTriggered := false,
    dailyTriggeredEvents := [], storyFlags := [], highPerfWeeksStreak := 0,
    perfectFishWeeksStreak := 0, socialEventCount := 0, earlyFinishDaysStreak := 0,
    triggered := [], prestart := true, modalOpen := false, opt1 := none, opt2 := none,
    opt2Hidden := false, toastOpen := false, summaryOpen := false, endingOpen := false,
    bossTimers := [], nextTimerId := 1, hideTimers := 0, lotteryTimers := [], log := [] }

/-! ## Toasts, modals, endings -/

/-- Lines 638-686 (`showToast`) on the state: nothing once the game has ended, otherwise
the clock is paused and the toast shown. The text and type are display only. -/
def showToast (s : State) : State :=
  if s.gameEnded then s else { s with pausedForEvent := true, toastOpen := true }

/-- Lines 689-735 (`showCenterToast`): the same effect on the state as `showToast`. -/
def showCenterToast (s : State) : State :=
  if s.gameEnded then s else { s with pausedForEvent := true, toastOpen := true }

/-- The `toastClose.onclick` handler bound at lines 679-684 and 728-733. -/
def toastClose (s : State) : State :=
  { s with toastOpen := false, pausedForEvent := false }

/-- Line 1730. -/
def openModal (s : State) : State := { s with modalOpen := true }

/-- Line 1731. -/
def closeModal (s : State) : State := { s with modalOpen := false }

/-- Lines 1218-1255 (`showEndingModal`), with the four elements of the ending modal present
in the page. -/
def showEndingModal (kind : EndingKind) (message : String) (s : State) : State :=
  { s with gameEnded := true, endingOpen := true, log := Effect.ending kind message :: s.log }

/-- Line 1257. -/
def badEnd (msg : String) (s : State) : State := showEndingModal .bad msg s

/-- Line 1258. -/
def goodEnd (msg : String) (s : State) : State := showEndingModal .good msg s

/-! ## Fishing -/

/-- Lines 1482-1489. -/
def openFish (s : State) : State :=
  { s with isFishing := true, lockEventOrBoss := false }

/-- `clearTimeout(id)` on the pending reaction windows. -/
def clearTimeout (id : ℕ) (timers : List (ℕ × ℕ)) : List (ℕ × ℕ) :=
  timers.filter (fun t => t.1 != id)

/-- Lines 1490-1506. -/
def closeFish (s : State) : State :=
  let s := { s with isFishing := false }
  let s := match s.bossActiveWindowId with
    | some id => { s with bossTimers := clearTimeout id s.bossTimers, bossActiveWindowId := none }
    | none => s
  { s with bossVisible := false, fishAccumSec := 0, bossAccumSec := 0 }

/-! ## End of day -/

/-- Line 802: `Math.min(1, state.clicksToday / WORK_TARGET_CLICKS)`. -/
def dailyProgress (s : State) : ℚ :=
  min 1 (jsDiv (s.clicksToday : ℚ) (WORK_TARGET_CLICKS : ℚ))

/-- Lines 803-804: the local `dailyPerf` of `endOfDay`. -/
def dailyPerf (s : State) : ℚ :=
  round1 (jsSub (jsMul (dailyProgress s) 10) s.dailyPenaltyPerf)

/-- Lines 828 and 956: `isFriday`. -/
def isFriday (day : ℕ) : Prop := day = 5 ∨ (day > 5 ∧ (day - 5) % 7 = 0)

instance : DecidablePred isFriday := fun day => by unfold isFriday; infer_instance

/-- Line 831: the local `weeklyPerfTotal`, read after the day has been added to the base. -/
def weeklyPerfTotal (s : State) : ℚ :=
  round1 (jsAdd s.weeklyBasePerf (min s.weeklyExtraPerf 20))

/-- Line 849: `Math.round(weeklyPerfTotal * 40 * 10) / 10`. -/
def salary (weeklyPerfTotal : ℚ) : ℚ := round1 (jsMul weeklyPerfTotal 40)

/-- Lines 818-820: the finish hour on the 9:00-18:00 scale. -/
def finishHour (s : State) : ℚ :=
  jsAdd 9 (jsMul (jsDiv ((ONE_DAY_SECONDS - s.secondsLeft : ℤ) : ℚ) (ONE_DAY_SECONDS : ℚ)) 9)

/-- Lines 948-982 (`openDailySummaryInternal`). -/
def openDailySummaryInternal (dailyPerf : ℚ) (s : State) : State :=
  let s := closeFish s
  let s := closeModal s
  let dailyTotalExpenses := 80 + s.dailyEventExpenses
  let s := { s with money := round1 (jsSub s.money 80) }
  { s with summaryOpen := true,
           log := Effect.dailySummary dailyPerf (jsRound s.mood) dailyTotalExpenses :: s.log }

/-- Lines 983-1011 (`openWeeklySummaryInternal`). -/
def openWeeklySummaryInternal (weeklyPerfTotal salary rentExpense weeklyEventExpenses : ℚ)
    (s : State) : State :=
  let s := closeFish s
  let s := closeModal s
  let weeklyTotalExpensesDisplay := rentExpense + weeklyEventExpenses + 80 * 5
  { s with summaryOpen := true,
           log := Effect.weeklySummary weeklyPerfTotal salary weeklyTotalExpensesDisplay :: s.log }

/-- Lines 856-897: the good-ending checks in their order, then the weekly reset and the
weekly summary followed by the daily one (line 899). -/
def endOfDay_goodEndings (dailyPerf weeklyPerfTotal salary : ℚ) (s : State) : State :=
  if weeklyPerfTotal ≥ 60 ∧ s.mood ≥ 70 ∧ s.relationship ≥ 65 ∧ s.money ≥ 2000 ∧ s.day ≥ 15 then
    goodEnd "完美平衡！工作、生活、人际关系各方面都表现出色，获得公司海外项目机会" s
  else if s.highPerfWeeksStreak ≥ 3 then
    goodEnd "模范员工！连续高绩效表现获得公司认可，直接晋升为部门主管" s
  else if s.perfectFishWeeksStreak ≥ 3 ∧ weeklyPerfTotal ≥ 70 then
    goodEnd "摸鱼大师！在保持高绩效的同时完全没被发现摸鱼，堪称隐藏高手" s
  else if s.storyFlags.lookup "xiaoya_friendship" = some "A" ∧ s.relationship ≥ 70
      ∧ s.day ≥ 15 then
    goodEnd "最佳搭档！与张小雅建立深厚友谊，两人决定一起跳槽到更好的公司" s
  else if weeklyPerfTotal ≥ 70 ∧ s.weeklyCaught = 0 ∧ s.day ≥ 12 then
    goodEnd "效率专家！在高效完成工作的同时从未被抓摸鱼，获得\"最佳新人\"称号" s
  else if s.relationship ≥ 85 ∧ s.day ≥ 15 then
    goodEnd "职场红人！同事们都很信任你，公司决定提前转正并加薪" s
  else if s.socialEventCount ≥ 5 ∧ s.relationship ≥ 65 ∧ s.day ≥ 20 then
    goodEnd "社交达人！积极的社交态度让你成为公司文化大使，获得特殊津贴" s
  else if s.money > 6000 then
    goodEnd "辞职摆摊咯~" s
  else
    let s := { s with weeklyBasePerf := 0, weeklyExtraPerf := 0, weeklyCaught := 0,
                      weeklyEventExpenses := 0,
                      lowMoodDaysStreak := if s.mood < 60 then 1 else 0 }
    let s := openWeeklySummaryInternal weeklyPerfTotal salary 800 s.weeklyEventExpenses s
    openDailySummaryInternal dailyPerf s

/-- Lines 829-897: the body of `if(isFriday)` and what follows it. -/
def endOfDay_friday (dailyPerf : ℚ) (s : State) : State :=
  let total := weeklyPerfTotal s
  if total < 50 then badEnd "公司不再需要你了（周绩效不足）" s
  else if s.weeklyCaught ≥ 5 then badEnd "再也不用摸鱼了（本周被抓≥5）" s
  else
    let s := { s with highPerfWeeksStreak := if total ≥ 80 then s.highPerfWeeksStreak + 1 else 0 }
    let s := { s with perfectFishWeeksStreak :=
                        if total ≥ 60 ∧ s.weeklyCaught = 0 then s.perfectFishWeeksStreak + 1 else 0 }
    let sal := salary total
    let s := { s with money := round1 (jsSub (jsAdd s.money sal) 800) }
    if s.money < 0 then badEnd "回老家吧（钱包<0）" s
    else endOfDay_goodEndings dailyPerf total sal s

/-- Lines 795-900 (`endOfDay`). -/
def endOfDay (s : State) : State :=
  if s.dayEnded then s
  else
    let s := { s with dayEnded := true }
    let s := closeFish s
    let s := closeModal s
    let perf := dailyPerf s
    let s := { s with lowMoodDaysStreak := if s.mood < 60 then s.lowMoodDaysStreak + 1 else 0 }
    if perf < 6 then badEnd "公司不再需要你了（每日绩效不足）" s
    else if s.mood < 50 then badEnd "不吃草的马儿（心情过低）" s
    else if s.dailyCaught ≥ 3 then badEnd "再也不用摸鱼了（当日被抓≥3）" s
    else
      let s := { s with weeklyBasePerf := round1 (jsAdd s.weeklyBasePerf perf) }
      let s := { s with earlyFinishDaysStreak :=
                          if finishHour s ≤ 33 / 2 ∧ perf ≥ 10 then s.earlyFinishDaysStreak + 1 else 0 }
      if isFriday s.day then endOfDay_friday perf s
      else openDailySummaryInternal perf s

/-- Lines 1179-1202 (`proceedNextDayCore`). -/
def proceedNextDayCore (s : State) : State :=
  let s := { s with day := if s.day = 5 then 8 else s.day + 1 }
  let s := { s with secondsLeft := ONE_DAY_SECONDS, clicksToday := 0, mood := 100,
                    dailyPenaltyPerf := 0, dailyCaught := 0, dailyEventExpenses := 0,
                    dailyTriggeredEvents := [], isFishing := false, bossVisible := false }
  let s := match s.bossActiveWindowId with
    | some id => { s with bossTimers := clearTimeout id s.bossTimers }
    | none => s
  { s with bossActiveWindowId := none, dayEnded := false, workDoneNotified := false,
           pausedForEvent := false, lastScriptedEventCheck := -1 }

/-- Lines 1204-1214 (`proceedNextDayWithTransition`), the transition taken as one step:
the summary is hidden, then `proceedNextDayCore` runs. -/
def proceedNextDayWithTransition (s : State) : State :=
  proceedNextDayCore { s with summaryOpen := false }

/-- Lines 1259-1375 (`resetGame`): the `Object.assign`, the catalog marks, the hidden
toast and modals, `pausedForEvent`, and the start overlay put back. -/
def resetGame (s : State) : State :=
  { s with day := 1, secondsLeft := ONE_DAY_SECONDS, clicksToday := 0, mood := 100, money := 800,
           isFishing := false, bossVisible := false, lastMinuteMark := -1,
           lockEventOrBoss := false, lastEventMinute := -1, lastScriptedEventCheck := -1,
           fishAccumSec := 0, bossAccumSec := 0, bossActiveWindowId := none,
           dailyCaught := 0, weeklyCaught := 0, weeklyBasePerf := 0, weeklyExtraPerf := 0,
           dailyPenaltyPerf := 0, overtimeOfferedDay := 0, lowMoodDaysStreak := 0,
           dayEnded := false, workDoneNotified := false, gameEnded := false,
           dailyEventExpenses := 0, weeklyEventExpenses := 0, relationship := 60,
           relationshipEventTriggered := false, dailyTriggeredEvents := [], storyFlags := [],
           highPerfWeeksStreak := 0, perfectFishWeeksStreak := 0, socialEventCount := 0,
           earlyFinishDaysStreak := 0,
           triggered := [],
           toastOpen := false, modalOpen := false, summaryOpen := false,
           pausedForEvent := false,
           prestart := true }

/-! ## Work clicks -/

/-- Lines 1452-1457: the one-time notice that the quota is reached. -/
def workClick_done (s : State) : State :=
  if !s.workDoneNotified ∧ s.clicksToday ≥ WORK_TARGET_CLICKS then
    showCenterToast { s with workDoneNotified := true }
  else s

/-- Lines 1387-1459: the `mousedown` handler of the keyboard button. -/
def workClick (s : State) : State :=
  let s := if s.isFishing then closeFish s else s
  let s := { s with clicksToday := s.clicksToday + 1 }
  if s.clicksToday % 16 = 0 then
    let s := { s with mood := clamp (s.mood - 3) 0 100 }
    let s := if s.mood < 60 then showCenterToast s else s
    if s.mood < 50 then badEnd "不吃草的马儿（心情过低）" s
    else workClick_done s
  else workClick_done s

/-! ## The boss -/

/-- Lines 1521-1523: the images the boss may take on a given day. -/
def bossChoices (day : ℕ) : List BossVariant :=
  if day ≥ 3 then [.boss, .boss01] else [.boss]

/-- Line 1573: `weekNumber`. -/
def weekNumber (day : ℕ) : ℕ := if day ≤ 5 then 1 else (day - 1) / 7 + 1

/-- Lines 1576-1583: the length of the reaction window in milliseconds. -/
def windowMs (day : ℕ) (v : BossVariant) : ℕ :=
  if weekNumber day ≥ 2 then (if v = .boss01 then 800 else 1500)
  else (if v = .boss01 then 1000 else 3000)

/-- Lines 1511-1586 and 1614 (`triggerBoss`) up to the `setTimeout` of the reaction
window; `r` is the draw of line 1517 and `rv` the draw of line 1524. -/
def triggerBoss (r rv : ℚ) (s : State) : State :=
  if !s.isFishing then s
  else if s.pausedForEvent then s
  else if s.bossVisible then s
  else if s.lockEventOrBoss then s
  else if r < 4 / 10 then s
  else
    let choices := bossChoices s.day
    let variant := match choices.get? (pickIndex rv choices.length) with
      | some v => v
      | none => BossVariant.boss
    let s := { s with currentBossVariant := variant, bossVisible := true, lockEventOrBoss := true }
    let ms := windowMs s.day s.currentBossVariant
    let s := match s.bossActiveWindowId with
      | some id => { s with bossTimers := clearTimeout id s.bossTimers }
      | none => s
    { s with bossActiveWindowId := some s.nextTimerId,
             bossTimers := s.bossTimers ++ [(s.nextTimerId, ms)],
             nextTimerId := s.nextTimerId + 1 }

/-- Lines 1586-1614: the callback that runs when a reaction window expires. -/
def bossWindowExpired (s : State) : State :=
  if s.isFishing then
    let s := { s with dailyPenaltyPerf := s.dailyPenaltyPerf + 1,
                      dailyCaught := s.dailyCaught + 1,
                      weeklyCaught := s.weeklyCaught + 1 }
    let s := showToast s
    if s.dailyCaught ≥ 3 then badEnd "再也不用摸鱼了（当日被抓≥3）" s
    else if s.weeklyCaught ≥ 5 then badEnd "再也不用摸鱼了（本周被抓≥5）" s
    else { s with hideTimers := s.hideTimers + 1 }
  else { s with hideTimers := s.hideTimers + 1 }

/-- Lines 1595-1613: the callback that hides the boss one second later. -/
def bossHide (s : State) : State :=
  { s with bossVisible := false, lockEventOrBoss := false }

/-! ## Random events -/

/-- Lines 1650-1666: the prize `lotteryWin` for the draw `random`. -/
def lotteryWin (random : ℚ) : ℚ :=
  if random < 1 / 10000 then 10000
  else if random < 1 / 10000 + 5 / 100 then 100
  else if random < 1 / 10000 + 5 / 100 + 20 / 100 then 20
  else 0

/-- Lines 1644-1708 (`applyOutcome`); `random` is the draw of line 1650. -/
def applyOutcome (o : Outcome) (random : ℚ) (s : State) : State :=
  let s := { s with mood := clamp (s.mood + o.mood) 0 100 }
  let moneyChange := o.money
  let lottery := o.special = some "lottery"
  let moneyChange := if lottery then moneyChange + lotteryWin random else moneyChange
  let s := if lottery then { s with lotteryTimers := s.lotteryTimers ++ [lotteryWin random] } else s
  let s := { s with money := s.money + moneyChange }
  let s :=
    if o.perf ≠ 0 then
      if o.perf > 0 then { s with weeklyExtraPerf := s.weeklyExtraPerf + o.perf }
      else { s with dailyPenaltyPerf := s.dailyPenaltyPerf + |o.perf| }
    else s
  let s :=
    if o.relationship ≠ 0 then { s with relationship := clamp (s.relationship + o.relationship) 0 100 }
    else s
  let originalExpense := o.money
  let s :=
    if originalExpense < 0 then
      { s with dailyEventExpenses := s.dailyEventExpenses + |originalExpense|,
               weeklyEventExpenses := s.weeklyEventExpenses + |originalExpense| }
    else s
  closeModal { s with pausedForEvent := false, lockEventOrBoss := false }

/-- Lines 1710-1723: the click handler of either option of a random event. -/
def randomChoice (ev : RandomEvent) (o : Outcome) (random : ℚ) (s : State) : State :=
  let s := applyOutcome o random s
  if (ev.id = "colleague_birthday" ∨ ev.id = "team_building") ∧ o.relationship > 0 then
    { s with socialEventCount := s.socialEventCount + 1 }
  else s

/-- Lines 1618-1728 (`maybeEvent`); `r` is the draw of line 1624, `rp` that of line 1639. -/
def maybeEvent (fortySecondTick : ℤ) (r rp : ℚ) (s : State) : State :=
  if s.gameEnded then s
  else if s.dayEnded then s
  else if s.lockEventOrBoss then s
  else if s.lastEventMinute = fortySecondTick then s
  else if fortySecondTick = 0 then s
  else if r < 6 / 10 then
    let availableEvents := events.filter (fun event => !s.dailyTriggeredEvents.contains event.id)
    if availableEvents.length = 0 then s
    else
      let s := { s with lockEventOrBoss := true, lastEventMinute := fortySecondTick }
      match availableEvents.get? (pickIndex rp availableEvents.length) with
      | none => s
      | some ev =>
        let s := { s with dailyTriggeredEvents := s.dailyTriggeredEvents ++ [ev.id],
                          opt1 := some (Handler.random ev ev.a),
                          opt2 := some (Handler.random ev ev.b) }
        openModal { s with pausedForEvent := true }
  else s

/-! ## Scripted events -/

/-- Assignment `storyFlags[key] = value` on the flag object. -/
def setFlag (key value : String) : List (String × String) → List (String × String)
  | [] => [(key, value)]
  | (k, v) :: rest => if k = key then (k, value) :: rest else (k, v) :: setFlag key value rest

/-- Lines 1748-1766: the tests an entry passes to be collected by `checkScriptedEvents`. -/
def scriptedAvailable (s : State) (event : ScriptedEvent) : Bool :=
  !s.triggered.contains event.id
  && (match event.day with
      | some d => !(d != 0 && d != s.day)
      | none => true)
  && (match event.condition with
      | some (Condition.relationship value) => !decide (s.relationship < value)
      | some (Condition.flag flag value) => s.storyFlags.lookup flag == some value
      | none => true)

/-- Lines 1821-1827: the story flags written for the branch `choiceType`. -/
def writeFlags (choiceType : String) :
    List (String × String) → List (String × String) → List (String × String)
  | [], storyFlags => storyFlags
  | (flagKey, declared) :: rest, storyFlags =>
    if declared = choiceType ∨ declared = "A_or_B" then
      writeFlags choiceType rest (setFlag flagKey choiceType storyFlags)
    else writeFlags choiceType rest storyFlags

/-- Lines 1790-1833 (`applyScriptedOutcome`). -/
def applyScriptedOutcome (o : Outcome) (eventFlags : List (String × String))
    (choiceType : String) (s : State) : State :=
  let s := { s with mood := clamp (s.mood + o.mood) 0 100 }
  let moneyChange := o.money
  let s := { s with money := s.money + moneyChange }
  let s :=
    if o.perf ≠ 0 then
      if o.perf > 0 then { s with weeklyExtraPerf := s.weeklyExtraPerf + o.perf }
      else { s with dailyPenaltyPerf := s.dailyPenaltyPerf + |o.perf| }
    else s
  let s :=
    if o.relationship ≠ 0 then { s with relationship := clamp (s.relationship + o.relationship) 0 100 }
    else s
  let s :=
    if moneyChange < 0 then
      { s with dailyEventExpenses := s.dailyEventExpenses + |moneyChange|,
               weeklyEventExpenses := s.weeklyEventExpenses + |moneyChange| }
    else s
  let s := { s with storyFlags := writeFlags choiceType eventFlags s.storyFlags }
  closeModal { s with pausedForEvent := false, lockEventOrBoss := false }

/-- Lines 1835-1848: the click handler of either option of a scripted event. -/
def scriptedChoice (ev : ScriptedEvent) (o : Outcome) (choiceType : String) (s : State) : State :=
  let s :=
    if ev.id = "DAY4_XIAOYA_LUNCH" ∧ o.relationship > 0 then
      { s with socialEventCount := s.socialEventCount + 1 }
    else s
  applyScriptedOutcome o ev.flags choiceType s

/-- Lines 1734-1854 (`checkScriptedEvents`); `rp` is the draw of line 1774. -/
def checkScriptedEvents (rp : ℚ) (s : State) : State :=
  if s.gameEnded then s
  else if s.dayEnded then s
  else if s.lockEventOrBoss then s
  else if s.day = 1 ∧ ONE_DAY_SECONDS - s.secondsLeft < 60 then s
  else
    let availableEvents := scriptedEvents.filter (scriptedAvailable s)
    if availableEvents.length > 0 then
      match availableEvents.get? (pickIndex rp availableEvents.length) with
      | none => s
      | some selectedEvent =>
        let s := { s with triggered := selectedEvent.id :: s.triggered, lockEventOrBoss := true,
                          opt1 := some (Handler.scripted selectedEvent selectedEvent.a "A"),
                          opt2 := some (Handler.scripted selectedEvent selectedEvent.b "B"),
                          opt2Hidden := false }
        openModal { s with pausedForEvent := true }
    else s

/-! ## The relationship crisis -/

/-- Lines 1879-1888: the click handler of the single option of the crisis prompt. -/
def crisisAck (s : State) : State :=
  let s := { s with dailyPenaltyPerf := s.dailyPenaltyPerf + 5 }
  let s := showToast s
  let s := { s with opt2Hidden := false, pausedForEvent := false }
  let s := closeModal s
  { s with lockEventOrBoss := false }

/-- Lines 1857-1892 (`checkRelationshipEvents`). -/
def checkRelationshipEvents (s : State) : State :=
  if s.gameEnded then s
  else if s.dayEnded then s
  else if s.lockEventOrBoss then s
  else if s.relationshipEventTriggered then s
  else if s.relationship < 40 then
    openModal { s with relationshipEventTriggered := true, lockEventOrBoss := true,
                       pausedForEvent := true, opt1 := some Handler.crisis, opt2Hidden := true }
  else s

/-! ## The clock -/

/-- The draws one tick may consume, one per `Math.random()` call site it can reach. -/
structure TickDraws where
  /-- Line 1517, the boss probability test. -/
  boss : ℚ
  /-- Line 1524, the choice of the boss image. -/
  bossVariant : ℚ
  /-- Line 1624, the random event probability test. -/
  event : ℚ
  /-- Line 1639, the choice of the random event. -/
  eventPick : ℚ
  /-- Line 1923, the gate of the scripted event check. -/
  scriptedGate : ℚ
  /-- Line 1774, the choice of the scripted event. -/
  scriptedPick : ℚ
  deriving DecidableEq, Repr

/-- Lines 1914 and 1922: `Math.floor((ONE_DAY_SECONDS - state.secondsLeft) / n)`. -/
def bucket (n : ℚ) (s : State) : ℤ :=
  ⌊((ONE_DAY_SECONDS - s.secondsLeft : ℤ) : ℚ) / n⌋

/-- Lines 1907-1912: the fishing part of a tick. -/
def tick_fishing (d : TickDraws) (s : State) : State :=
  if s.isFishing then
    let s := { s with fishAccumSec := s.fishAccumSec + 1, bossAccumSec := s.bossAccumSec + 1 }
    let s :=
      if s.fishAccumSec ≥ 2 then
        { s with fishAccumSec := s.fishAccumSec - 2, mood := clamp (s.mood + 1) 0 100 }
      else s
    if s.bossAccumSec ≥ 6 then
      triggerBoss d.boss d.bossVariant { s with bossAccumSec := s.bossAccumSec - 6 }
    else s
  else s

/-- Lines 1914-1919: the random event part of a tick. -/
def tick_random (d : TickDraws) (s : State) : State :=
  let fortySecondTick := bucket 40 s
  if fortySecondTick ≠ s.lastMinuteMark then
    let s := { s with lastMinuteMark := fortySecondTick, lockEventOrBoss := false }
    if !s.lockEventOrBoss then maybeEvent fortySecondTick d.event d.eventPick s else s
  else s

/-- Lines 1922-1926: the scripted event part of a tick. -/
def tick_scripted (d : TickDraws) (s : State) : State :=
  let thirtySecondTick := bucket 30 s
  if thirtySecondTick ≠ s.lastScriptedEventCheck ∧ d.scriptedGate < 3 / 10 then
    let s := { s with lastScriptedEventCheck := thirtySecondTick }
    if !s.lockEventOrBoss then checkScriptedEvents d.scriptedPick s else s
  else s

/-- Lines 1895-1933 (`tick`). -/
def tick (d : TickDraws) (s : State) : State :=
  if s.gameEnded then s
  else if s.dayEnded then s
  else if s.prestart then s
  else if s.pausedForEvent then s
  else
    let s := { s with secondsLeft := s.secondsLeft - 1 }
    let s := tick_fishing d s
    let s := tick_random d s
    let s := tick_scripted d s
    let s := if !s.lockEventOrBoss then checkRelationshipEvents s else s
    if s.secondsLeft ≤ 0 then endOfDay { s with secondsLeft := 0 } else s

/-! ## The player and the timers -/

/-- Runs a bound option handler; `random` is the lottery draw it may consume. -/
def runHandler (h : Handler) (random : ℚ) (s : State) : State :=
  match h with
  | .random ev o => randomChoice ev o random s
  | .scripted ev o choiceType => scriptedChoice ev o choiceType s
  | .crisis => crisisAck s

/-- Everything that can happen to the game: a click on a visible control, the one-second
interval, or a pending timer running out. -/
inductive Action where
  /-- The start button (lines 1937-1957 and 1349-1369). -/
  | start
  /-- The `setInterval` callback with its draws. -/
  | tick (d : TickDraws)
  /-- The keyboard button. -/
  | workClick
  /-- The fishing toggle. -/
  | openFish
  /-- The close button of the fishing panel. -/
  | closeFish
  /-- The first option of the event modal. -/
  | opt1 (random : ℚ)
  /-- The second option of the event modal. -/
  | opt2 (random : ℚ)
  /-- The close button of the toast. -/
  | toastClose
  /-- The reaction window with this timer id runs out. -/
  | bossWindow (id : ℕ)
  /-- A pending boss-hiding callback runs. -/
  | bossHide
  /-- The oldest pending lottery toast is shown. -/
  | lotteryToast
  /-- The button of the summary card. -/
  | nextDay
  /-- The restart button of the ending modal. -/
  | restart
  deriving DecidableEq, Repr

/-- One action applied to a state; an action whose control is hidden or whose timer is not
pending leaves the state as it is. -/
def step (s : State) : Action → State
  | .start => if s.prestart then { s with prestart := false } else s
  | .tick d => tick d s
  | .workClick => workClick s
  | .openFish => openFish s
  | .closeFish => if s.isFishing then closeFish s else s
  | .opt1 random =>
    if s.modalOpen then
      match s.opt1 with
      | some h => runHandler h random s
      | none => s
    else s
  | .opt2 random =>
    if s.modalOpen ∧ !s.opt2Hidden then
      match s.opt2 with
      | some h => runHandler h random s
      | none => s
    else s
  | .toastClose => if s.toastOpen then toastClose s else s
  | .bossWindow id =>
    if s.bossTimers.any (fun t => t.1 == id) then
      bossWindowExpired { s with bossTimers := clearTimeout id s.bossTimers }
    else s
  | .bossHide =>
    if s.hideTimers > 0 then bossHide { s with hideTimers := s.hideTimers - 1 } else s
  | .lotteryToast =>
    match s.lotteryTimers with
    | _ :: rest => showCenterToast { s with lotteryTimers := rest }
    | [] => s
  | .nextDay => if s.summaryOpen then proceedNextDayWithTransition s else s
  | .restart => if s.endingOpen then resetGame { s with endingOpen := false } else s

/-- A draw is a value of `Math.random()`: at least 0 and below 1. -/
def isDraw (r : ℚ) : Prop := 0 ≤ r ∧ r < 1

/-- The draws carried by an action are values of `Math.random()`. -/
def Action.valid : Action → Prop
  | .tick d => isDraw d.boss ∧ isDraw d.bossVariant ∧ isDraw d.event ∧ isDraw d.eventPick
      ∧ isDraw d.scriptedGate ∧ isDraw d.scriptedPick
  | .opt1 random => isDraw random
  | .opt2 random => isDraw random
  | _ => True

/-- The states the game can be in: the initial one and every state an action leads to. -/
inductive Reachable : State → Prop where
  | init : Reachable init
  | step (s : State) (a : Action) : Reachable s → a.valid → Reachable (step s a)

/-- Runs a list of actions from left to right. -/
def run (s : State) (actions : List Action) : State := actions.foldl step s

/-! ## Definitions used by the statements -/

/-- The effects handed to the presentation layer between `s` and a later state `t`,
most recent first. -/
def fired (s t : State) : List Effect := t.log.take (t.log.length - s.log.length)

/-- The state of `endOfDay` when it reaches the daily checks (lines 797-807). -/
def dayClosed (s : State) : State :=
  { closeModal (closeFish { s with dayEnded := true }) with
    lowMoodDaysStreak := if s.mood < 60 then s.lowMoodDaysStreak + 1 else 0 }

/-- The state of `endOfDay` once the daily checks have passed (lines 815-825). -/
def dayBooked (s : State) : State :=
  { dayClosed s with
    weeklyBasePerf := round1 (jsAdd s.weeklyBasePerf (dailyPerf s)),
    earlyFinishDaysStreak :=
      if finishHour s ≤ 33 / 2 ∧ dailyPerf s ≥ 10 then s.earlyFinishDaysStreak + 1 else 0 }

/-- The ending of line 810. -/
def dailyPerfEnding : Effect := Effect.ending .bad "公司不再需要你了（每日绩效不足）"

/-- The ending of lines 811 and 1449. -/
def moodEnding : Effect := Effect.ending .bad "不吃草的马儿（心情过低）"

/-- The ending of lines 812 and 1592. -/
def dailyCatchEnding : Effect := Effect.ending .bad "再也不用摸鱼了（当日被抓≥3）"

/-- The ending of lines 833 and 1593. -/
def weeklyCatchEnding : Effect := Effect.ending .bad "再也不用摸鱼了（本周被抓≥5）"

/-- The ending of line 832. -/
def weeklyPerfEnding : Effect := Effect.ending .bad "公司不再需要你了（周绩效不足）"

/-- The ending of line 852. -/
def moneyEnding : Effect := Effect.ending .bad "回老家吧（钱包<0）"

/-- The state of the weekly block after the streaks and the settlement (lines 836-851). -/
def weekSettled (s : State) : State :=
  { s with
    highPerfWeeksStreak := if weeklyPerfTotal s ≥ 80 then s.highPerfWeeksStreak + 1 else 0,
    perfectFishWeeksStreak :=
      if weeklyPerfTotal s ≥ 60 ∧ s.weeklyCaught = 0 then s.perfectFishWeeksStreak + 1 else 0,
    money := round1 (jsSub (jsAdd s.money (salary (weeklyPerfTotal s))) 800) }

/-- The message of the first good ending of lines 856-892 whose test holds, if any. -/
def goodEndingOf (weeklyPerfTotal : ℚ) (s : State) : Option String :=
  if weeklyPerfTotal ≥ 60 ∧ s.mood ≥ 70 ∧ s.relationship ≥ 65 ∧ s.money ≥ 2000 ∧ s.day ≥ 15 then
    some "完美平衡！工作、生活、人际关系各方面都表现出色，获得公司海外项目机会"
  else if s.highPerfWeeksStreak ≥ 3 then
    some "模范员工！连续高绩效表现获得公司认可，直接晋升为部门主管"
  else if s.perfectFishWeeksStreak ≥ 3 ∧ weeklyPerfTotal ≥ 70 then
    some "摸鱼大师！在保持高绩效的同时完全没被发现摸鱼，堪称隐藏高手"
  else if s.storyFlags.lookup "xiaoya_friendship" = some "A" ∧ s.relationship ≥ 70
      ∧ s.day ≥ 15 then
    some "最佳搭档！与张小雅建立深厚友谊，两人决定一起跳槽到更好的公司"
  else if weeklyPerfTotal ≥ 70 ∧ s.weeklyCaught = 0 ∧ s.day ≥ 12 then
    some "效率专家！在高效完成工作的同时从未被抓摸鱼，获得\"最佳新人\"称号"
  else if s.relationship ≥ 85 ∧ s.day ≥ 15 then
    some "职场红人！同事们都很信任你，公司决定提前转正并加薪"
  else if s.socialEventCount ≥ 5 ∧ s.relationship ≥ 65 ∧ s.day ≥ 20 then
    some "社交达人！积极的社交态度让你成为公司文化大使，获得特殊津贴"
  else if s.money > 6000 then
    some "辞职摆摊咯~"
  else none

/-- The state of the weekly block after the weekly reset of line 895. -/
def weekReset (s : State) : State :=
  { s with weeklyBasePerf := 0, weeklyExtraPerf := 0, weeklyCaught := 0,
           weeklyEventExpenses := 0,
           lowMoodDaysStreak := if s.mood < 60 then 1 else 0 }

/-- Mood and relationship are within their range. -/
def MoodRelOk (s : State) : Prop :=
  0 ≤ s.mood ∧ s.mood ≤ 100 ∧ 0 ≤ s.relationship ∧ s.relationship ≤ 100

/-- The state of a running tick after its event checks, before the test of line 1931. -/
def tickChecked (d : TickDraws) (s : State) : State :=
  let s := tick_scripted d (tick_random d (tick_fishing d
    { s with secondsLeft := s.secondsLeft - 1 }))
  if !s.lockEventOrBoss then checkRelationshipEvents s else s

/-- The effects only the weekly block of `endOfDay` (lines 829-897) produces: the weekly
summary, the three weekly bad endings and every good ending. -/
def isWeeklyEffect : Effect → Bool
  | .weeklySummary _ _ _ => true
  | .ending .good _ => true
  | .ending .bad message =>
    message == "公司不再需要你了（周绩效不足）" || message == "再也不用摸鱼了（本周被抓≥5）"
      || message == "回老家吧（钱包<0）"
  | .dailySummary _ _ _ => false

/-- A Friday of the first week: base 45 so far, the quota met today, extra 10. -/
def fridayExample : State :=
  { init with day := 5, weeklyBasePerf := 45, clicksToday := 400, weeklyExtraPerf := 10 }

/-- The value the specification rounds to one decimal place, in exact arithmetic:
`min(1, clicks/400) * 10 - penalty`. -/
def exactDailyPerf (clicksToday : ℕ) (dailyPenaltyPerf : ℚ) : ℚ :=
  min 1 ((clicksToday : ℚ) / 400) * 10 - dailyPenaltyPerf

/-- A state with the given click count and penalty, everything else as at the start. -/
def clicked (clicksToday : ℕ) (dailyPenaltyPerf : ℚ) : State :=
  { init with clicksToday := clicksToday, dailyPenaltyPerf := dailyPenaltyPerf }

/-- A Friday of the first week: base 45 so far and 326 clicks today. -/
def fridayTie : State :=
  { init with day := 5, weeklyBasePerf := 45, clicksToday := 326 }

/-- A Friday of the first week: base 39.8 so far, extra 2 and 326 clicks today. -/
def fridayShort : State :=
  { init with day := 5, weeklyBasePerf := toDouble (398 / 10), weeklyExtraPerf := 2,
              clicksToday := 326 }

/-- A state in which the boss has appeared while the player is fishing, with two catches
already today; the reaction window with timer id 1 is pending. -/
def caughtExample : State :=
  { init with prestart := false, isFishing := true, bossVisible := true,
              lockEventOrBoss := true, dailyCaught := 2, weeklyCaught := 2,
              dailyPenaltyPerf := 2, bossActiveWindowId := some 1,
              bossTimers := [(1, 3000)], nextTimerId := 2 }

/-- Draws with which a tick shows no boss and no event: the boss test of line 1517 aborts
and the tests of lines 1624 and 1923 fail. -/
def quietDraws : TickDraws :=
  { boss := 0, bossVariant := 0, event := 99 / 100, eventPick := 0,
    scriptedGate := 99 / 100, scriptedPick := 0 }

/-- Four hundred work clicks in a row on a fresh game, then the 240 ticks of the day. -/
def clicksOnly : List Action :=
  Action.start :: (List.replicate 400 Action.workClick ++ List.replicate 240 (Action.tick quietDraws))

/-- A first day with the quota met and mood kept up by fishing in between, up to the last
second: 192 clicks, 72 seconds of fishing, 192 clicks, 20 seconds of fishing, 16 clicks,
the notice closed, and 147 more seconds. -/
def goodDay : List Action :=
  Action.start :: (List.replicate 192 Action.workClick ++ Action.openFish ::
    (List.replicate 72 (Action.tick quietDraws) ++ List.replicate 192 Action.workClick ++
      Action.openFish :: (List.replicate 20 (Action.tick quietDraws) ++
        List.replicate 16 Action.workClick ++ Action.toastClose ::
          List.replicate 147 (Action.tick quietDraws))))

/-- The state `goodDay` ends in: the last second of day 1 with 400 clicks and mood 71. -/
def lastSecond : State :=
  { init with secondsLeft := 1, clicksToday := 400, mood := 71, lastMinuteMark := 5,
              workDoneNotified := true, prestart := false }

/-- The entry `lottery_ticket` of the random event table (lines 392-398). -/
def lotteryTicket : RandomEvent :=
  { id := "lottery_ticket",
    a := { mood := 0, perf := 0, money := -10, relationship := 0, special := some "lottery" },
    b := mkO (-1) 0 0 0 }

/-- From `s` to `t` the two records of consumed events stay duplicate-free and no scripted
event loses its `triggered` mark. -/
def Advances (s t : State) : Prop :=
  (s.dailyTriggeredEvents.Nodup → t.dailyTriggeredEvents.Nodup)
  ∧ (s.triggered.Nodup → t.triggered.Nodup)
  ∧ (∀ id ∈ s.triggered, id ∈ t.triggered)

/-- A boss reaction window is active: the boss is visible and the timer of
`bossActiveWindowId` is pending. -/
def bossWindowActive (s : State) : Bool :=
  s.bossVisible && s.bossTimers.any (fun t => some t.1 == s.bossActiveWindowId)

/-- A random or scripted event modal is awaiting a choice. -/
def eventModalActive (s : State) : Bool :=
  s.modalOpen &&
    (match s.opt1 with
     | some (Handler.random _ _) => true
     | some (Handler.scripted _ _ _) => true
     | _ => false)

/-- The relationship-crisis modal is awaiting its acknowledgement. -/
def crisisModalActive (s : State) : Bool :=
  s.modalOpen && s.opt1 == some Handler.crisis

/-- Draws with which the boss appears (line 1517 passes) and no event fires. -/
def bossDraws : TickDraws :=
  { boss := 1 / 2, bossVariant := 0, event := 99 / 100, eventPick := 0,
    scriptedGate := 99 / 100, scriptedPick := 0 }

/-- Draws with which a random event fires (line 1624 passes) and the first one is picked. -/
def eventDraws : TickDraws :=
  { boss := 0, bossVariant := 0, event := 0, eventPick := 0,
    scriptedGate := 99 / 100, scriptedPick := 0 }

/-- The player starts, waits 33 seconds, opens the fishing panel; the boss appears at second
39 with a three-second window. -/
def bossAtSecond39 : List Action :=
  Action.start :: (List.replicate 33 (Action.tick quietDraws) ++ Action.openFish ::
    (List.replicate 5 (Action.tick quietDraws) ++ [Action.tick bossDraws]))

/-- The player starts, opens the fishing panel at once; the boss appears at second 6. -/
def bossAtSecond6 : List Action :=
  Action.start :: Action.openFish ::
    (List.replicate 5 (Action.tick quietDraws) ++ [Action.tick bossDraws])

instance (a : Action) : Decidable a.valid := by
  cases a <;> unfold Action.valid isDraw <;> infer_instance

/-- Draws with which the scripted event check runs (line 1923 passes) and picks the first
eligible event; no boss and no random event. -/
def scriptedDraws : TickDraws :=
  { boss := 0, bossVariant := 0, event := 99 / 100, eventPick := 0,
    scriptedGate := 0, scriptedPick := 0 }

/-- The player starts and waits; at second 60 the scripted event check runs. -/
def scriptedAtSecond60 : List Action :=
  Action.start :: (List.replicate 59 (Action.tick quietDraws) ++ [Action.tick scriptedDraws])

/-- Good ending (a) of line 858. -/
def fullBalanceEnding : Effect :=
  Effect.ending .good "完美平衡！工作、生活、人际关系各方面都表现出色，获得公司海外项目机会"

/-- Good ending (b) of line 863. -/
def modelEmployeeEnding : Effect :=
  Effect.ending .good "模范员工！连续高绩效表现获得公司认可，直接晋升为部门主管"

/-- Good ending (c) of line 868. -/
def fishMasterEnding : Effect :=
  Effect.ending .good "摸鱼大师！在保持高绩效的同时完全没被发现摸鱼，堪称隐藏高手"

/-- Good ending (d) of line 873. -/
def bestPartnerEnding : Effect :=
  Effect.ending .good "最佳搭档！与张小雅建立深厚友谊，两人决定一起跳槽到更好的公司"

/-- Good ending (e) of line 878. -/
def efficiencyEnding : Effect :=
  Effect.ending .good "效率专家！在高效完成工作的同时从未被抓摸鱼，获得\"最佳新人\"称号"

/-- Good ending (f) of line 883. -/
def popularEnding : Effect :=
  Effect.ending .good "职场红人！同事们都很信任你，公司决定提前转正并加薪"

/-- Good ending (g) of line 888. -/
def socialEnding : Effect :=
  Effect.ending .good "社交达人！积极的社交态度让你成为公司文化大使，获得特殊津贴"

/-- Good ending (h) of line 892. -/
def freedomEnding : Effect := Effect.ending .good "辞职摆摊咯~"

/-- The weekly result as the specification words it: a priority list of tests, the first
one that holds decides; `none` when the game goes on. The streaks and the money are the
values after this week's update and settlement. -/
def specWeeklyResult (weeklyPerfTotal : ℚ) (weeklyCaught : ℕ) (money mood relationship : ℚ)
    (day highPerfWeeksStreak perfectFishWeeksStreak socialEventCount : ℕ)
    (xiaoyaFriendship : Option String) : Option Effect :=
  (([ (decide (weeklyPerfTotal < 50), weeklyPerfEnding),
      (decide (weeklyCaught ≥ 5), weeklyCatchEnding),
      (decide (money < 0), moneyEnding),
      (decide (weeklyPerfTotal ≥ 60 ∧ mood ≥ 70 ∧ relationship ≥ 65 ∧ money ≥ 2000 ∧ day ≥ 15),
        fullBalanceEnding),
      (decide (highPerfWeeksStreak ≥ 3), modelEmployeeEnding),
      (decide (perfectFishWeeksStreak ≥ 3 ∧ weeklyPerfTotal ≥ 70), fishMasterEnding),
      (decide (xiaoyaFriendship = some "A" ∧ relationship ≥ 70 ∧ day ≥ 15), bestPartnerEnding),
      (decide (weeklyPerfTotal ≥ 70 ∧ weeklyCaught = 0 ∧ day ≥ 12), efficiencyEnding),
      (decide (relationship ≥ 85 ∧ day ≥ 15), popularEnding),
      (decide (socialEventCount ≥ 5 ∧ relationship ≥ 65 ∧ day ≥ 20), socialEnding),
      (decide (money > 6000), freedomEnding) ] : List (Bool × Effect)).find?
    (fun p => p.1)).map (fun p => p.2)

/-- The weekly result the specification assigns to a week-terminal day that starts its
resolution in state `s` and passes the daily checks. -/
def weeklyResultOf (s : State) : Option Effect :=
  specWeeklyResult (weeklyPerfTotal (dayBooked s)) s.weeklyCaught
    (round1 (jsSub (jsAdd s.money (salary (weeklyPerfTotal (dayBooked s)))) 800))
    s.mood s.relationship s.day
    (if weeklyPerfTotal (dayBooked s) ≥ 80 then s.highPerfWeeksStreak + 1 else 0)
    (if weeklyPerfTotal (dayBooked s) ≥ 60 ∧ s.weeklyCaught = 0 then
      s.perfectFishWeeksStreak + 1 else 0)
    s.socialEventCount (s.storyFlags.lookup "xiaoya_friendship")

/-- How an outcome with performance delta `o.perf` moves the two accumulators from `s` to
`t`: a positive delta goes to `weeklyExtraPerf`, a negative one to `dailyPenaltyPerf`. -/
def PerfBuckets (o : Outcome) (s t : State) : Prop :=
  (o.perf > 0 →
    t.weeklyExtraPerf = s.weeklyExtraPerf + o.perf ∧ t.dailyPenaltyPerf = s.dailyPenaltyPerf)
  ∧ (o.perf < 0 →
    t.dailyPenaltyPerf = s.dailyPenaltyPerf + |o.perf| ∧ t.weeklyExtraPerf = s.weeklyExtraPerf)
  ∧ (o.perf = 0 →
    t.weeklyExtraPerf = s.weeklyExtraPerf ∧ t.dailyPenaltyPerf = s.dailyPenaltyPerf)

/-- The state `t` is `s` after the outcome `o` has been applied by the random-event applier
(without the lottery tag) or by the scripted-event applier. -/
def Applied (o : Outcome) (s t : State) : Prop :=
  (∃ r : ℚ, o.special ≠ some "lottery" ∧ t = applyOutcome o r s)
  ∨ (∃ (eventFlags : List (String × String)) (choiceType : String),
      t = applyScriptedOutcome o eventFlags choiceType s)

/-- A state with mood 99, one point below the cap. -/
def mood99 : State := { init with prestart := false, mood := 99 }

/-- The first scripted event of the catalog, `DAY1_MENTOR_INTRO` (lines 406-416). -/
def mentorIntro : ScriptedEvent :=
  { id := "DAY1_MENTOR_INTRO", day := some 1, a := mkO 3 1 0 3, b := mkO 1 0 0 1,
    condition := none, flags := [("mentor_closeness", "A")] }

/-- The scripted event `DAY4_MENTOR_GUIDANCE` (lines 445-454). -/
def mentorGuidance : ScriptedEvent :=
  { id := "DAY4_MENTOR_GUIDANCE", day := some 4, a := mkO 2 3 0 3, b := mkO (-1) 2 0 1,
    condition := some (.flag "mentor_closeness" "A"), flags := [] }

/-- A state at the end of a lost game in which the boss last appeared in its second image. -/
def endedWithBoss01 : State :=
  { init with prestart := false, day := 3, currentBossVariant := .boss01, gameEnded := true,
              endingOpen := true }

/-- A paused state: the game has started and a modal or toast holds the clock. -/
def pausedExample : State := { init with prestart := false, pausedForEvent := true }

/-- The player starts and waits; at second 40 the random event check passes. -/
def eventAtSecond40 : List Action :=
  Action.start :: (List.replicate 39 (Action.tick quietDraws) ++ [Action.tick eventDraws])

/-- The state reached by `n` work clicks in a row from `s`. -/
def clicks (n : ℕ) (s : State) : State := run s (List.replicate n Action.workClick)

/-- A full first day like `goodDay` in which a random event fires at second 40 (bucket 1)
and is answered with its second option; no other event fires, the day ends with the daily
summary and the player moves on to day 2. -/
def dayWithEvent : List Action :=
  Action.start :: (List.replicate 192 Action.workClick ++ Action.openFish ::
    (List.replicate 39 (Action.tick quietDraws) ++ Action.tick eventDraws :: Action.opt2 0 ::
      (List.replicate 32 (Action.tick quietDraws) ++ List.replicate 192 Action.workClick ++
        Action.openFish :: (List.replicate 20 (Action.tick quietDraws) ++
          List.replicate 16 Action.workClick ++ Action.toastClose ::
            (List.replicate 148 (Action.tick quietDraws) ++ [Action.nextDay])))))

/-- The run `dayWithEvent` followed by the first 39 seconds of day 2. -/
def secondDay39 : List Action := dayWithEvent ++ List.replicate 39 (Action.tick quietDraws)

/-- The work counters agree: `t` has the click count, mood, ended flag and log of `s`. -/
def SameCore (s t : State) : Prop :=
  t.clicksToday = s.clicksToday ∧ t.mood = s.mood ∧ t.gameEnded = s.gameEnded ∧ t.log = s.log

/-- The bounds the catch limits and the early-finish streak rest on: while the game runs
the daily catches are at most 2 and the weekly ones at most 4, the day's penalty is not
negative, the early-finish streak is 0, and the weekly base performance is not negative. -/
def TalliesOk (s : State) : Prop :=
  (s.gameEnded = false → s.dailyCaught ≤ 2 ∧ s.weeklyCaught ≤ 4)
  ∧ 0 ≤ s.dailyPenaltyPerf ∧ s.earlyFinishDaysStreak = 0 ∧ 0 ≤ s.weeklyBasePerf

/-- From `s` to `t` an ended game stays ended, the day's penalty does not shrink and the
bounds of `TalliesOk` are kept. -/
def Onward (s t : State) : Prop :=
  (s.gameEnded = true → t.gameEnded = true) ∧ s.dailyPenaltyPerf ≤ t.dailyPenaltyPerf
  ∧ (TalliesOk s → TalliesOk t)

/-- The state `t` has the ended flags, the penalty, the catch counters, the early-finish
streak, the log and the weekly base performance of `s`. -/
def SameTallies (s t : State) : Prop :=
  t.gameEnded = s.gameEnded ∧ t.dayEnded = s.dayEnded
  ∧ t.dailyPenaltyPerf = s.dailyPenaltyPerf ∧ t.dailyCaught = s.dailyCaught
  ∧ t.weeklyCaught = s.weeklyCaught ∧ t.earlyFinishDaysStreak = s.earlyFinishDaysStreak
  ∧ t.log = s.log ∧ t.weeklyBasePerf = s.weeklyBasePerf

/-- A full working day from its first second, like `goodDay` without the start button:
the quota met, mood kept up by fishing, the 240 seconds run down, and the summary card
confirmed. -/
def fullDay : List Action :=
  List.replicate 192 Action.workClick ++ Action.openFish ::
    (List.replicate 72 (Action.tick quietDraws) ++ List.replicate 192 Action.workClick ++
      Action.openFish :: (List.replicate 20 (Action.tick quietDraws) ++
        List.replicate 16 Action.workClick ++ Action.toastClose ::
          (List.replicate 148 (Action.tick quietDraws) ++ [Action.nextDay])))

/-- Four full working days in a row. -/
def fourDays : List Action := fullDay ++ fullDay ++ fullDay ++ fullDay

/-- Sixteen full working days in a row from a fresh game: days 1 to 5, 8 to 12, and 13 to
18. -/
def sixteenDays : List Action :=
  Action.start :: (fourDays ++ fourDays ++ fourDays ++ fourDays)

/-- The first second of a day in a run of full working days: the given day, money, weekly
base performance and log, everything else as at the start of a day. -/
def dayStart (day : ℕ) (money weeklyBasePerf : ℚ) (log : List Effect) : State :=
  { init with day := day, money := money, weeklyBasePerf := weeklyBasePerf,
              lastMinuteMark := 6, prestart := false, log := log }

/-- The log of a week of full working days, most recent first: four daily summaries below
the weekly and the daily summary of the Friday. -/
def weekLog : List Effect :=
  [Effect.dailySummary 10 71 80, Effect.weeklySummary 50 2000 1200,
   Effect.dailySummary 10 71 80, Effect.dailySummary 10 71 80,
   Effect.dailySummary 10 71 80, Effect.dailySummary 10 71 80]

/-- The state `t` has the record of the day's random events and the clock of `s`. -/
def SameRecord (s t : State) : Prop :=
  t.dailyTriggeredEvents = s.dailyTriggeredEvents ∧ t.secondsLeft = s.secondsLeft

/-! ## Lemmas -/

theorem log2Fuel_spec (fuel : ℕ) : ∀ n : ℕ, 1 ≤ n → n ≤ fuel →
    2 ^ log2Fuel fuel n ≤ n ∧ n < 2 ^ (log2Fuel fuel n + 1) := by
  induction fuel with
  | zero => intro n h1 h2; omega
  | succ fuel ih =>
    intro n h1 h2
    unfold log2Fuel
    split_ifs with h
    · have : n = 1 := by omega
      subst this; norm_num
    · obtain ⟨a, b⟩ := ih (n / 2) (by omega) (by omega)
      rw [pow_succ, pow_succ]
      constructor <;> omega

theorem natLog2_spec (n : ℕ) (h : 1 ≤ n) : 2 ^ natLog2 n ≤ n ∧ n < 2 ^ (natLog2 n + 1) :=
  log2Fuel_spec n n h le_rfl

theorem abs_eq_natAbs_div (x : ℚ) : |x| = (x.num.natAbs : ℚ) / (x.den : ℚ) := by
  conv_lhs => rw [← Rat.num_div_den x]
  rw [abs_div, Nat.abs_cast, Nat.cast_natAbs, Int.cast_abs]

theorem binaryExponent_spec (x : ℚ) (hx : x ≠ 0) :
    (2 : ℚ) ^ binaryExponent x ≤ |x| ∧ |x| < (2 : ℚ) ^ (binaryExponent x + 1) := by
  have hn : 1 ≤ x.num.natAbs := Int.natAbs_pos.mpr (Rat.num_ne_zero.mpr hx)
  have hd : 1 ≤ x.den := x.den_pos
  obtain ⟨a1, a2⟩ := natLog2_spec _ hn
  obtain ⟨b1, b2⟩ := natLog2_spec _ hd
  have habs := abs_eq_natAbs_div x
  unfold binaryExponent
  generalize natLog2 x.num.natAbs = a at *
  generalize natLog2 x.den = b at *
  generalize x.num.natAbs = n at *
  generalize x.den = d at *
  have a1q : (2 : ℚ) ^ a ≤ (n : ℚ) := by exact_mod_cast a1
  have a2q : (n : ℚ) < (2 : ℚ) ^ (a + 1) := by exact_mod_cast a2
  have b1q : (2 : ℚ) ^ b ≤ (d : ℚ) := by exact_mod_cast b1
  have b2q : (d : ℚ) < (2 : ℚ) ^ (b + 1) := by exact_mod_cast b2
  have hdpos : (0 : ℚ) < (d : ℚ) := by exact_mod_cast hd
  have hnpos : (0 : ℚ) < (n : ℚ) := by exact_mod_cast hn
  have pa : (0 : ℚ) < (2 : ℚ) ^ a := by positivity
  have pb : (0 : ℚ) < (2 : ℚ) ^ b := by positivity
  have pb1 : (0 : ℚ) < (2 : ℚ) ^ (b + 1) := by positivity
  have e2 : (2 : ℚ) ^ ((a : ℤ) - (b : ℤ) + 1) = (2 : ℚ) ^ (a + 1) / (2 : ℚ) ^ b := by
    rw [show (a : ℤ) - (b : ℤ) + 1 = ((a + 1 : ℕ) : ℤ) - ((b : ℕ) : ℤ) by push_cast; ring,
      zpow_sub₀ (by norm_num), zpow_natCast, zpow_natCast]
  have e3 : (2 : ℚ) ^ ((a : ℤ) - (b : ℤ) - 1) = (2 : ℚ) ^ a / (2 : ℚ) ^ (b + 1) := by
    rw [show (a : ℤ) - (b : ℤ) - 1 = ((a : ℕ) : ℤ) - ((b + 1 : ℕ) : ℤ) by push_cast; ring,
      zpow_sub₀ (by norm_num), zpow_natCast, zpow_natCast]
  split_ifs with h
  · refine ⟨h, ?_⟩
    rw [e2, habs, div_lt_div_iff₀ hdpos pb]
    calc (n : ℚ) * 2 ^ b < 2 ^ (a + 1) * 2 ^ b := by
          apply mul_lt_mul_of_pos_right a2q pb
      _ ≤ 2 ^ (a + 1) * (d : ℚ) := by
          apply mul_le_mul_of_nonneg_left b1q (by positivity)
  · constructor
    · rw [e3, habs, div_le_div_iff₀ pb1 hdpos]
      calc (2 : ℚ) ^ a * (d : ℚ) ≤ (n : ℚ) * (d : ℚ) := by
            apply mul_le_mul_of_nonneg_right a1q hdpos.le
        _ ≤ (n : ℚ) * 2 ^ (b + 1) := by
            apply mul_le_mul_of_nonneg_left b2q.le hnpos.le
    · rw [show (a : ℤ) - (b : ℤ) - 1 + 1 = (a : ℤ) - (b : ℤ) by ring]
      exact not_le.mp h

theorem roundHalfEven_floor_le (x : ℚ) : ⌊x⌋ ≤ roundHalfEven x := by
  unfold roundHalfEven; split_ifs <;> omega

theorem roundHalfEven_le_floor_succ (x : ℚ) : roundHalfEven x ≤ ⌊x⌋ + 1 := by
  unfold roundHalfEven; split_ifs <;> omega

theorem roundHalfEven_intCast (k : ℤ) : roundHalfEven (k : ℚ) = k := by
  unfold roundHalfEven
  simp

theorem roundHalfEven_mono {a b : ℚ} (h : a ≤ b) : roundHalfEven a ≤ roundHalfEven b := by
  rcases lt_or_eq_of_le (Int.floor_mono h) with hlt | heq
  · calc roundHalfEven a ≤ ⌊a⌋ + 1 := roundHalfEven_le_floor_succ a
      _ ≤ ⌊b⌋ := hlt
      _ ≤ roundHalfEven b := roundHalfEven_floor_le b
  · unfold roundHalfEven
    rw [heq]
    split_ifs <;> first | omega | (exfalso; linarith)

theorem roundHalfEven_near (x : ℚ) : |(roundHalfEven x : ℚ) - x| ≤ 1 / 2 := by
  have h1 := Int.floor_le x
  have h2 := Int.lt_floor_add_one x
  unfold roundHalfEven
  split_ifs <;> rw [abs_le] <;> constructor <;> push_cast <;> linarith

theorem toDouble_zero : toDouble 0 = 0 := by
  unfold toDouble; rw [if_pos rfl]

theorem toDouble_of_pos {x : ℚ} (hx : 0 < x) :
    toDouble x
      = (roundHalfEven (x / 2 ^ (binaryExponent x - 52)) : ℚ) * 2 ^ (binaryExponent x - 52) := by
  unfold toDouble
  rw [if_neg hx.ne', abs_of_pos hx, if_neg (not_lt.mpr hx.le), mul_one]

theorem binaryExponent_neg (x : ℚ) : binaryExponent (-x) = binaryExponent x := by
  unfold binaryExponent
  simp only [Rat.neg_num, Rat.neg_den, Int.natAbs_neg, abs_neg]

theorem toDouble_neg (x : ℚ) : toDouble (-x) = -toDouble x := by
  rcases lt_trichotomy x 0 with h | h | h
  · unfold toDouble
    rw [if_neg (neg_ne_zero.mpr h.ne), if_neg h.ne, binaryExponent_neg, abs_neg,
      if_neg (by linarith), if_pos h]
    ring
  · subst h; simp [toDouble_zero]
  · unfold toDouble
    rw [if_neg (neg_ne_zero.mpr h.ne'), if_neg h.ne', binaryExponent_neg, abs_neg,
      if_pos (by linarith), if_neg (by linarith)]
    ring

theorem two_zpow_split (e : ℤ) (m : ℕ) :
    ((2 ^ m : ℤ) : ℚ) * (2 : ℚ) ^ (e - m) = (2 : ℚ) ^ e := by
  rw [zpow_sub₀ (by norm_num), zpow_natCast]
  push_cast
  field_simp

theorem toDouble_bracket {x : ℚ} (hx : 0 < x) :
    (2 : ℚ) ^ binaryExponent x ≤ toDouble x ∧ toDouble x ≤ (2 : ℚ) ^ (binaryExponent x + 1) := by
  obtain ⟨h1, h2⟩ := binaryExponent_spec x hx.ne'
  rw [abs_of_pos hx] at h1 h2
  rw [toDouble_of_pos hx]
  generalize binaryExponent x = e at *
  have hu : (0 : ℚ) < (2 : ℚ) ^ (e - 52) := by positivity
  have s52 := two_zpow_split e 52
  have s53 : ((2 ^ 53 : ℤ) : ℚ) * (2 : ℚ) ^ (e - 52) = (2 : ℚ) ^ (e + 1) := by
    have := two_zpow_split (e + 1) 53
    rw [show e + 1 - ((53 : ℕ) : ℤ) = e - 52 by push_cast; ring] at this
    exact this
  have l1 : ((2 ^ 52 : ℤ) : ℚ) ≤ x / 2 ^ (e - 52) := by
    rw [le_div_iff₀ hu]
    have := s52
    push_cast at this ⊢
    linarith
  have l2 : x / 2 ^ (e - 52) ≤ ((2 ^ 53 : ℤ) : ℚ) := by
    rw [div_le_iff₀ hu]
    linarith
  have r1 := roundHalfEven_mono l1
  have r2 := roundHalfEven_mono l2
  rw [roundHalfEven_intCast] at r1 r2
  have r1q : ((2 ^ 52 : ℤ) : ℚ) ≤ (roundHalfEven (x / 2 ^ (e - 52)) : ℚ) := by exact_mod_cast r1
  have r2q : (roundHalfEven (x / 2 ^ (e - 52)) : ℚ) ≤ ((2 ^ 53 : ℤ) : ℚ) := by exact_mod_cast r2
  constructor
  · calc (2 : ℚ) ^ e = ((2 ^ 52 : ℤ) : ℚ) * (2 : ℚ) ^ (e - 52) := by
          have := s52; push_cast at this ⊢; linarith
      _ ≤ _ := mul_le_mul_of_nonneg_right r1q hu.le
  · calc _ ≤ ((2 ^ 53 : ℤ) : ℚ) * (2 : ℚ) ^ (e - 52) := mul_le_mul_of_nonneg_right r2q hu.le
      _ = _ := s53

theorem toDouble_pos {x : ℚ} (hx : 0 < x) : 0 < toDouble x :=
  lt_of_lt_of_le (by positivity) (toDouble_bracket hx).1

theorem toDouble_nonneg {x : ℚ} (hx : 0 ≤ x) : 0 ≤ toDouble x := by
  rcases hx.lt_or_eq with h | h
  · exact (toDouble_pos h).le
  · rw [← h, toDouble_zero]

theorem toDouble_mono_pos {x y : ℚ} (hx : 0 < x) (hxy : x ≤ y) : toDouble x ≤ toDouble y := by
  have hy : 0 < y := lt_of_lt_of_le hx hxy
  obtain ⟨x1, x2⟩ := binaryExponent_spec x hx.ne'
  obtain ⟨y1, y2⟩ := binaryExponent_spec y hy.ne'
  rw [abs_of_pos hx] at x1 x2
  rw [abs_of_pos hy] at y1 y2
  have hlt : (2 : ℚ) ^ binaryExponent x < (2 : ℚ) ^ (binaryExponent y + 1) := by linarith
  rw [zpow_lt_zpow_iff_right₀ (by norm_num)] at hlt
  rcases (show binaryExponent x ≤ binaryExponent y by omega).lt_or_eq with h | h
  · calc toDouble x ≤ (2 : ℚ) ^ (binaryExponent x + 1) := (toDouble_bracket hx).2
      _ ≤ (2 : ℚ) ^ binaryExponent y := zpow_le_zpow_right₀ (by norm_num) (by omega)
      _ ≤ toDouble y := (toDouble_bracket hy).1
  · rw [toDouble_of_pos hx, toDouble_of_pos hy, h]
    have hu : (0 : ℚ) < (2 : ℚ) ^ (binaryExponent y - 52) := by positivity
    apply mul_le_mul_of_nonneg_right _ hu.le
    have := roundHalfEven_mono (div_le_div_of_nonneg_right hxy hu.le)
    exact_mod_cast this

/-- Rounding to a double is monotone. -/
theorem toDouble_mono {x y : ℚ} (h : x ≤ y) : toDouble x ≤ toDouble y := by
  rcases lt_trichotomy 0 x with hx | hx | hx
  · exact toDouble_mono_pos hx h
  · rw [← hx, toDouble_zero]; exact toDouble_nonneg (hx ▸ h)
  · rcases le_or_lt 0 y with hy | hy
    · have := toDouble_nonneg (show 0 ≤ -x by linarith)
      rw [toDouble_neg] at this
      linarith [toDouble_nonneg hy]
    · have := toDouble_mono_pos (show 0 < -y by linarith) (show -y ≤ -x by linarith)
      rw [toDouble_neg, toDouble_neg] at this
      linarith

/-- An integer of magnitude below `2^53` is a double. -/
theorem toDouble_intCast (k : ℤ) (hk : |k| < 2 ^ 53) : toDouble (k : ℚ) = k := by
  have pos : ∀ k : ℤ, 0 < k → k < 2 ^ 53 → toDouble (k : ℚ) = k := by
    intro k h0 h53
    have hq : (0 : ℚ) < (k : ℚ) := by exact_mod_cast h0
    obtain ⟨x1, _⟩ := binaryExponent_spec (k : ℚ) hq.ne'
    rw [abs_of_pos hq] at x1
    rw [toDouble_of_pos hq]
    generalize binaryExponent (k : ℚ) = e at *
    have h53q : (k : ℚ) < (2 : ℚ) ^ (53 : ℤ) := by
      have h1 : (k : ℚ) < ((2 ^ 53 : ℤ) : ℚ) := by exact_mod_cast h53
      have h2 : ((2 ^ 53 : ℤ) : ℚ) = (2 : ℚ) ^ (53 : ℤ) := by norm_num
      rw [h2] at h1
      exact h1
    have he : e < 53 := by
      have : (2 : ℚ) ^ e < (2 : ℚ) ^ (53 : ℤ) := lt_of_le_of_lt x1 h53q
      rwa [zpow_lt_zpow_iff_right₀ (by norm_num)] at this
    obtain ⟨m, hm⟩ : ∃ m : ℕ, (m : ℤ) = 52 - e := ⟨(52 - e).toNat, by omega⟩
    have hu : (2 : ℚ) ^ (e - 52) = (((2 ^ m : ℤ) : ℚ))⁻¹ := by
      rw [show e - 52 = -(m : ℤ) by omega, zpow_neg, zpow_natCast]
      push_cast; rfl
    rw [hu, div_inv_eq_mul, ← Int.cast_mul, roundHalfEven_intCast]
    push_cast
    field_simp
  rcases lt_trichotomy k 0 with h | h | h
  · have hk2 : -k < 2 ^ 53 := by rw [abs_of_neg h] at hk; exact hk
    have := pos (-k) (by omega) hk2
    push_cast at this
    rw [toDouble_neg] at this
    linarith
  · subst h; simp [toDouble_zero]
  · exact pos k h (by rw [abs_of_pos h] at hk; exact hk)

/-- The relative error of rounding to a double is at most `2^-53`. -/
theorem toDouble_near (x : ℚ) : |toDouble x - x| ≤ |x| / 2 ^ 53 := by
  have pos : ∀ x : ℚ, 0 < x → |toDouble x - x| ≤ x / 2 ^ 53 := by
    intro x hx
    obtain ⟨x1, _⟩ := binaryExponent_spec x hx.ne'
    rw [abs_of_pos hx] at x1
    rw [toDouble_of_pos hx]
    generalize binaryExponent x = e at *
    have hu : (0 : ℚ) < (2 : ℚ) ^ (e - 52) := by positivity
    have hr := roundHalfEven_near (x / 2 ^ (e - 52))
    have e1 : (roundHalfEven (x / 2 ^ (e - 52)) : ℚ) * 2 ^ (e - 52) - x
        = ((roundHalfEven (x / 2 ^ (e - 52)) : ℚ) - x / 2 ^ (e - 52)) * 2 ^ (e - 52) := by
      field_simp
    rw [e1, abs_mul, abs_of_pos hu]
    have s53 : (2 : ℚ) ^ (e - 52) = (2 : ℚ) ^ e / 2 ^ 52 := by
      rw [zpow_sub₀ (by norm_num)]; norm_num
    calc _ ≤ 1 / 2 * (2 : ℚ) ^ (e - 52) := mul_le_mul_of_nonneg_right hr hu.le
      _ = (2 : ℚ) ^ e / 2 ^ 53 := by rw [s53]; ring
      _ ≤ x / 2 ^ 53 := div_le_div_of_nonneg_right x1 (by positivity)
  rcases lt_trichotomy x 0 with h | h | h
  · have := pos (-x) (by linarith)
    rw [toDouble_neg] at this
    rw [abs_of_neg h]
    rw [show toDouble x - x = -(-toDouble x - -x) by ring, abs_neg]
    exact this
  · subst h; simp [toDouble_zero]
  · rw [abs_of_pos h]; exact pos x h

theorem fired_of_append {s t : State} {pre : List Effect} (h : t.log = pre ++ s.log) :
    fired s t = pre := by
  simp [fired, h]

theorem jsRound_spec (x : ℚ) : (jsRound x : ℚ) ≤ x + 1 / 2 ∧ x - 1 / 2 < (jsRound x : ℚ) := by
  unfold jsRound
  constructor
  · exact Int.floor_le _
  · have := Int.lt_floor_add_one (x + 1 / 2)
    linarith

theorem jsRound_mono {x y : ℚ} (h : x ≤ y) : jsRound x ≤ jsRound y := by
  unfold jsRound
  exact Int.floor_mono (by linarith)

theorem jsRound_intCast (k : ℤ) : jsRound (k : ℚ) = k := by
  unfold jsRound
  rw [Int.floor_eq_iff]
  constructor <;> linarith

theorem round1_mono {x y : ℚ} (h : x ≤ y) : round1 x ≤ round1 y := by
  unfold round1 jsDiv jsMul
  apply toDouble_mono
  apply div_le_div_of_nonneg_right _ (by norm_num)
  exact_mod_cast jsRound_mono (toDouble_mono (by linarith))

/-- On an integer of moderate size `Math.round(x * 10) / 10` is exact. -/
theorem round1_intCast (n : ℤ) (h : |n| < 2 ^ 49) : round1 (n : ℚ) = n := by
  obtain ⟨h1, h2⟩ := abs_lt.mp h
  have h10 : |n * 10| < 2 ^ 53 := abs_lt.mpr ⟨by omega, by omega⟩
  have e1 : toDouble ((n : ℚ) * 10) = ((n * 10 : ℤ) : ℚ) := by
    rw [← toDouble_intCast (n * 10) h10]
    push_cast
    rfl
  have e2 : ((n * 10 : ℤ) : ℚ) / 10 = (n : ℚ) := by
    push_cast
    field_simp
  unfold round1 jsDiv jsMul
  rw [e1, jsRound_intCast, e2]
  exact toDouble_intCast n (abs_lt.mpr ⟨by omega, by omega⟩)

theorem jsAdd_intCast (a b : ℤ) (h : |a + b| < 2 ^ 53) :
    jsAdd (a : ℚ) (b : ℚ) = ((a + b : ℤ) : ℚ) := by
  unfold jsAdd
  rw [← Int.cast_add]
  exact toDouble_intCast _ h

theorem jsSub_intCast (a b : ℤ) (h : |a - b| < 2 ^ 53) :
    jsSub (a : ℚ) (b : ℚ) = ((a - b : ℤ) : ℚ) := by
  unfold jsSub
  rw [← Int.cast_sub]
  exact toDouble_intCast _ h

theorem round1_nonneg (x : ℚ) (hx : 0 ≤ x) : 0 ≤ round1 x := by
  have h := round1_mono hx
  have h0 : round1 0 = 0 := by decide!
  linarith

theorem round1_le_five (x : ℚ) (hx : x ≤ 5) : round1 x ≤ 5 := by
  have h := round1_mono hx
  have h5 : round1 5 = 5 := by decide!
  linarith

theorem closeFish_eq (s : State) :
    closeFish s =
      { s with isFishing := false,
               bossTimers := (match s.bossActiveWindowId with
                 | some id => clearTimeout id s.bossTimers
                 | none => s.bossTimers),
               bossActiveWindowId := none,
               bossVisible := false, fishAccumSec := 0, bossAccumSec := 0 } := by
  unfold closeFish
  cases h : s.bossActiveWindowId <;> simp [h]

theorem endOfDay_eq (s : State) (hd : s.dayEnded = false) :
    endOfDay s =
      if dailyPerf s < 6 then badEnd "公司不再需要你了（每日绩效不足）" (dayClosed s)
      else if s.mood < 50 then badEnd "不吃草的马儿（心情过低）" (dayClosed s)
      else if s.dailyCaught ≥ 3 then badEnd "再也不用摸鱼了（当日被抓≥3）" (dayClosed s)
      else if isFriday s.day then endOfDay_friday (dailyPerf s) (dayBooked s)
      else openDailySummaryInternal (dailyPerf s) (dayBooked s) := by
  unfold endOfDay
  rw [if_neg (by simp [hd])]
  simp only [dayBooked, dayClosed, closeFish_eq]
  rfl

theorem dayClosed_log (s : State) : (dayClosed s).log = s.log := by
  simp [dayClosed, closeFish_eq, closeModal]

theorem dayBooked_log (s : State) : (dayBooked s).log = s.log := by
  simp [dayBooked, dayClosed, closeFish_eq, closeModal]

theorem badEnd_log (msg : String) (s : State) :
    (badEnd msg s).log = [Effect.ending .bad msg] ++ s.log := by
  simp [badEnd, showEndingModal]

theorem goodEnd_log (msg : String) (s : State) :
    (goodEnd msg s).log = [Effect.ending .good msg] ++ s.log := by
  simp [goodEnd, showEndingModal]

theorem openDailySummaryInternal_log (p : ℚ) (s : State) :
    (openDailySummaryInternal p s).log
      = [Effect.dailySummary p (jsRound s.mood) (80 + s.dailyEventExpenses)] ++ s.log := by
  simp [openDailySummaryInternal, closeFish_eq, closeModal]

theorem endOfDay_perf_lt (s : State) (hd : s.dayEnded = false) (h : dailyPerf s < 6) :
    endOfDay s = badEnd "公司不再需要你了（每日绩效不足）" (dayClosed s) := by
  rw [endOfDay_eq s hd, if_pos h]

theorem endOfDay_mood_lt (s : State) (hd : s.dayEnded = false) (h : 6 ≤ dailyPerf s)
    (hm : s.mood < 50) :
    endOfDay s = badEnd "不吃草的马儿（心情过低）" (dayClosed s) := by
  rw [endOfDay_eq s hd, if_neg (not_lt.mpr h), if_pos hm]

theorem endOfDay_caught (s : State) (hd : s.dayEnded = false) (h : 6 ≤ dailyPerf s)
    (hm : 50 ≤ s.mood) (hc : 3 ≤ s.dailyCaught) :
    endOfDay s = badEnd "再也不用摸鱼了（当日被抓≥3）" (dayClosed s) := by
  rw [endOfDay_eq s hd, if_neg (not_lt.mpr h), if_neg (not_lt.mpr hm), if_pos hc]

theorem endOfDay_pass (s : State) (hd : s.dayEnded = false) (h : 6 ≤ dailyPerf s)
    (hm : 50 ≤ s.mood) (hc : s.dailyCaught < 3) :
    endOfDay s =
      if isFriday s.day then endOfDay_friday (dailyPerf s) (dayBooked s)
      else openDailySummaryInternal (dailyPerf s) (dayBooked s) := by
  rw [endOfDay_eq s hd, if_neg (not_lt.mpr h), if_neg (not_lt.mpr hm),
    if_neg (not_le.mpr hc)]

theorem endOfDay_friday_eq (p : ℚ) (s : State) :
    endOfDay_friday p s =
      if weeklyPerfTotal s < 50 then badEnd "公司不再需要你了（周绩效不足）" s
      else if s.weeklyCaught ≥ 5 then badEnd "再也不用摸鱼了（本周被抓≥5）" s
      else if (weekSettled s).money < 0 then badEnd "回老家吧（钱包<0）" (weekSettled s)
      else endOfDay_goodEndings p (weeklyPerfTotal s) (salary (weeklyPerfTotal s)) (weekSettled s) := by
  rfl

theorem endOfDay_goodEndings_eq (p total sal : ℚ) (s : State) :
    endOfDay_goodEndings p total sal s =
      match goodEndingOf total s with
      | some m => goodEnd m s
      | none => openDailySummaryInternal p (openWeeklySummaryInternal total sal 800 0 (weekReset s)) := by
  unfold endOfDay_goodEndings goodEndingOf
  split_ifs <;> first | rfl | simp [weekReset, *]

theorem endOfDay_goodEndings_log (p total sal : ℚ) (s : State) :
    (∃ m, (endOfDay_goodEndings p total sal s).log = [Effect.ending .good m] ++ s.log) ∨
    (endOfDay_goodEndings p total sal s).log =
      [Effect.dailySummary p (jsRound s.mood) (80 + s.dailyEventExpenses),
       Effect.weeklySummary total sal 1200] ++ s.log := by
  rw [endOfDay_goodEndings_eq]
  cases goodEndingOf total s with
  | some m => exact Or.inl ⟨m, goodEnd_log m s⟩
  | none =>
    right
    simp [openDailySummaryInternal, openWeeklySummaryInternal, weekReset, closeFish_eq, closeModal]
    norm_num

theorem endOfDay_friday_log (p : ℚ) (s : State) :
    ∃ pre, (endOfDay_friday p s).log = pre ++ s.log
      ∧ dailyPerfEnding ∉ pre ∧ moodEnding ∉ pre ∧ dailyCatchEnding ∉ pre := by
  rw [endOfDay_friday_eq]
  split_ifs
  · exact ⟨_, badEnd_log _ _, by decide, by decide, by decide⟩
  · exact ⟨_, badEnd_log _ _, by decide, by decide, by decide⟩
  · exact ⟨_, badEnd_log _ _, by decide, by decide, by decide⟩
  · rcases endOfDay_goodEndings_log p (weeklyPerfTotal s) (salary (weeklyPerfTotal s))
      (weekSettled s) with ⟨m, hm⟩ | h
    · exact ⟨_, hm, by simp [dailyPerfEnding], by simp [moodEnding], by simp [dailyCatchEnding]⟩
    · exact ⟨_, h, by simp [dailyPerfEnding], by simp [moodEnding], by simp [dailyCatchEnding]⟩

theorem badEnd_gameEnded (msg : String) (s : State) : (badEnd msg s).gameEnded = true := rfl

theorem goodEnd_gameEnded (msg : String) (s : State) : (goodEnd msg s).gameEnded = true := rfl

/-- What `endOfDay` hands to the presentation layer in each of the four cases of the
daily checks. -/
theorem endOfDay_fired_cases (s : State) (hd : s.dayEnded = false) :
    (dailyPerf s < 6 → fired s (endOfDay s) = [dailyPerfEnding])
    ∧ (6 ≤ dailyPerf s → s.mood < 50 → fired s (endOfDay s) = [moodEnding])
    ∧ (6 ≤ dailyPerf s → 50 ≤ s.mood → 3 ≤ s.dailyCaught →
        fired s (endOfDay s) = [dailyCatchEnding])
    ∧ (6 ≤ dailyPerf s → 50 ≤ s.mood → s.dailyCaught < 3 →
        dailyPerfEnding ∉ fired s (endOfDay s) ∧ moodEnding ∉ fired s (endOfDay s)
          ∧ dailyCatchEnding ∉ fired s (endOfDay s)) := by
  refine ⟨?_, ?_, ?_, ?_⟩
  · intro h
    apply fired_of_append
    rw [endOfDay_perf_lt s hd h, badEnd_log, dayClosed_log]
    rfl
  · intro h hm
    apply fired_of_append
    rw [endOfDay_mood_lt s hd h hm, badEnd_log, dayClosed_log]
    rfl
  · intro h hm hc
    apply fired_of_append
    rw [endOfDay_caught s hd h hm hc, badEnd_log, dayClosed_log]
    rfl
  · intro h hm hc
    rw [endOfDay_pass s hd h hm hc]
    split_ifs
    · obtain ⟨pre, hpre, h1, h2, h3⟩ := endOfDay_friday_log (dailyPerf s) (dayBooked s)
      rw [dayBooked_log] at hpre
      rw [fired_of_append hpre]
      exact ⟨h1, h2, h3⟩
    · have hlog := openDailySummaryInternal_log (dailyPerf s) (dayBooked s)
      rw [dayBooked_log] at hlog
      rw [fired_of_append hlog]
      simp [dailyPerfEnding, moodEnding, dailyCatchEnding]

theorem clamp_nonneg (n : ℚ) : 0 ≤ clamp n 0 100 := by
  unfold clamp; exact le_max_left _ _

theorem clamp_le (n : ℚ) : clamp n 0 100 ≤ 100 := by
  unfold clamp; exact max_le (by norm_num) (min_le_left _ _)

theorem MoodRelOk.of_eq {s t : State} (h : MoodRelOk s) (hm : t.mood = s.mood)
    (hr : t.relationship = s.relationship) : MoodRelOk t := by
  unfold MoodRelOk at *; rw [hm, hr]; exact h

theorem ok_showToast (s : State) (h : MoodRelOk s) : MoodRelOk (showToast s) := by
  unfold showToast; split_ifs
  · exact h
  · exact h.of_eq rfl rfl

theorem ok_showCenterToast (s : State) (h : MoodRelOk s) : MoodRelOk (showCenterToast s) := by
  unfold showCenterToast; split_ifs
  · exact h
  · exact h.of_eq rfl rfl

theorem ok_badEnd (m : String) (s : State) (h : MoodRelOk s) : MoodRelOk (badEnd m s) :=
  h.of_eq rfl rfl

theorem ok_goodEnd (m : String) (s : State) (h : MoodRelOk s) : MoodRelOk (goodEnd m s) :=
  h.of_eq rfl rfl

theorem ok_closeFish (s : State) (h : MoodRelOk s) : MoodRelOk (closeFish s) := by
  rw [closeFish_eq]; exact h.of_eq rfl rfl

theorem ok_closeModal (s : State) (h : MoodRelOk s) : MoodRelOk (closeModal s) :=
  h.of_eq rfl rfl

theorem ok_openDailySummaryInternal (p : ℚ) (s : State) (h : MoodRelOk s) :
    MoodRelOk (openDailySummaryInternal p s) := by
  refine h.of_eq ?_ ?_ <;> simp [openDailySummaryInternal, closeFish_eq, closeModal]

theorem ok_openWeeklySummaryInternal (a b c d : ℚ) (s : State) (h : MoodRelOk s) :
    MoodRelOk (openWeeklySummaryInternal a b c d s) := by
  refine h.of_eq ?_ ?_ <;> simp [openWeeklySummaryInternal, closeFish_eq, closeModal]

theorem ok_endOfDay_goodEndings (p t sal : ℚ) (s : State) (h : MoodRelOk s) :
    MoodRelOk (endOfDay_goodEndings p t sal s) := by
  rw [endOfDay_goodEndings_eq]
  cases goodEndingOf t s with
  | some m => exact ok_goodEnd _ _ h
  | none =>
    exact ok_openDailySummaryInternal _ _ (ok_openWeeklySummaryInternal _ _ _ _ _ (h.of_eq rfl rfl))

theorem ok_endOfDay_friday (p : ℚ) (s : State) (h : MoodRelOk s) :
    MoodRelOk (endOfDay_friday p s) := by
  rw [endOfDay_friday_eq]
  have hs : MoodRelOk (weekSettled s) := h.of_eq rfl rfl
  split_ifs
  · exact ok_badEnd _ _ h
  · exact ok_badEnd _ _ h
  · exact ok_badEnd _ _ hs
  · exact ok_endOfDay_goodEndings _ _ _ _ hs

theorem ok_dayClosed (s : State) (h : MoodRelOk s) : MoodRelOk (dayClosed s) := by
  refine h.of_eq ?_ ?_ <;> simp [dayClosed, closeFish_eq, closeModal]

theorem ok_dayBooked (s : State) (h : MoodRelOk s) : MoodRelOk (dayBooked s) := by
  refine h.of_eq ?_ ?_ <;> simp [dayBooked, dayClosed, closeFish_eq, closeModal]

theorem ok_endOfDay (s : State) (h : MoodRelOk s) : MoodRelOk (endOfDay s) := by
  cases hd : s.dayEnded with
  | true => unfold endOfDay; rw [if_pos hd]; exact h
  | false =>
    rw [endOfDay_eq s hd]
    split_ifs
    · exact ok_badEnd _ _ (ok_dayClosed s h)
    · exact ok_badEnd _ _ (ok_dayClosed s h)
    · exact ok_badEnd _ _ (ok_dayClosed s h)
    · exact ok_endOfDay_friday _ _ (ok_dayBooked s h)
    · exact ok_openDailySummaryInternal _ _ (ok_dayBooked s h)

theorem ok_proceedNextDayCore (s : State) : MoodRelOk s → MoodRelOk (proceedNextDayCore s) := by
  intro h
  unfold proceedNextDayCore
  simp only []
  split <;> (unfold MoodRelOk at *; simp; exact ⟨h.2.2.1, h.2.2.2⟩)

theorem ok_resetGame (s : State) : MoodRelOk (resetGame s) := by
  unfold MoodRelOk resetGame; norm_num

theorem ok_workClick_done (s : State) (h : MoodRelOk s) : MoodRelOk (workClick_done s) := by
  unfold workClick_done; split_ifs
  · exact ok_showCenterToast _ (h.of_eq rfl rfl)
  · exact h

theorem ok_workClick (s : State) (h : MoodRelOk s) : MoodRelOk (workClick s) := by
  unfold workClick
  have h1 : MoodRelOk (if s.isFishing then closeFish s else s) := by
    split_ifs
    · exact ok_closeFish s h
    · exact h
  generalize (if s.isFishing then closeFish s else s) = s1 at h1
  simp only []
  have h2 : MoodRelOk { s1 with clicksToday := s1.clicksToday + 1,
                                mood := clamp (s1.mood - 3) 0 100 } :=
    ⟨clamp_nonneg _, clamp_le _, h1.2.2.1, h1.2.2.2⟩
  have h3 : MoodRelOk { s1 with clicksToday := s1.clicksToday + 1 } := h1.of_eq rfl rfl
  split_ifs
  · exact ok_badEnd _ _ (ok_showCenterToast _ h2)
  · exact ok_workClick_done _ (ok_showCenterToast _ h2)
  · exact ok_badEnd _ _ h2
  · exact ok_workClick_done _ h2
  · exact ok_workClick_done _ h3

theorem applyOutcome_eq (o : Outcome) (r : ℚ) (s : State) :
    applyOutcome o r s =
      { s with
        mood := clamp (s.mood + o.mood) 0 100,
        money := s.money + (if o.special = some "lottery" then o.money + lotteryWin r else o.money),
        lotteryTimers :=
          if o.special = some "lottery" then s.lotteryTimers ++ [lotteryWin r] else s.lotteryTimers,
        weeklyExtraPerf := if o.perf > 0 then s.weeklyExtraPerf + o.perf else s.weeklyExtraPerf,
        dailyPenaltyPerf := if o.perf < 0 then s.dailyPenaltyPerf + |o.perf| else s.dailyPenaltyPerf,
        relationship :=
          if o.relationship ≠ 0 then clamp (s.relationship + o.relationship) 0 100
          else s.relationship,
        dailyEventExpenses :=
          if o.money < 0 then s.dailyEventExpenses + |o.money| else s.dailyEventExpenses,
        weeklyEventExpenses :=
          if o.money < 0 then s.weeklyEventExpenses + |o.money| else s.weeklyEventExpenses,
        pausedForEvent := false, lockEventOrBoss := false, modalOpen := false } := by
  unfold applyOutcome closeModal
  simp only []
  by_cases h1 : o.special = some "lottery" <;> by_cases h2 : o.perf > 0 <;>
    by_cases h3 : o.perf < 0 <;> by_cases h4 : o.relationship ≠ 0 <;>
    by_cases h5 : o.money < 0 <;>
    first
      | (exfalso; linarith)
      | (have h6 : o.perf ≠ 0 := by
           intro h; rw [h] at h2 h3; first | exact lt_irrefl _ h2 | exact lt_irrefl _ h3
         simp only [h1, h2, h3, h4, h5, h6, if_true, if_false, ne_eq, not_false_eq_true,
           not_true_eq_false])
      | (have h6 : o.perf = 0 := le_antisymm (not_lt.mp h2) (not_lt.mp h3)
         simp only [h1, h2, h3, h4, h5, h6, if_true, if_false, ne_eq, not_false_eq_true,
           not_true_eq_false, lt_irrefl])

theorem applyScriptedOutcome_eq (o : Outcome) (fl : List (String × String)) (c : String)
    (s : State) :
    applyScriptedOutcome o fl c s =
      { s with
        mood := clamp (s.mood + o.mood) 0 100,
        money := s.money + o.money,
        weeklyExtraPerf := if o.perf > 0 then s.weeklyExtraPerf + o.perf else s.weeklyExtraPerf,
        dailyPenaltyPerf := if o.perf < 0 then s.dailyPenaltyPerf + |o.perf| else s.dailyPenaltyPerf,
        relationship :=
          if o.relationship ≠ 0 then clamp (s.relationship + o.relationship) 0 100
          else s.relationship,
        dailyEventExpenses :=
          if o.money < 0 then s.dailyEventExpenses + |o.money| else s.dailyEventExpenses,
        weeklyEventExpenses :=
          if o.money < 0 then s.weeklyEventExpenses + |o.money| else s.weeklyEventExpenses,
        storyFlags := writeFlags c fl s.storyFlags,
        pausedForEvent := false, lockEventOrBoss := false, modalOpen := false } := by
  unfold applyScriptedOutcome closeModal
  simp only []
  by_cases h2 : o.perf > 0 <;>
    by_cases h3 : o.perf < 0 <;> by_cases h4 : o.relationship ≠ 0 <;>
    by_cases h5 : o.money < 0 <;>
    first
      | (exfalso; linarith)
      | (have h6 : o.perf ≠ 0 := by
           intro h; rw [h] at h2 h3; first | exact lt_irrefl _ h2 | exact lt_irrefl _ h3
         simp only [h2, h3, h4, h5, h6, if_true, if_false, ne_eq, not_false_eq_true,
           not_true_eq_false])
      | (have h6 : o.perf = 0 := le_antisymm (not_lt.mp h2) (not_lt.mp h3)
         simp only [h2, h3, h4, h5, h6, if_true, if_false, ne_eq, not_false_eq_true,
           not_true_eq_false, lt_irrefl])

theorem ok_triggerBoss (r rv : ℚ) (s : State) (h : MoodRelOk s) :
    MoodRelOk (triggerBoss r rv s) := by
  refine h.of_eq ?_ ?_ <;>
  · unfold triggerBoss
    split_ifs
    any_goals rfl
    simp only []
    split <;> rfl

theorem ok_bossWindowExpired (s : State) (h : MoodRelOk s) : MoodRelOk (bossWindowExpired s) := by
  refine h.of_eq ?_ ?_ <;>
  · unfold bossWindowExpired showToast badEnd showEndingModal
    simp only []
    split_ifs <;> rfl

theorem ok_applyOutcome (o : Outcome) (r : ℚ) (s : State) (h : MoodRelOk s) :
    MoodRelOk (applyOutcome o r s) := by
  rw [applyOutcome_eq]
  unfold MoodRelOk
  simp only []
  split_ifs
  · exact ⟨clamp_nonneg _, clamp_le _, clamp_nonneg _, clamp_le _⟩
  · exact ⟨clamp_nonneg _, clamp_le _, h.2.2.1, h.2.2.2⟩

theorem ok_randomChoice (ev : RandomEvent) (o : Outcome) (r : ℚ) (s : State) (h : MoodRelOk s) :
    MoodRelOk (randomChoice ev o r s) := by
  unfold randomChoice
  simp only []
  split_ifs
  · exact (ok_applyOutcome o r s h).of_eq rfl rfl
  · exact ok_applyOutcome o r s h

theorem ok_maybeEvent (f : ℤ) (r rp : ℚ) (s : State) (h : MoodRelOk s) :
    MoodRelOk (maybeEvent f r rp s) := by
  refine h.of_eq ?_ ?_ <;>
  · unfold maybeEvent openModal
    simp only []
    split_ifs
    any_goals rfl
    split <;> rfl

theorem ok_applyScriptedOutcome (o : Outcome) (fl : List (String × String)) (c : String)
    (s : State) (h : MoodRelOk s) : MoodRelOk (applyScriptedOutcome o fl c s) := by
  rw [applyScriptedOutcome_eq]
  unfold MoodRelOk
  simp only []
  split_ifs
  · exact ⟨clamp_nonneg _, clamp_le _, clamp_nonneg _, clamp_le _⟩
  · exact ⟨clamp_nonneg _, clamp_le _, h.2.2.1, h.2.2.2⟩

theorem ok_scriptedChoice (ev : ScriptedEvent) (o : Outcome) (c : String) (s : State)
    (h : MoodRelOk s) : MoodRelOk (scriptedChoice ev o c s) := by
  unfold scriptedChoice
  simp only []
  split_ifs
  · exact ok_applyScriptedOutcome _ _ _ _ (h.of_eq rfl rfl)
  · exact ok_applyScriptedOutcome _ _ _ _ h

theorem ok_checkScriptedEvents (rp : ℚ) (s : State) (h : MoodRelOk s) :
    MoodRelOk (checkScriptedEvents rp s) := by
  refine h.of_eq ?_ ?_ <;>
  · unfold checkScriptedEvents openModal
    simp only []
    split_ifs
    any_goals rfl
    split <;> rfl

theorem ok_crisisAck (s : State) (h : MoodRelOk s) : MoodRelOk (crisisAck s) := by
  refine h.of_eq ?_ ?_ <;>
  · unfold crisisAck closeModal showToast
    simp only []
    split_ifs <;> rfl

theorem ok_checkRelationshipEvents (s : State) (h : MoodRelOk s) :
    MoodRelOk (checkRelationshipEvents s) := by
  refine h.of_eq ?_ ?_ <;>
  · unfold checkRelationshipEvents openModal
    split_ifs <;> rfl

theorem ok_tick_fishing (d : TickDraws) (s : State) (h : MoodRelOk s) :
    MoodRelOk (tick_fishing d s) := by
  unfold tick_fishing
  simp only []
  split_ifs
  · exact ok_triggerBoss _ _ _ ⟨clamp_nonneg _, clamp_le _, h.2.2.1, h.2.2.2⟩
  · exact ⟨clamp_nonneg _, clamp_le _, h.2.2.1, h.2.2.2⟩
  · exact ok_triggerBoss _ _ _ (h.of_eq rfl rfl)
  · exact h.of_eq rfl rfl
  · exact h

theorem ok_tick_random (d : TickDraws) (s : State) (h : MoodRelOk s) :
    MoodRelOk (tick_random d s) := by
  unfold tick_random
  simp only []
  split_ifs
  · exact ok_maybeEvent _ _ _ _ (h.of_eq rfl rfl)
  · exact h.of_eq rfl rfl
  · exact h

theorem ok_tick_scripted (d : TickDraws) (s : State) (h : MoodRelOk s) :
    MoodRelOk (tick_scripted d s) := by
  unfold tick_scripted
  simp only []
  split_ifs
  · exact ok_checkScriptedEvents _ _ (h.of_eq rfl rfl)
  · exact h.of_eq rfl rfl
  · exact h

theorem tick_eq (d : TickDraws) (s : State) (hg : s.gameEnded = false) (hd : s.dayEnded = false)
    (hp : s.prestart = false) (hpa : s.pausedForEvent = false) :
    tick d s =
      if (tickChecked d s).secondsLeft ≤ 0 then endOfDay { tickChecked d s with secondsLeft := 0 }
      else tickChecked d s := by
  unfold tick
  rw [if_neg (by simp [hg]), if_neg (by simp [hd]), if_neg (by simp [hp]), if_neg (by simp [hpa])]
  rfl

theorem ok_tickChecked (d : TickDraws) (s : State) (h : MoodRelOk s) :
    MoodRelOk (tickChecked d s) := by
  unfold tickChecked
  have h1 : MoodRelOk (tick_scripted d (tick_random d (tick_fishing d
        { s with secondsLeft := s.secondsLeft - 1 }))) :=
      ok_tick_scripted _ _ (ok_tick_random _ _ (ok_tick_fishing _ _ (h.of_eq rfl rfl)))
  simp only []
  split_ifs
  · exact ok_checkRelationshipEvents _ h1
  · exact h1

theorem ok_tick (d : TickDraws) (s : State) (h : MoodRelOk s) : MoodRelOk (tick d s) := by
  by_cases hg : s.gameEnded = true
  · unfold tick; rw [if_pos hg]; exact h
  by_cases hd : s.dayEnded = true
  · unfold tick; rw [if_neg hg, if_pos hd]; exact h
  by_cases hp : s.prestart = true
  · unfold tick; rw [if_neg hg, if_neg hd, if_pos hp]; exact h
  by_cases hpa : s.pausedForEvent = true
  · unfold tick; rw [if_neg hg, if_neg hd, if_neg hp, if_pos hpa]; exact h
  rw [tick_eq d s (by simpa using hg) (by simpa using hd) (by simpa using hp) (by simpa using hpa)]
  have h2 := ok_tickChecked d s h
  split_ifs
  · exact ok_endOfDay _ (h2.of_eq rfl rfl)
  · exact h2

theorem ok_runHandler (hd : Handler) (r : ℚ) (s : State) (h : MoodRelOk s) :
    MoodRelOk (runHandler hd r s) := by
  cases hd with
  | random ev o => exact ok_randomChoice ev o r s h
  | scripted ev o c => exact ok_scriptedChoice ev o c s h
  | crisis => exact ok_crisisAck s h

theorem ok_step (s : State) (a : Action) (h : MoodRelOk s) : MoodRelOk (step s a) := by
  cases a with
  | start => simp only [step]; split_ifs; exact h.of_eq rfl rfl; exact h
  | tick d => exact ok_tick d s h
  | workClick => exact ok_workClick s h
  | openFish => exact h.of_eq rfl rfl
  | closeFish => simp only [step]; split_ifs; exact ok_closeFish s h; exact h
  | opt1 r =>
    simp only [step]; split_ifs
    · split
      · exact ok_runHandler _ _ _ h
      · exact h
    · exact h
  | opt2 r =>
    simp only [step]; split_ifs
    · split
      · exact ok_runHandler _ _ _ h
      · exact h
    · exact h
  | toastClose => simp only [step]; split_ifs; exact h.of_eq rfl rfl; exact h
  | bossWindow id =>
    simp only [step]; split_ifs
    · exact ok_bossWindowExpired _ (h.of_eq rfl rfl)
    · exact h
  | bossHide => simp only [step]; split_ifs; exact h.of_eq rfl rfl; exact h
  | lotteryToast =>
    simp only [step]; split
    · exact ok_showCenterToast _ (h.of_eq rfl rfl)
    · exact h
  | nextDay =>
    simp only [step]; split_ifs
    · exact ok_proceedNextDayCore _ (h.of_eq rfl rfl)
    · exact h
  | restart => simp only [step]; split_ifs; exact ok_resetGame _; exact h

theorem ok_init : MoodRelOk init := by
  unfold MoodRelOk init; norm_num

theorem weekSettled_log (s : State) : (weekSettled s).log = s.log := rfl

theorem dayBooked_weeklyPerfTotal (s : State) :
    weeklyPerfTotal (dayBooked s)
      = round1 (jsAdd (round1 (jsAdd s.weeklyBasePerf (dailyPerf s)))
          (min s.weeklyExtraPerf 20)) := by
  simp [weeklyPerfTotal, dayBooked, dayClosed, closeFish_eq, closeModal]

theorem dayBooked_money (s : State) : (dayBooked s).money = s.money := by
  simp [dayBooked, dayClosed, closeFish_eq, closeModal]

theorem dayBooked_mood (s : State) : (dayBooked s).mood = s.mood := by
  simp [dayBooked, dayClosed, closeFish_eq, closeModal]

theorem dayBooked_dailyEventExpenses (s : State) :
    (dayBooked s).dailyEventExpenses = s.dailyEventExpenses := by
  simp [dayBooked, dayClosed, closeFish_eq, closeModal]

theorem dayBooked_weeklyCaught (s : State) : (dayBooked s).weeklyCaught = s.weeklyCaught := by
  simp [dayBooked, dayClosed, closeFish_eq, closeModal]

theorem openDailySummaryInternal_money (p : ℚ) (s : State) :
    (openDailySummaryInternal p s).money = round1 (jsSub s.money 80) := by
  simp [openDailySummaryInternal, closeFish_eq, closeModal]

/-- What the weekly block does once the weekly performance and catch checks have passed:
an ending with the settled money, or both summaries and the daily deduction on top. -/
theorem endOfDay_friday_settled (p : ℚ) (s : State) (ht : 50 ≤ weeklyPerfTotal s)
    (hc : s.weeklyCaught < 5) :
    ((∃ k m, (endOfDay_friday p s).log = [Effect.ending k m] ++ s.log)
        ∧ (endOfDay_friday p s).money
            = round1 (jsSub (jsAdd s.money (salary (weeklyPerfTotal s))) 800))
    ∨ ((endOfDay_friday p s).log =
          [Effect.dailySummary p (jsRound s.mood) (80 + s.dailyEventExpenses),
           Effect.weeklySummary (weeklyPerfTotal s) (salary (weeklyPerfTotal s)) 1200] ++ s.log
        ∧ (endOfDay_friday p s).money
            = round1 (jsSub (round1 (jsSub (jsAdd s.money (salary (weeklyPerfTotal s))) 800)) 80)
        ∧ (endOfDay_friday p s).weeklyBasePerf = 0 ∧ (endOfDay_friday p s).weeklyExtraPerf = 0
        ∧ (endOfDay_friday p s).weeklyCaught = 0
        ∧ (endOfDay_friday p s).weeklyEventExpenses = 0) := by
  rw [endOfDay_friday_eq, if_neg (not_lt.mpr ht), if_neg (Nat.not_le.mpr hc)]
  split_ifs
  · exact Or.inl ⟨⟨_, _, badEnd_log _ _⟩, rfl⟩
  · rw [endOfDay_goodEndings_eq]
    cases goodEndingOf (weeklyPerfTotal s) (weekSettled s) with
    | some m => exact Or.inl ⟨⟨_, _, goodEnd_log _ _⟩, rfl⟩
    | none =>
      right
      simp [openDailySummaryInternal, openWeeklySummaryInternal, weekReset, weekSettled,
        closeFish_eq, closeModal]
      norm_num

theorem fired_self (s : State) : fired s s = [] := by
  simp [fired]

theorem endOfDay_friday_weekly (p : ℚ) (s : State) :
    ∃ pre, (endOfDay_friday p s).log = pre ++ s.log ∧ ∃ e ∈ pre, isWeeklyEffect e = true := by
  rw [endOfDay_friday_eq]
  split_ifs
  · exact ⟨_, badEnd_log _ _, _, List.mem_singleton_self _, by decide⟩
  · exact ⟨_, badEnd_log _ _, _, List.mem_singleton_self _, by decide⟩
  · exact ⟨_, badEnd_log _ _, _, List.mem_singleton_self _, by decide⟩
  · rcases endOfDay_goodEndings_log p (weeklyPerfTotal s) (salary (weeklyPerfTotal s))
      (weekSettled s) with ⟨m, hm⟩ | h
    · exact ⟨_, hm, _, List.mem_singleton_self _, rfl⟩
    · exact ⟨_, h, Effect.weeklySummary (weeklyPerfTotal s) (salary (weeklyPerfTotal s)) 1200,
        by simp, rfl⟩

theorem endOfDay_not_friday (s : State) (hd : s.dayEnded = false) (hp : 6 ≤ dailyPerf s)
    (hm : 50 ≤ s.mood) (hc : s.dailyCaught < 3) (hf : ¬ isFriday s.day) :
    endOfDay s = openDailySummaryInternal (dailyPerf s) (dayBooked s) := by
  rw [endOfDay_pass s hd hp hm hc, if_neg hf]

theorem bossWindowExpired_fishing (s : State) (hf : s.isFishing = true) :
    (bossWindowExpired s).dailyCaught = s.dailyCaught + 1
    ∧ (bossWindowExpired s).weeklyCaught = s.weeklyCaught + 1
    ∧ (bossWindowExpired s).dailyPenaltyPerf = s.dailyPenaltyPerf + 1
    ∧ (bossWindowExpired s).log =
        (if s.dailyCaught + 1 ≥ 3 then [dailyCatchEnding]
         else if s.weeklyCaught + 1 ≥ 5 then [weeklyCatchEnding] else []) ++ s.log
    ∧ (s.dailyCaught + 1 ≥ 3 ∨ s.weeklyCaught + 1 ≥ 5 → (bossWindowExpired s).gameEnded = true) := by
  unfold bossWindowExpired showToast badEnd showEndingModal
  simp only [hf, if_true]
  by_cases hg : s.gameEnded = true <;> by_cases h3 : s.dailyCaught + 1 ≥ 3 <;>
    by_cases h5 : s.weeklyCaught + 1 ≥ 5 <;>
    simp [hg, h3, h5, dailyCatchEnding, weeklyCatchEnding]

theorem bossWindowExpired_idle (s : State) (hf : s.isFishing = false) :
    bossWindowExpired s = { s with hideTimers := s.hideTimers + 1 } := by
  unfold bossWindowExpired
  simp [hf]

theorem maybeEvent_quiet (f : ℤ) (r rp : ℚ) (s : State) (hr : ¬ r < 6 / 10) :
    maybeEvent f r rp s = s := by
  unfold maybeEvent
  rw [if_neg hr]
  split_ifs <;> rfl

theorem tick_random_quiet (d : TickDraws) (s : State) (hr : ¬ d.event < 6 / 10) :
    tick_random d s =
      if bucket 40 s ≠ s.lastMinuteMark then
        { s with lastMinuteMark := bucket 40 s, lockEventOrBoss := false }
      else s := by
  unfold tick_random
  simp only [maybeEvent_quiet _ _ _ _ hr]
  split_ifs <;> rfl

theorem tick_scripted_quiet (d : TickDraws) (s : State) (hr : ¬ d.scriptedGate < 3 / 10) :
    tick_scripted d s = s := by
  unfold tick_scripted
  simp only []
  rw [if_neg (fun h => hr h.2)]

theorem checkRelationshipEvents_quiet (s : State) (hr : ¬ s.relationship < 40) :
    checkRelationshipEvents s = s := by
  unfold checkRelationshipEvents
  rw [if_neg hr]
  split_ifs <;> rfl

theorem tick_fishing_idle (d : TickDraws) (s : State) (hf : s.isFishing = false) :
    tick_fishing d s = s := by
  unfold tick_fishing
  simp [hf]

/-- A running tick without fishing, event or crisis only moves the clock and the 40-second
mark. -/
theorem tickChecked_quiet (d : TickDraws) (s : State) (hf : s.isFishing = false)
    (he : ¬ d.event < 6 / 10) (hs : ¬ d.scriptedGate < 3 / 10) (hr : ¬ s.relationship < 40) :
    ∃ m l, tickChecked d s =
      { s with secondsLeft := s.secondsLeft - 1, lastMinuteMark := m, lockEventOrBoss := l } := by
  unfold tickChecked
  rw [tick_fishing_idle d { s with secondsLeft := s.secondsLeft - 1 } hf,
    tick_random_quiet d _ he, tick_scripted_quiet d _ hs]
  have hq : ∀ t : State, t.relationship = s.relationship → checkRelationshipEvents t = t :=
    fun t ht => checkRelationshipEvents_quiet t (by rw [ht]; exact hr)
  simp only []
  split_ifs
  · exact ⟨_, _, hq _ rfl⟩
  · exact ⟨_, _, rfl⟩
  · exact ⟨s.lastMinuteMark, s.lockEventOrBoss, hq _ rfl⟩
  · exact ⟨s.lastMinuteMark, s.lockEventOrBoss, rfl⟩

theorem dailyProgress_le_one (s : State) : dailyProgress s ≤ 1 := min_le_left _ _

theorem dailyProgress_nonneg (s : State) : 0 ≤ dailyProgress s := by
  unfold dailyProgress jsDiv WORK_TARGET_CLICKS
  exact le_min (by norm_num) (toDouble_nonneg (div_nonneg (Nat.cast_nonneg _) (by norm_num)))

theorem dailyPerf_full (s : State) (hc : 400 ≤ s.clicksToday) (hp : s.dailyPenaltyPerf = 0) :
    dailyPerf s = 10 := by
  have h1 : (1 : ℚ) ≤ jsDiv (s.clicksToday : ℚ) (WORK_TARGET_CLICKS : ℚ) := by
    have e : toDouble 1 = 1 := by decide!
    rw [← e]
    unfold jsDiv WORK_TARGET_CLICKS
    apply toDouble_mono
    rw [le_div_iff₀ (by norm_num)]
    have : ((400 : ℕ) : ℚ) ≤ (s.clicksToday : ℚ) := by exact_mod_cast hc
    linarith
  unfold dailyPerf dailyProgress
  rw [min_eq_left h1, hp]
  decide!

theorem mem_events_lottery (ev : RandomEvent) (hev : ev ∈ events)
    (hid : ev.id = "lottery_ticket") : ev = lotteryTicket := by
  simp only [events, List.mem_cons, List.mem_singleton, List.not_mem_nil, or_false] at hev
  rcases hev with h | h | h | h | h | h | h | h | h | h | h
  all_goals first
    | exact h
    | (rw [h] at hid; exact absurd hid (by decide))

theorem Advances.refl (s : State) : Advances s s := ⟨id, id, fun _ h => h⟩

theorem Advances.trans {s t u : State} (h1 : Advances s t) (h2 : Advances t u) :
    Advances s u :=
  ⟨fun h => h2.1 (h1.1 h), fun h => h2.2.1 (h1.2.1 h), fun i h => h2.2.2 i (h1.2.2 i h)⟩

theorem Advances.of_same {s t : State} (hd : t.dailyTriggeredEvents = s.dailyTriggeredEvents)
    (ht : t.triggered = s.triggered) : Advances s t := by
  unfold Advances; rw [hd, ht]; exact ⟨id, id, fun _ h => h⟩

theorem Advances.after {s t u : State} (h : Advances t u)
    (hd : t.dailyTriggeredEvents = s.dailyTriggeredEvents) (ht : t.triggered = s.triggered) :
    Advances s u :=
  (Advances.of_same hd ht).trans h

theorem adv_showToast (s : State) : Advances s (showToast s) := by
  apply Advances.of_same <;> (unfold showToast; split_ifs <;> rfl)

theorem adv_showCenterToast (s : State) : Advances s (showCenterToast s) := by
  apply Advances.of_same <;> (unfold showCenterToast; split_ifs <;> rfl)

theorem adv_badEnd (m : String) (s : State) : Advances s (badEnd m s) :=
  Advances.of_same rfl rfl

theorem adv_goodEnd (m : String) (s : State) : Advances s (goodEnd m s) :=
  Advances.of_same rfl rfl

theorem adv_closeFish (s : State) : Advances s (closeFish s) := by
  rw [closeFish_eq]; exact Advances.of_same rfl rfl

theorem adv_openDailySummaryInternal (p : ℚ) (s : State) :
    Advances s (openDailySummaryInternal p s) := by
  apply Advances.of_same <;> simp [openDailySummaryInternal, closeFish_eq, closeModal]

theorem adv_openWeeklySummaryInternal (a b c d : ℚ) (s : State) :
    Advances s (openWeeklySummaryInternal a b c d s) := by
  apply Advances.of_same <;> simp [openWeeklySummaryInternal, closeFish_eq, closeModal]

theorem adv_endOfDay_goodEndings (p t sal : ℚ) (s : State) :
    Advances s (endOfDay_goodEndings p t sal s) := by
  rw [endOfDay_goodEndings_eq]
  cases goodEndingOf t s with
  | some m => exact adv_goodEnd _ _
  | none =>
    exact (Advances.of_same rfl rfl : Advances s (weekReset s)).trans
      ((adv_openWeeklySummaryInternal _ _ _ _ _).trans (adv_openDailySummaryInternal _ _))

theorem adv_endOfDay_friday (p : ℚ) (s : State) : Advances s (endOfDay_friday p s) := by
  rw [endOfDay_friday_eq]
  have hs : Advances s (weekSettled s) := Advances.of_same rfl rfl
  split_ifs
  · exact adv_badEnd _ _
  · exact adv_badEnd _ _
  · exact hs.trans (adv_badEnd _ _)
  · exact hs.trans (adv_endOfDay_goodEndings _ _ _ _)

theorem adv_dayClosed (s : State) : Advances s (dayClosed s) := by
  apply Advances.of_same <;> simp [dayClosed, closeFish_eq, closeModal]

theorem adv_dayBooked (s : State) : Advances s (dayBooked s) := by
  apply Advances.of_same <;> simp [dayBooked, dayClosed, closeFish_eq, closeModal]

theorem adv_endOfDay (s : State) : Advances s (endOfDay s) := by
  cases hd : s.dayEnded with
  | true => unfold endOfDay; rw [if_pos hd]; exact Advances.refl s
  | false =>
    rw [endOfDay_eq s hd]
    split_ifs
    · exact (adv_dayClosed s).trans (adv_badEnd _ _)
    · exact (adv_dayClosed s).trans (adv_badEnd _ _)
    · exact (adv_dayClosed s).trans (adv_badEnd _ _)
    · exact (adv_dayBooked s).trans (adv_endOfDay_friday _ _)
    · exact (adv_dayBooked s).trans (adv_openDailySummaryInternal _ _)

theorem proceedNextDayCore_dailyTriggeredEvents (s : State) :
    (proceedNextDayCore s).dailyTriggeredEvents = [] := by
  unfold proceedNextDayCore
  simp only []
  split <;> rfl

theorem proceedNextDayCore_triggered (s : State) :
    (proceedNextDayCore s).triggered = s.triggered := by
  unfold proceedNextDayCore
  simp only []
  split <;> rfl

theorem adv_proceedNextDayCore (s : State) : Advances s (proceedNextDayCore s) := by
  unfold Advances
  rw [proceedNextDayCore_dailyTriggeredEvents, proceedNextDayCore_triggered]
  exact ⟨fun _ => List.nodup_nil, id, fun _ h => h⟩

theorem adv_workClick_done (s : State) : Advances s (workClick_done s) := by
  unfold workClick_done; split_ifs
  · exact (Advances.of_same rfl rfl : Advances s { s with workDoneNotified := true }).trans
      (adv_showCenterToast _)
  · exact Advances.refl s

theorem adv_workClick (s : State) : Advances s (workClick s) := by
  unfold workClick
  have h1 : Advances s (if s.isFishing then closeFish s else s) := by
    split_ifs
    · exact adv_closeFish s
    · exact Advances.refl s
  generalize (if s.isFishing then closeFish s else s) = s1 at h1
  simp only []
  have h2 : Advances s1 { s1 with clicksToday := s1.clicksToday + 1,
                                  mood := clamp (s1.mood - 3) 0 100 } := Advances.of_same rfl rfl
  have h3 : Advances s1 { s1 with clicksToday := s1.clicksToday + 1 } := Advances.of_same rfl rfl
  split_ifs
  · exact h1.trans (h2.trans ((adv_showCenterToast _).trans (adv_badEnd _ _)))
  · exact h1.trans (h2.trans ((adv_showCenterToast _).trans (adv_workClick_done _)))
  · exact h1.trans (h2.trans (adv_badEnd _ _))
  · exact h1.trans (h2.trans (adv_workClick_done _))
  · exact h1.trans (h3.trans (adv_workClick_done _))

theorem adv_triggerBoss (r rv : ℚ) (s : State) : Advances s (triggerBoss r rv s) := by
  apply Advances.of_same <;>
  · unfold triggerBoss
    split_ifs
    any_goals rfl
    simp only []
    split <;> rfl

theorem adv_bossWindowExpired (s : State) : Advances s (bossWindowExpired s) := by
  apply Advances.of_same <;>
  · unfold bossWindowExpired showToast badEnd showEndingModal
    simp only []
    split_ifs <;> rfl

theorem adv_applyOutcome (o : Outcome) (r : ℚ) (s : State) : Advances s (applyOutcome o r s) := by
  rw [applyOutcome_eq]; exact Advances.of_same rfl rfl

theorem adv_randomChoice (ev : RandomEvent) (o : Outcome) (r : ℚ) (s : State) :
    Advances s (randomChoice ev o r s) := by
  unfold randomChoice
  simp only []
  split_ifs
  · exact (adv_applyOutcome o r s).trans (Advances.of_same rfl rfl)
  · exact adv_applyOutcome o r s

theorem adv_applyScriptedOutcome (o : Outcome) (fl : List (String × String)) (c : String)
    (s : State) : Advances s (applyScriptedOutcome o fl c s) := by
  rw [applyScriptedOutcome_eq]; exact Advances.of_same rfl rfl

theorem adv_scriptedChoice (ev : ScriptedEvent) (o : Outcome) (c : String) (s : State) :
    Advances s (scriptedChoice ev o c s) := by
  unfold scriptedChoice
  simp only []
  split_ifs
  · exact (Advances.of_same rfl rfl : Advances s
      { s with socialEventCount := s.socialEventCount + 1 }).trans
      (adv_applyScriptedOutcome _ _ _ _)
  · exact adv_applyScriptedOutcome _ _ _ _

theorem adv_crisisAck (s : State) : Advances s (crisisAck s) := by
  apply Advances.of_same <;>
  · unfold crisisAck closeModal showToast
    simp only []
    split_ifs <;> rfl

theorem adv_checkRelationshipEvents (s : State) : Advances s (checkRelationshipEvents s) := by
  apply Advances.of_same <;>
  · unfold checkRelationshipEvents openModal
    split_ifs <;> rfl

/-- What `maybeEvent` does to the record of the day: nothing, or it appends the id of a
catalog event that was not in it, binds the two options to that event, pauses and locks. -/
theorem maybeEvent_selects (f : ℤ) (r rp : ℚ) (s : State) :
    maybeEvent f r rp s = s
    ∨ ((maybeEvent f r rp s).dailyTriggeredEvents = s.dailyTriggeredEvents
        ∧ (maybeEvent f r rp s).modalOpen = s.modalOpen
        ∧ (maybeEvent f r rp s).opt1 = s.opt1)
    ∨ ∃ ev ∈ events, ev.id ∉ s.dailyTriggeredEvents
        ∧ (maybeEvent f r rp s).dailyTriggeredEvents = s.dailyTriggeredEvents ++ [ev.id]
        ∧ (maybeEvent f r rp s).opt1 = some (Handler.random ev ev.a)
        ∧ (maybeEvent f r rp s).opt2 = some (Handler.random ev ev.b)
        ∧ (maybeEvent f r rp s).modalOpen = true
        ∧ (maybeEvent f r rp s).pausedForEvent = true
        ∧ (maybeEvent f r rp s).lockEventOrBoss = true := by
  generalize ht : maybeEvent f r rp s = t
  unfold maybeEvent openModal at ht
  simp only [] at ht
  split_ifs at ht
  all_goals first | exact Or.inl ht.symm | skip
  split at ht
  · subst ht; exact Or.inr (Or.inl ⟨rfl, rfl, rfl⟩)
  · rename_i ev hev
    have hmem := List.get?_mem hev
    rw [List.mem_filter] at hmem
    subst ht
    refine Or.inr (Or.inr ⟨ev, hmem.1, ?_, rfl, rfl, rfl, rfl, rfl, rfl⟩)
    have := hmem.2
    simpa using this

theorem maybeEvent_triggered (f : ℤ) (r rp : ℚ) (s : State) :
    (maybeEvent f r rp s).triggered = s.triggered := by
  unfold maybeEvent openModal
  simp only []
  split_ifs
  any_goals rfl
  split <;> rfl

theorem adv_maybeEvent (f : ℤ) (r rp : ℚ) (s : State) : Advances s (maybeEvent f r rp s) := by
  unfold Advances
  rw [maybeEvent_triggered]
  refine ⟨?_, id, fun _ h => h⟩
  intro hn
  rcases maybeEvent_selects f r rp s with h | h | ⟨ev, _, hnot, hd, _⟩
  · rw [h]; exact hn
  · rw [h.1]; exact hn
  · rw [hd]
    exact List.Nodup.append hn (List.nodup_singleton _) (by simpa using hnot)

/-- What `checkScriptedEvents` does to the marks: nothing, or it marks a catalog event that
was unmarked and passed the tests of lines 1749-1766, binds the options to it, pauses and
locks. -/
theorem checkScriptedEvents_selects (rp : ℚ) (s : State) :
    checkScriptedEvents rp s = s
    ∨ ∃ ev ∈ scriptedEvents, ev.id ∉ s.triggered ∧ scriptedAvailable s ev = true
        ∧ (checkScriptedEvents rp s).triggered = ev.id :: s.triggered
        ∧ (checkScriptedEvents rp s).opt1 = some (Handler.scripted ev ev.a "A")
        ∧ (checkScriptedEvents rp s).opt2 = some (Handler.scripted ev ev.b "B")
        ∧ (checkScriptedEvents rp s).modalOpen = true
        ∧ (checkScriptedEvents rp s).pausedForEvent = true
        ∧ (checkScriptedEvents rp s).lockEventOrBoss = true
        ∧ (checkScriptedEvents rp s).dailyTriggeredEvents = s.dailyTriggeredEvents
        ∧ s.gameEnded = false ∧ s.dayEnded = false ∧ s.lockEventOrBoss = false
        ∧ ¬ (s.day = 1 ∧ ONE_DAY_SECONDS - s.secondsLeft < 60) := by
  generalize ht : checkScriptedEvents rp s = t
  unfold checkScriptedEvents openModal at ht
  simp only [] at ht
  split_ifs at ht with h1 h2 h3 h4 h5
  all_goals first | exact Or.inl ht.symm | skip
  split at ht
  · exact Or.inl ht.symm
  · rename_i ev hev
    have hmem := List.get?_mem hev
    rw [List.mem_filter] at hmem
    subst ht
    refine Or.inr ⟨ev, hmem.1, ?_, hmem.2, rfl, rfl, rfl, rfl, rfl, rfl, rfl, ?_, ?_, ?_, h4⟩
    · have := hmem.2
      unfold scriptedAvailable at this
      simp only [Bool.and_eq_true] at this
      simpa using this.1.1
    · simpa using h1
    · simpa using h2
    · simpa using h3

theorem adv_checkScriptedEvents (rp : ℚ) (s : State) :
    Advances s (checkScriptedEvents rp s) := by
  rcases checkScriptedEvents_selects rp s with h | ⟨ev, _, hnot, _, ht, _, _, _, _, _, hd, _⟩
  · rw [h]; exact Advances.refl s
  · unfold Advances
    rw [ht, hd]
    exact ⟨id, fun hn => List.nodup_cons.mpr ⟨hnot, hn⟩, fun i h => List.mem_cons_of_mem _ h⟩

theorem adv_tick_fishing (d : TickDraws) (s : State) : Advances s (tick_fishing d s) := by
  unfold tick_fishing
  simp only []
  split_ifs
  · exact (adv_triggerBoss _ _ _).after rfl rfl
  · exact Advances.of_same rfl rfl
  · exact (adv_triggerBoss _ _ _).after rfl rfl
  · exact Advances.of_same rfl rfl
  · exact Advances.refl s

theorem adv_tick_random (d : TickDraws) (s : State) : Advances s (tick_random d s) := by
  unfold tick_random
  simp only []
  split_ifs
  · exact (adv_maybeEvent _ _ _ _).after rfl rfl
  · exact Advances.of_same rfl rfl
  · exact Advances.refl s

theorem adv_tick_scripted (d : TickDraws) (s : State) : Advances s (tick_scripted d s) := by
  unfold tick_scripted
  simp only []
  split_ifs
  · exact (adv_checkScriptedEvents _ _).after rfl rfl
  · exact Advances.of_same rfl rfl
  · exact Advances.refl s

theorem adv_tickChecked (d : TickDraws) (s : State) : Advances s (tickChecked d s) := by
  unfold tickChecked
  have h1 : Advances s (tick_scripted d (tick_random d (tick_fishing d
        { s with secondsLeft := s.secondsLeft - 1 }))) :=
    ((adv_tick_fishing d { s with secondsLeft := s.secondsLeft - 1 }).trans
      ((adv_tick_random d _).trans (adv_tick_scripted d _))).after rfl rfl
  simp only []
  split_ifs
  · exact h1.trans (adv_checkRelationshipEvents _)
  · exact h1

theorem adv_tick (d : TickDraws) (s : State) : Advances s (tick d s) := by
  by_cases hg : s.gameEnded = true
  · unfold tick; rw [if_pos hg]; exact Advances.refl s
  by_cases hd : s.dayEnded = true
  · unfold tick; rw [if_neg hg, if_pos hd]; exact Advances.refl s
  by_cases hp : s.prestart = true
  · unfold tick; rw [if_neg hg, if_neg hd, if_pos hp]; exact Advances.refl s
  by_cases hpa : s.pausedForEvent = true
  · unfold tick; rw [if_neg hg, if_neg hd, if_neg hp, if_pos hpa]; exact Advances.refl s
  rw [tick_eq d s (by simpa using hg) (by simpa using hd) (by simpa using hp) (by simpa using hpa)]
  have h2 := adv_tickChecked d s
  split_ifs
  · exact h2.trans ((adv_endOfDay _).after rfl rfl)
  · exact h2

theorem adv_runHandler (hd : Handler) (r : ℚ) (s : State) : Advances s (runHandler hd r s) := by
  cases hd with
  | random ev o => exact adv_randomChoice ev o r s
  | scripted ev o c => exact adv_scriptedChoice ev o c s
  | crisis => exact adv_crisisAck s

/-- Every action other than the restart button advances the state. -/
theorem adv_step (s : State) (a : Action) (ha : a ≠ Action.restart) : Advances s (step s a) := by
  cases a with
  | start => simp only [step]; split_ifs; exact Advances.of_same rfl rfl; exact Advances.refl s
  | tick d => exact adv_tick d s
  | workClick => exact adv_workClick s
  | openFish => exact Advances.of_same rfl rfl
  | closeFish => simp only [step]; split_ifs; exact adv_closeFish s; exact Advances.refl s
  | opt1 r =>
    simp only [step]; split_ifs
    · split
      · exact adv_runHandler _ _ _
      · exact Advances.refl s
    · exact Advances.refl s
  | opt2 r =>
    simp only [step]; split_ifs
    · split
      · exact adv_runHandler _ _ _
      · exact Advances.refl s
    · exact Advances.refl s
  | toastClose => simp only [step]; split_ifs; exact Advances.of_same rfl rfl; exact Advances.refl s
  | bossWindow id =>
    simp only [step]; split_ifs
    · exact (adv_bossWindowExpired _).after rfl rfl
    · exact Advances.refl s
  | bossHide => simp only [step]; split_ifs; exact Advances.of_same rfl rfl; exact Advances.refl s
  | lotteryToast =>
    simp only [step]; split
    · exact (adv_showCenterToast _).after rfl rfl
    · exact Advances.refl s
  | nextDay =>
    simp only [step]; split_ifs
    · exact (adv_proceedNextDayCore _).after rfl rfl
    · exact Advances.refl s
  | restart => exact absurd rfl ha

/-- In every reachable state neither record of consumed events has a duplicate. -/
theorem reachable_nodup (s : State) (h : Reachable s) :
    s.dailyTriggeredEvents.Nodup ∧ s.triggered.Nodup := by
  induction h with
  | init => exact ⟨List.nodup_nil, List.nodup_nil⟩
  | step s a _ _ ih =>
    by_cases ha : a = Action.restart
    · subst ha
      simp only [step]
      split_ifs
      · exact ⟨List.nodup_nil, List.nodup_nil⟩
      · exact ih
    · have h := adv_step s a ha
      exact ⟨h.1 ih.1, h.2.1 ih.2⟩

theorem adv_run (actions : List Action) (s : State) (hno : Action.restart ∉ actions) :
    Advances s (run s actions) := by
  induction actions generalizing s with
  | nil => exact Advances.refl s
  | cons a rest ih =>
    have ha : a ≠ Action.restart := fun h => hno (by rw [h]; exact List.mem_cons_self _ _)
    have hr : Action.restart ∉ rest := fun h => hno (List.mem_cons_of_mem _ h)
    exact (adv_step s a ha).trans (ih (step s a) hr)

theorem reachable_run (actions : List Action) (s : State) (h : Reachable s)
    (hv : ∀ a ∈ actions, a.valid) : Reachable (run s actions) := by
  induction actions generalizing s with
  | nil => exact h
  | cons a rest ih =>
    exact ih (step s a) (Reachable.step s a h (hv a (List.mem_cons_self _ _)))
      (fun b hb => hv b (List.mem_cons_of_mem _ hb))

theorem goodEndingOf_eq_spec (t : ℚ) (s : State) (h1 : ¬ t < 50) (h2 : ¬ s.weeklyCaught ≥ 5)
    (h3 : ¬ s.money < 0) :
    (goodEndingOf t s).map (Effect.ending .good)
      = specWeeklyResult t s.weeklyCaught s.money s.mood s.relationship s.day
          s.highPerfWeeksStreak s.perfectFishWeeksStreak s.socialEventCount
          (s.storyFlags.lookup "xiaoya_friendship") := by
  unfold goodEndingOf specWeeklyResult
  simp only [List.find?, decide_eq_false h1, decide_eq_false h2, decide_eq_false h3]
  by_cases c1 : t ≥ 60 ∧ s.mood ≥ 70 ∧ s.relationship ≥ 65 ∧ s.money ≥ 2000 ∧ s.day ≥ 15
  · simp only [if_pos c1, decide_eq_true c1, Option.map, fullBalanceEnding]
  simp only [if_neg c1, decide_eq_false c1]
  by_cases c2 : s.highPerfWeeksStreak ≥ 3
  · simp only [if_pos c2, decide_eq_true c2, Option.map, modelEmployeeEnding]
  simp only [if_neg c2, decide_eq_false c2]
  by_cases c3 : s.perfectFishWeeksStreak ≥ 3 ∧ t ≥ 70
  · simp only [if_pos c3, decide_eq_true c3, Option.map, fishMasterEnding]
  simp only [if_neg c3, decide_eq_false c3]
  by_cases c4 : s.storyFlags.lookup "xiaoya_friendship" = some "A" ∧ s.relationship ≥ 70 ∧ s.day ≥ 15
  · simp only [if_pos c4, decide_eq_true c4, Option.map, bestPartnerEnding]
  simp only [if_neg c4, decide_eq_false c4]
  by_cases c5 : t ≥ 70 ∧ s.weeklyCaught = 0 ∧ s.day ≥ 12
  · simp only [if_pos c5, decide_eq_true c5, Option.map, efficiencyEnding]
  simp only [if_neg c5, decide_eq_false c5]
  by_cases c6 : s.relationship ≥ 85 ∧ s.day ≥ 15
  · simp only [if_pos c6, decide_eq_true c6, Option.map, popularEnding]
  simp only [if_neg c6, decide_eq_false c6]
  by_cases c7 : s.socialEventCount ≥ 5 ∧ s.relationship ≥ 65 ∧ s.day ≥ 20
  · simp only [if_pos c7, decide_eq_true c7, Option.map, socialEnding]
  simp only [if_neg c7, decide_eq_false c7]
  by_cases c8 : s.money > 6000
  · simp only [if_pos c8, decide_eq_true c8, Option.map, freedomEnding]
  simp only [if_neg c8, decide_eq_false c8]
  rfl

theorem weeklyResultOf_eq (s : State) :
    weeklyResultOf s =
      if weeklyPerfTotal (dayBooked s) < 50 then some weeklyPerfEnding
      else if (dayBooked s).weeklyCaught ≥ 5 then some weeklyCatchEnding
      else if (weekSettled (dayBooked s)).money < 0 then some moneyEnding
      else (goodEndingOf (weeklyPerfTotal (dayBooked s)) (weekSettled (dayBooked s))).map
        (Effect.ending .good) := by
  by_cases h1 : weeklyPerfTotal (dayBooked s) < 50
  · rw [if_pos h1]
    unfold weeklyResultOf specWeeklyResult
    simp [List.find?, h1]
  by_cases h2 : (dayBooked s).weeklyCaught ≥ 5
  · rw [if_neg h1, if_pos h2]
    rw [dayBooked_weeklyCaught] at h2
    unfold weeklyResultOf specWeeklyResult
    simp [List.find?, h1, h2]
  by_cases h3 : (weekSettled (dayBooked s)).money < 0
  · rw [if_neg h1, if_neg h2, if_pos h3]
    rw [dayBooked_weeklyCaught] at h2
    have h3' : round1 (jsSub (jsAdd s.money (salary (weeklyPerfTotal (dayBooked s)))) 800)
        < 0 := by
      have e : (weekSettled (dayBooked s)).money
          = round1 (jsSub (jsAdd s.money (salary (weeklyPerfTotal (dayBooked s)))) 800) := by
        simp [weekSettled, dayBooked_money]
      rw [← e]; exact h3
    unfold weeklyResultOf specWeeklyResult
    simp [List.find?, h1, h2, h3']
  rw [if_neg h1, if_neg h2, if_neg h3]
  rw [goodEndingOf_eq_spec _ (weekSettled (dayBooked s)) h1 h2 h3]
  unfold weeklyResultOf
  simp [weekSettled, dayBooked, dayClosed, closeFish_eq, closeModal]

theorem applied_fields {o : Outcome} {s t : State} (h : Applied o s t) :
    t.mood = clamp (s.mood + o.mood) 0 100
    ∧ t.money = s.money + o.money
    ∧ t.weeklyExtraPerf = (if o.perf > 0 then s.weeklyExtraPerf + o.perf else s.weeklyExtraPerf)
    ∧ t.dailyPenaltyPerf
        = (if o.perf < 0 then s.dailyPenaltyPerf + |o.perf| else s.dailyPenaltyPerf)
    ∧ t.relationship
        = (if o.relationship ≠ 0 then clamp (s.relationship + o.relationship) 0 100
           else s.relationship)
    ∧ t.dailyEventExpenses
        = (if o.money < 0 then s.dailyEventExpenses + |o.money| else s.dailyEventExpenses)
    ∧ t.weeklyEventExpenses
        = (if o.money < 0 then s.weeklyEventExpenses + |o.money| else s.weeklyEventExpenses) := by
  rcases h with ⟨r, hl, rfl⟩ | ⟨fl, c, rfl⟩
  · rw [applyOutcome_eq]
    refine ⟨rfl, ?_, rfl, rfl, rfl, rfl, rfl⟩
    show s.money + (if o.special = some "lottery" then o.money + lotteryWin r else o.money) = _
    rw [if_neg hl]
  · rw [applyScriptedOutcome_eq]
    exact ⟨rfl, rfl, rfl, rfl, rfl, rfl, rfl⟩

theorem clamp_of_mem (x : ℚ) (h0 : 0 ≤ x) (h1 : x ≤ 100) : clamp x 0 100 = x := by
  unfold clamp
  rw [min_eq_right h1, max_eq_right h0]

theorem perfBuckets_of_fields {o : Outcome} {s t : State}
    (he : t.weeklyExtraPerf
      = (if o.perf > 0 then s.weeklyExtraPerf + o.perf else s.weeklyExtraPerf))
    (hp : t.dailyPenaltyPerf
      = (if o.perf < 0 then s.dailyPenaltyPerf + |o.perf| else s.dailyPenaltyPerf)) :
    PerfBuckets o s t := by
  refine ⟨fun h => ?_, fun h => ?_, fun h => ?_⟩
  · rw [he, hp, if_pos h, if_neg (not_lt.mpr (le_of_lt h))]; exact ⟨rfl, rfl⟩
  · rw [he, hp, if_pos h, if_neg (not_lt.mpr (le_of_lt h))]; exact ⟨rfl, rfl⟩
  · rw [he, hp, h, if_neg (lt_irrefl _), if_neg (lt_irrefl _)]; exact ⟨rfl, rfl⟩

theorem randomChoice_perf (ev : RandomEvent) (o : Outcome) (r : ℚ) (s : State) :
    (randomChoice ev o r s).weeklyExtraPerf = (applyOutcome o r s).weeklyExtraPerf
    ∧ (randomChoice ev o r s).dailyPenaltyPerf = (applyOutcome o r s).dailyPenaltyPerf := by
  unfold randomChoice
  simp only []
  split_ifs <;> exact ⟨rfl, rfl⟩

theorem scriptedChoice_eq (ev : ScriptedEvent) (o : Outcome) (c : String) (s : State) :
    scriptedChoice ev o c s =
      applyScriptedOutcome o ev.flags c
        { s with socialEventCount :=
                   if ev.id = "DAY4_XIAOYA_LUNCH" ∧ o.relationship > 0 then s.socialEventCount + 1
                   else s.socialEventCount } := by
  unfold scriptedChoice
  simp only []
  split_ifs <;> rfl

theorem lookup_cons_eq (f k v : String) (rest : List (String × String)) :
    List.lookup f ((k, v) :: rest) = if f = k then some v else List.lookup f rest := by
  by_cases h : f = k
  · rw [if_pos h, h]; simp [List.lookup]
  · rw [if_neg h]; simp only [List.lookup, beq_eq_false_iff_ne.mpr h]

theorem lookup_setFlag (key value f : String) (l : List (String × String)) :
    (setFlag key value l).lookup f = if f = key then some value else l.lookup f := by
  induction l with
  | nil =>
    unfold setFlag
    rw [lookup_cons_eq]
  | cons p rest ih =>
    obtain ⟨k, v⟩ := p
    unfold setFlag
    by_cases hk : k = key
    · rw [if_pos hk, lookup_cons_eq, lookup_cons_eq, hk]
      by_cases h : f = key
      · rw [if_pos h, if_pos h]
      · rw [if_neg h, if_neg h, if_neg h]
    · rw [if_neg hk, lookup_cons_eq, lookup_cons_eq, ih]
      by_cases hf : f = k
      · have h' : ¬ f = key := by rw [hf]; exact hk
        rw [if_pos hf, if_neg h', if_pos hf]
      · rw [if_neg hf, if_neg hf]

theorem lookup_writeFlags (c f : String) (fl flags : List (String × String)) :
    (writeFlags c fl flags).lookup f
      = if fl.any (fun p => p.1 == f && (p.2 == c || p.2 == "A_or_B")) then some c
        else flags.lookup f := by
  induction fl generalizing flags with
  | nil => simp [writeFlags]
  | cons p rest ih =>
    obtain ⟨k, d⟩ := p
    unfold writeFlags
    by_cases hd : d = c ∨ d = "A_or_B"
    · rw [if_pos hd, ih, lookup_setFlag]
      have hb : (d == c || d == "A_or_B") = true := by simpa using hd
      by_cases hk : f = k
      · have hkf : (k == f) = true := by simpa using hk.symm
        simp only [List.any_cons, hkf, hb, Bool.and_self, Bool.true_or, if_true]
        split_ifs <;> rfl
      · have hkf : (k == f) = false := beq_eq_false_iff_ne.mpr (fun h => hk h.symm)
        simp only [List.any_cons, hkf, Bool.false_and, Bool.false_or, if_neg hk]
    · rw [if_neg hd, ih]
      have hb : (d == c || d == "A_or_B") = false := by simpa using hd
      simp only [List.any_cons, hb, Bool.and_false, Bool.false_or]

theorem scriptedEvents_day_ne_zero : ∀ ev ∈ scriptedEvents, ev.day ≠ some 0 := by
  decide

theorem sameCore_showCenterToast (s : State) : SameCore s (showCenterToast s) := by
  unfold showCenterToast; split_ifs <;> exact ⟨rfl, rfl, rfl, rfl⟩

theorem sameCore_workClick_done (s : State) : SameCore s (workClick_done s) := by
  unfold workClick_done; split_ifs
  · exact sameCore_showCenterToast { s with workDoneNotified := true }
  · exact ⟨rfl, rfl, rfl, rfl⟩

theorem sameCore_closeFish (s : State) : SameCore s (closeFish s) := by
  rw [closeFish_eq]; exact ⟨rfl, rfl, rfl, rfl⟩

theorem workClick_fields (s : State) :
    (workClick s).clicksToday = s.clicksToday + 1
    ∧ (workClick s).mood
        = (if (s.clicksToday + 1) % 16 = 0 then clamp (s.mood - 3) 0 100 else s.mood)
    ∧ (workClick s).gameEnded
        = (if (s.clicksToday + 1) % 16 = 0 ∧ clamp (s.mood - 3) 0 100 < 50 then true
           else s.gameEnded)
    ∧ (workClick s).log
        = (if (s.clicksToday + 1) % 16 = 0 ∧ clamp (s.mood - 3) 0 100 < 50 then
             moodEnding :: s.log
           else s.log) := by
  have c1 : ∀ x : State, (showCenterToast x).clicksToday = x.clicksToday :=
    fun x => (sameCore_showCenterToast x).1
  have c2 : ∀ x : State, (showCenterToast x).mood = x.mood :=
    fun x => (sameCore_showCenterToast x).2.1
  have c3 : ∀ x : State, (showCenterToast x).gameEnded = x.gameEnded :=
    fun x => (sameCore_showCenterToast x).2.2.1
  have c4 : ∀ x : State, (showCenterToast x).log = x.log :=
    fun x => (sameCore_showCenterToast x).2.2.2
  have w1 : ∀ x : State, (workClick_done x).clicksToday = x.clicksToday :=
    fun x => (sameCore_workClick_done x).1
  have w2 : ∀ x : State, (workClick_done x).mood = x.mood :=
    fun x => (sameCore_workClick_done x).2.1
  have w3 : ∀ x : State, (workClick_done x).gameEnded = x.gameEnded :=
    fun x => (sameCore_workClick_done x).2.2.1
  have w4 : ∀ x : State, (workClick_done x).log = x.log :=
    fun x => (sameCore_workClick_done x).2.2.2
  have f1 : ∀ x : State, (closeFish x).clicksToday = x.clicksToday :=
    fun x => (sameCore_closeFish x).1
  have f2 : ∀ x : State, (closeFish x).mood = x.mood :=
    fun x => (sameCore_closeFish x).2.1
  have f3 : ∀ x : State, (closeFish x).gameEnded = x.gameEnded :=
    fun x => (sameCore_closeFish x).2.2.1
  have f4 : ∀ x : State, (closeFish x).log = x.log :=
    fun x => (sameCore_closeFish x).2.2.2
  generalize ht : workClick s = t
  unfold workClick badEnd showEndingModal at ht
  simp only [] at ht
  unfold moodEnding
  split_ifs at ht <;> subst ht <;>
    simp only [c1, c2, c3, c4, w1, w2, w3, w4, f1, f2, f3, f4] at * <;>
    refine ⟨?_, ?_, ?_, ?_⟩ <;> (try split_ifs) <;>
    first
      | rfl
      | trivial
      | (exfalso; simp_all)

theorem clicks_succ (n : ℕ) (s : State) : clicks (n + 1) s = workClick (clicks n s) := by
  unfold clicks run
  rw [List.replicate_succ', List.foldl_append]
  rfl

theorem mood_after_click (k : ℕ) :
    clamp (max 0 (100 - 3 * (k : ℚ)) - 3) 0 100 = max 0 (100 - 3 * ((k + 1 : ℕ) : ℚ)) := by
  have hk : (0 : ℚ) ≤ (k : ℚ) := Nat.cast_nonneg k
  unfold clamp
  push_cast
  rcases le_total 0 (100 - 3 * (k : ℚ)) with h | h
  · rw [max_eq_right h, min_eq_right (by linarith)]
    congr 1
    ring
  · rw [max_eq_left h, min_eq_right (by norm_num), max_eq_left (by norm_num),
      max_eq_left (by linarith)]

theorem mood_low_iff (k : ℕ) : max 0 (100 - 3 * (k : ℚ)) < 50 ↔ 17 ≤ k := by
  constructor
  · intro h
    by_contra hk
    have hk2 : k ≤ 16 := by omega
    have hk3 : (k : ℚ) ≤ 16 := by exact_mod_cast hk2
    have := le_max_right 0 (100 - 3 * (k : ℚ))
    linarith
  · intro hk
    have hk3 : (17 : ℚ) ≤ (k : ℚ) := by exact_mod_cast hk
    exact max_lt (by norm_num) (by linarith)

/-- The state after `n` work clicks in a row from the start of a day. -/
theorem clicks_fields (s : State) (hc : s.clicksToday = 0) (hm : s.mood = 100)
    (hg : s.gameEnded = false) (n : ℕ) :
    (clicks n s).clicksToday = n
    ∧ (clicks n s).mood = max 0 (100 - 3 * ((n / 16 : ℕ) : ℚ))
    ∧ ((clicks n s).gameEnded = true ↔ 272 ≤ n)
    ∧ (clicks n s).log = List.replicate (n / 16 - 16) moodEnding ++ s.log := by
  induction n with
  | zero =>
    refine ⟨hc, ?_, ?_, ?_⟩
    · show s.mood = _
      rw [hm]; norm_num
    · show s.gameEnded = true ↔ _
      rw [hg]; simp
    · rfl
  | succ n ih =>
    obtain ⟨ih1, ih2, ih3, ih4⟩ := ih
    obtain ⟨w1, w2, w3, w4⟩ := workClick_fields (clicks n s)
    simp only [ih1, ih2, ih4] at w1 w2 w3 w4
    rw [clicks_succ]
    by_cases h16 : (n + 1) % 16 = 0
    · have hdiv : (n + 1) / 16 = n / 16 + 1 := by omega
      have hlow : (clamp (max 0 (100 - 3 * ((n / 16 : ℕ) : ℚ)) - 3) 0 100 < 50)
          ↔ 17 ≤ (n + 1) / 16 := by
        rw [mood_after_click, ← hdiv]; exact mood_low_iff _
      rw [if_pos h16, mood_after_click, ← hdiv] at w2
      by_cases h17 : 17 ≤ (n + 1) / 16
      · rw [if_pos ⟨h16, hlow.mpr h17⟩] at w3 w4
        refine ⟨w1, w2, ?_, ?_⟩
        · rw [w3]; exact ⟨fun _ => by omega, fun _ => rfl⟩
        · rw [w4]
          have : (n + 1) / 16 - 16 = (n / 16 - 16) + 1 := by omega
          rw [this, List.replicate_succ]
          rfl
      · rw [if_neg (fun h => h17 (hlow.mp h.2))] at w3 w4
        refine ⟨w1, w2, ?_, ?_⟩
        · rw [w3, ih3]; constructor <;> intro <;> omega
        · rw [w4]
          have : (n + 1) / 16 - 16 = n / 16 - 16 := by omega
          rw [this]
    · have hdiv : (n + 1) / 16 = n / 16 := by omega
      rw [if_neg h16] at w2
      rw [if_neg (fun h => h16 h.1)] at w3 w4
      rw [hdiv]
      refine ⟨w1, w2, ?_, w4⟩
      rw [w3, ih3]; constructor <;> intro <;> omega

theorem st_refl (s : State) : SameTallies s s := ⟨rfl, rfl, rfl, rfl, rfl, rfl, rfl, rfl⟩

theorem st_trans {s t u : State} (h1 : SameTallies s t) (h2 : SameTallies t u) :
    SameTallies s u := by
  obtain ⟨a1, a2, a3, a4, a5, a6, a7, a8⟩ := h1
  obtain ⟨b1, b2, b3, b4, b5, b6, b7, b8⟩ := h2
  exact ⟨b1.trans a1, b2.trans a2, b3.trans a3, b4.trans a4, b5.trans a5, b6.trans a6,
    b7.trans a7, b8.trans a8⟩

theorem on_refl (s : State) : Onward s s := ⟨id, le_refl _, id⟩

theorem on_trans {s t u : State} (h1 : Onward s t) (h2 : Onward t u) : Onward s u :=
  ⟨fun h => h2.1 (h1.1 h), le_trans h1.2.1 h2.2.1, fun h => h2.2.2 (h1.2.2 h)⟩

theorem on_of_same {s t : State} (hg : t.gameEnded = s.gameEnded)
    (hp : t.dailyPenaltyPerf = s.dailyPenaltyPerf) (hc : t.dailyCaught = s.dailyCaught)
    (hw : t.weeklyCaught = s.weeklyCaught)
    (he : t.earlyFinishDaysStreak = s.earlyFinishDaysStreak)
    (hb : t.weeklyBasePerf = s.weeklyBasePerf) : Onward s t := by
  unfold Onward TalliesOk
  rw [hg, hp, hc, hw, he, hb]
  exact ⟨id, le_refl _, id⟩

theorem st_onward {s t : State} (h : SameTallies s t) : Onward s t :=
  on_of_same h.1 h.2.2.1 h.2.2.2.1 h.2.2.2.2.1 h.2.2.2.2.2.1 h.2.2.2.2.2.2.2

theorem on_after {s t u : State} (h : Onward t u) (hg : t.gameEnded = s.gameEnded)
    (hp : t.dailyPenaltyPerf = s.dailyPenaltyPerf) (hc : t.dailyCaught = s.dailyCaught)
    (hw : t.weeklyCaught = s.weeklyCaught)
    (he : t.earlyFinishDaysStreak = s.earlyFinishDaysStreak)
    (hb : t.weeklyBasePerf = s.weeklyBasePerf) : Onward s u :=
  on_trans (on_of_same hg hp hc hw he hb) h

theorem st_showToast (s : State) : SameTallies s (showToast s) := by
  unfold showToast; split_ifs <;> exact ⟨rfl, rfl, rfl, rfl, rfl, rfl, rfl, rfl⟩

theorem st_showCenterToast (s : State) : SameTallies s (showCenterToast s) := by
  unfold showCenterToast; split_ifs <;> exact ⟨rfl, rfl, rfl, rfl, rfl, rfl, rfl, rfl⟩

theorem st_closeFish (s : State) : SameTallies s (closeFish s) := by
  rw [closeFish_eq]; exact ⟨rfl, rfl, rfl, rfl, rfl, rfl, rfl, rfl⟩

theorem st_workClick_done (s : State) : SameTallies s (workClick_done s) := by
  unfold workClick_done; split_ifs
  · exact st_showCenterToast { s with workDoneNotified := true }
  · exact st_refl s

theorem st_triggerBoss (r rv : ℚ) (s : State) : SameTallies s (triggerBoss r rv s) := by
  generalize ht : triggerBoss r rv s = t
  unfold triggerBoss at ht
  split_ifs at ht
  all_goals first | (subst ht; exact st_refl s) | skip
  simp only [] at ht
  split at ht <;> subst ht <;> exact ⟨rfl, rfl, rfl, rfl, rfl, rfl, rfl, rfl⟩

theorem st_maybeEvent (f : ℤ) (r rp : ℚ) (s : State) : SameTallies s (maybeEvent f r rp s) := by
  generalize ht : maybeEvent f r rp s = t
  unfold maybeEvent openModal at ht
  simp only [] at ht
  split_ifs at ht
  all_goals first | (subst ht; exact st_refl s) | skip
  split at ht <;> subst ht <;> exact ⟨rfl, rfl, rfl, rfl, rfl, rfl, rfl, rfl⟩

theorem st_checkScriptedEvents (rp : ℚ) (s : State) :
    SameTallies s (checkScriptedEvents rp s) := by
  generalize ht : checkScriptedEvents rp s = t
  unfold checkScriptedEvents openModal at ht
  simp only [] at ht
  split_ifs at ht
  all_goals first | (subst ht; exact st_refl s) | skip
  split at ht <;> subst ht <;> exact ⟨rfl, rfl, rfl, rfl, rfl, rfl, rfl, rfl⟩

theorem st_checkRelationshipEvents (s : State) : SameTallies s (checkRelationshipEvents s) := by
  unfold checkRelationshipEvents openModal
  split_ifs <;> exact ⟨rfl, rfl, rfl, rfl, rfl, rfl, rfl, rfl⟩

theorem st_tick_fishing (d : TickDraws) (s : State) : SameTallies s (tick_fishing d s) := by
  unfold tick_fishing
  simp only []
  split_ifs
  · exact st_triggerBoss _ _ _
  · exact ⟨rfl, rfl, rfl, rfl, rfl, rfl, rfl, rfl⟩
  · exact st_triggerBoss _ _ _
  · exact ⟨rfl, rfl, rfl, rfl, rfl, rfl, rfl, rfl⟩
  · exact st_refl s

theorem st_tick_random (d : TickDraws) (s : State) : SameTallies s (tick_random d s) := by
  unfold tick_random
  simp only []
  split_ifs
  · exact st_maybeEvent _ _ _ _
  · exact ⟨rfl, rfl, rfl, rfl, rfl, rfl, rfl, rfl⟩
  · exact st_refl s

theorem st_tick_scripted (d : TickDraws) (s : State) : SameTallies s (tick_scripted d s) := by
  unfold tick_scripted
  simp only []
  split_ifs
  · exact st_checkScriptedEvents _ _
  · exact ⟨rfl, rfl, rfl, rfl, rfl, rfl, rfl, rfl⟩
  · exact st_refl s

theorem st_tickChecked (d : TickDraws) (s : State) : SameTallies s (tickChecked d s) := by
  unfold tickChecked
  have h0 : SameTallies s (tick_fishing d { s with secondsLeft := s.secondsLeft - 1 }) :=
    st_tick_fishing d { s with secondsLeft := s.secondsLeft - 1 }
  have h1 : SameTallies s (tick_scripted d (tick_random d (tick_fishing d
        { s with secondsLeft := s.secondsLeft - 1 }))) :=
    st_trans h0 (st_trans (st_tick_random d _) (st_tick_scripted d _))
  simp only []
  split_ifs
  · exact st_trans h1 (st_checkRelationshipEvents _)
  · exact h1

theorem on_badEnd (m : String) (s : State) : Onward s (badEnd m s) :=
  ⟨fun _ => rfl, le_refl _, fun h =>
    ⟨fun hg => (by have hf : (true : Bool) = false := hg; cases hf), h.2.1, h.2.2⟩⟩

theorem on_goodEnd (m : String) (s : State) : Onward s (goodEnd m s) :=
  ⟨fun _ => rfl, le_refl _, fun h =>
    ⟨fun hg => (by have hf : (true : Bool) = false := hg; cases hf), h.2.1, h.2.2⟩⟩

theorem on_openDailySummaryInternal (p : ℚ) (s : State) :
    Onward s (openDailySummaryInternal p s) := by
  apply on_of_same <;> simp [openDailySummaryInternal, closeFish_eq, closeModal]

theorem on_openWeeklySummaryInternal (a b c d : ℚ) (s : State) :
    Onward s (openWeeklySummaryInternal a b c d s) := by
  apply on_of_same <;> simp [openWeeklySummaryInternal, closeFish_eq, closeModal]

theorem on_weekReset (s : State) : Onward s (weekReset s) :=
  ⟨id, le_refl _, fun h => ⟨fun hg => ⟨(h.1 hg).1, Nat.zero_le _⟩, h.2.1, h.2.2.1, le_refl _⟩⟩

theorem on_endOfDay_goodEndings (p t sal : ℚ) (s : State) :
    Onward s (endOfDay_goodEndings p t sal s) := by
  rw [endOfDay_goodEndings_eq]
  cases goodEndingOf t s with
  | some m => exact on_goodEnd _ _
  | none =>
    exact on_trans (on_weekReset s)
      (on_trans (on_openWeeklySummaryInternal _ _ _ _ _) (on_openDailySummaryInternal _ _))

theorem on_endOfDay_friday (p : ℚ) (s : State) : Onward s (endOfDay_friday p s) := by
  rw [endOfDay_friday_eq]
  have hs : Onward s (weekSettled s) := on_of_same rfl rfl rfl rfl rfl rfl
  split_ifs
  · exact on_badEnd _ _
  · exact on_badEnd _ _
  · exact on_trans hs (on_badEnd _ _)
  · exact on_trans hs (on_endOfDay_goodEndings _ _ _ _)

theorem on_dayClosed (s : State) : Onward s (dayClosed s) := by
  apply on_of_same <;> simp [dayClosed, closeFish_eq, closeModal]

theorem finishHour_end (s : State) (h0 : s.secondsLeft = 0) : finishHour s = 18 := by
  unfold finishHour ONE_DAY_SECONDS
  rw [h0]
  decide!

theorem dayBooked_streak (s : State) (h0 : s.secondsLeft = 0) :
    (dayBooked s).earlyFinishDaysStreak = 0 := by
  have hf := finishHour_end s h0
  have hn : ¬ (finishHour s ≤ 33 / 2 ∧ dailyPerf s ≥ 10) := by
    rw [hf]; intro h; norm_num at h
  unfold dayBooked
  simp only []
  rw [if_neg hn]

theorem on_dayBooked (s : State) (h0 : s.secondsLeft = 0) (hp6 : ¬ dailyPerf s < 6) :
    Onward s (dayBooked s) := by
  have hg : (dayBooked s).gameEnded = s.gameEnded := by
    simp [dayBooked, dayClosed, closeFish_eq, closeModal]
  have hp : (dayBooked s).dailyPenaltyPerf = s.dailyPenaltyPerf := by
    simp [dayBooked, dayClosed, closeFish_eq, closeModal]
  have hc : (dayBooked s).dailyCaught = s.dailyCaught := by
    simp [dayBooked, dayClosed, closeFish_eq, closeModal]
  have hw : (dayBooked s).weeklyCaught = s.weeklyCaught := by
    simp [dayBooked, dayClosed, closeFish_eq, closeModal]
  have hb : (dayBooked s).weeklyBasePerf = round1 (jsAdd s.weeklyBasePerf (dailyPerf s)) := rfl
  unfold Onward TalliesOk
  rw [hg, hp, hc, hw, dayBooked_streak s h0, hb]
  exact ⟨id, le_refl _, fun h => ⟨h.1, h.2.1, rfl,
    round1_nonneg _ (toDouble_nonneg (by linarith [h.2.2.2, not_lt.mp hp6]))⟩⟩

theorem on_endOfDay (s : State) (h0 : s.secondsLeft = 0) : Onward s (endOfDay s) := by
  cases hd : s.dayEnded with
  | true => unfold endOfDay; rw [if_pos hd]; exact on_refl s
  | false =>
    rw [endOfDay_eq s hd]
    split_ifs with h1 h2 h3 h4
    · exact on_trans (on_dayClosed s) (on_badEnd _ _)
    · exact on_trans (on_dayClosed s) (on_badEnd _ _)
    · exact on_trans (on_dayClosed s) (on_badEnd _ _)
    · exact on_trans (on_dayBooked s h0 h1) (on_endOfDay_friday _ _)
    · exact on_trans (on_dayBooked s h0 h1) (on_openDailySummaryInternal _ _)

theorem gameEnded_proceedNextDayCore (s : State) :
    (proceedNextDayCore s).gameEnded = s.gameEnded := by
  unfold proceedNextDayCore
  simp only []
  split <;> rfl

theorem tallies_proceedNextDayCore (s : State) (h : TalliesOk s) :
    TalliesOk (proceedNextDayCore s) := by
  have hg := gameEnded_proceedNextDayCore s
  have hc : (proceedNextDayCore s).dailyCaught = 0 := by
    unfold proceedNextDayCore; simp only []; split <;> rfl
  have hw : (proceedNextDayCore s).weeklyCaught = s.weeklyCaught := by
    unfold proceedNextDayCore; simp only []; split <;> rfl
  have hp : (proceedNextDayCore s).dailyPenaltyPerf = 0 := by
    unfold proceedNextDayCore; simp only []; split <;> rfl
  have he : (proceedNextDayCore s).earlyFinishDaysStreak = s.earlyFinishDaysStreak := by
    unfold proceedNextDayCore; simp only []; split <;> rfl
  have hb : (proceedNextDayCore s).weeklyBasePerf = s.weeklyBasePerf := by
    unfold proceedNextDayCore; simp only []; split <;> rfl
  unfold TalliesOk
  rw [hg, hc, hw, hp, he, hb]
  exact ⟨fun hge => ⟨Nat.zero_le _, (h.1 hge).2⟩, le_refl _, h.2.2⟩

theorem tallies_resetGame (s : State) : TalliesOk (resetGame s) :=
  ⟨fun _ => ⟨Nat.zero_le _, Nat.zero_le _⟩, le_refl _, rfl, le_refl _⟩

theorem on_workClick (s : State) : Onward s (workClick s) := by
  unfold workClick
  have h1 : Onward s (if s.isFishing then closeFish s else s) := by
    split_ifs
    · exact st_onward (st_closeFish s)
    · exact on_refl s
  generalize (if s.isFishing then closeFish s else s) = s1 at h1
  simp only []
  have h2 : Onward s1 { s1 with clicksToday := s1.clicksToday + 1,
                                mood := clamp (s1.mood - 3) 0 100 } :=
    on_of_same rfl rfl rfl rfl rfl rfl
  have h3 : Onward s1 { s1 with clicksToday := s1.clicksToday + 1 } :=
    on_of_same rfl rfl rfl rfl rfl rfl
  split_ifs
  · exact on_trans h1 (on_trans h2 (on_trans (st_onward (st_showCenterToast _)) (on_badEnd _ _)))
  · exact on_trans h1 (on_trans h2 (on_trans (st_onward (st_showCenterToast _))
      (st_onward (st_workClick_done _))))
  · exact on_trans h1 (on_trans h2 (on_badEnd _ _))
  · exact on_trans h1 (on_trans h2 (st_onward (st_workClick_done _)))
  · exact on_trans h1 (on_trans h3 (st_onward (st_workClick_done _)))

theorem bossWindowExpired_ended (s : State) :
    (s.gameEnded = true → (bossWindowExpired s).gameEnded = true)
    ∧ (bossWindowExpired s).earlyFinishDaysStreak = s.earlyFinishDaysStreak
    ∧ (bossWindowExpired s).weeklyBasePerf = s.weeklyBasePerf := by
  unfold bossWindowExpired showToast badEnd showEndingModal
  by_cases hf : s.isFishing = true <;> by_cases hg : s.gameEnded = true <;>
    by_cases h3 : s.dailyCaught + 1 ≥ 3 <;> by_cases h5 : s.weeklyCaught + 1 ≥ 5 <;>
    simp [hf, hg, h3, h5]

theorem on_bossWindowExpired (s : State) : Onward s (bossWindowExpired s) := by
  cases hf : s.isFishing with
  | false => rw [bossWindowExpired_idle s hf]; exact on_of_same rfl rfl rfl rfl rfl rfl
  | true =>
    obtain ⟨h1, h2, h3, _, h5⟩ := bossWindowExpired_fishing s hf
    obtain ⟨h6, h7, h8⟩ := bossWindowExpired_ended s
    refine ⟨h6, by rw [h3]; linarith, fun h => ⟨fun hge => ?_, by rw [h3]; linarith [h.2.1], ?_⟩⟩
    · rw [h1, h2]
      by_contra hc
      have hor : s.dailyCaught + 1 ≥ 3 ∨ s.weeklyCaught + 1 ≥ 5 := by omega
      rw [h5 hor] at hge
      cases hge
    · rw [h7, h8]; exact h.2.2

theorem on_applyOutcome (o : Outcome) (r : ℚ) (s : State) : Onward s (applyOutcome o r s) := by
  rw [applyOutcome_eq]
  have hp : s.dailyPenaltyPerf
      ≤ (if o.perf < 0 then s.dailyPenaltyPerf + |o.perf| else s.dailyPenaltyPerf) := by
    split_ifs
    · linarith [abs_nonneg o.perf]
    · exact le_refl _
  exact ⟨id, hp, fun h => ⟨h.1, le_trans h.2.1 hp, h.2.2⟩⟩

theorem on_randomChoice (ev : RandomEvent) (o : Outcome) (r : ℚ) (s : State) :
    Onward s (randomChoice ev o r s) := by
  unfold randomChoice
  simp only []
  split_ifs
  · exact on_trans (on_applyOutcome o r s) (on_of_same rfl rfl rfl rfl rfl rfl)
  · exact on_applyOutcome o r s

theorem on_applyScriptedOutcome (o : Outcome) (fl : List (String × String)) (c : String)
    (s : State) : Onward s (applyScriptedOutcome o fl c s) := by
  rw [applyScriptedOutcome_eq]
  have hp : s.dailyPenaltyPerf
      ≤ (if o.perf < 0 then s.dailyPenaltyPerf + |o.perf| else s.dailyPenaltyPerf) := by
    split_ifs
    · linarith [abs_nonneg o.perf]
    · exact le_refl _
  exact ⟨id, hp, fun h => ⟨h.1, le_trans h.2.1 hp, h.2.2⟩⟩

theorem on_scriptedChoice (ev : ScriptedEvent) (o : Outcome) (c : String) (s : State) :
    Onward s (scriptedChoice ev o c s) := by
  unfold scriptedChoice
  simp only []
  split_ifs
  · exact on_trans (on_of_same rfl rfl rfl rfl rfl rfl : Onward s
      { s with socialEventCount := s.socialEventCount + 1 })
      (on_applyScriptedOutcome _ _ _ _)
  · exact on_applyScriptedOutcome _ _ _ _

theorem crisisAck_fields (s : State) :
    (crisisAck s).gameEnded = s.gameEnded
    ∧ (crisisAck s).dailyPenaltyPerf = s.dailyPenaltyPerf + 5
    ∧ (crisisAck s).dailyCaught = s.dailyCaught
    ∧ (crisisAck s).weeklyCaught = s.weeklyCaught
    ∧ (crisisAck s).earlyFinishDaysStreak = s.earlyFinishDaysStreak
    ∧ (crisisAck s).weeklyBasePerf = s.weeklyBasePerf := by
  unfold crisisAck closeModal showToast
  simp only []
  split_ifs <;> exact ⟨rfl, rfl, rfl, rfl, rfl, rfl⟩

theorem on_crisisAck (s : State) : Onward s (crisisAck s) := by
  obtain ⟨hg, hp, hc, hw, he, hb⟩ := crisisAck_fields s
  unfold Onward TalliesOk
  rw [hg, hp, hc, hw, he, hb]
  exact ⟨id, by linarith, fun h => ⟨h.1, by linarith [h.2.1], h.2.2⟩⟩

theorem on_runHandler (hd : Handler) (r : ℚ) (s : State) : Onward s (runHandler hd r s) := by
  cases hd with
  | random ev o => exact on_randomChoice ev o r s
  | scripted ev o c => exact on_scriptedChoice ev o c s
  | crisis => exact on_crisisAck s

theorem on_tick (d : TickDraws) (s : State) : Onward s (tick d s) := by
  by_cases hg : s.gameEnded = true
  · unfold tick; rw [if_pos hg]; exact on_refl s
  by_cases hd : s.dayEnded = true
  · unfold tick; rw [if_neg hg, if_pos hd]; exact on_refl s
  by_cases hp : s.prestart = true
  · unfold tick; rw [if_neg hg, if_neg hd, if_pos hp]; exact on_refl s
  by_cases hpa : s.pausedForEvent = true
  · unfold tick; rw [if_neg hg, if_neg hd, if_neg hp, if_pos hpa]; exact on_refl s
  rw [tick_eq d s (by simpa using hg) (by simpa using hd) (by simpa using hp) (by simpa using hpa)]
  have h2 := st_onward (st_tickChecked d s)
  split_ifs
  · exact on_trans h2 (on_after (on_endOfDay { tickChecked d s with secondsLeft := 0 } rfl)
      rfl rfl rfl rfl rfl rfl)
  · exact h2

/-- Every action other than the restart button and the button of the summary card keeps an
ended game ended, does not lower the day's penalty and keeps the bounds. -/
theorem on_step (s : State) (a : Action) (ha : a ≠ Action.restart) (hn : a ≠ Action.nextDay) :
    Onward s (step s a) := by
  cases a with
  | start => simp only [step]; split_ifs; exact on_of_same rfl rfl rfl rfl rfl rfl; exact on_refl s
  | tick d => exact on_tick d s
  | workClick => exact on_workClick s
  | openFish => exact on_of_same rfl rfl rfl rfl rfl rfl
  | closeFish => simp only [step]; split_ifs; exact st_onward (st_closeFish s); exact on_refl s
  | opt1 r =>
    simp only [step]; split_ifs
    · split
      · exact on_runHandler _ _ _
      · exact on_refl s
    · exact on_refl s
  | opt2 r =>
    simp only [step]; split_ifs
    · split
      · exact on_runHandler _ _ _
      · exact on_refl s
    · exact on_refl s
  | toastClose =>
    simp only [step]; split_ifs; exact on_of_same rfl rfl rfl rfl rfl rfl; exact on_refl s
  | bossWindow id =>
    simp only [step]; split_ifs
    · exact on_after (on_bossWindowExpired _) rfl rfl rfl rfl rfl rfl
    · exact on_refl s
  | bossHide =>
    simp only [step]; split_ifs; exact on_of_same rfl rfl rfl rfl rfl rfl; exact on_refl s
  | lotteryToast =>
    simp only [step]; split
    · exact on_after (st_onward (st_showCenterToast _)) rfl rfl rfl rfl rfl rfl
    · exact on_refl s
  | nextDay => exact absurd rfl hn
  | restart => exact absurd rfl ha

theorem tallies_step (s : State) (a : Action) (h : TalliesOk s) : TalliesOk (step s a) := by
  by_cases ha : a = Action.restart
  · subst ha
    simp only [step]
    split_ifs
    · exact tallies_resetGame _
    · exact h
  by_cases hn : a = Action.nextDay
  · subst hn
    simp only [step]
    split_ifs
    · exact tallies_proceedNextDayCore _ h
    · exact h
  exact (on_step s a ha hn).2.2 h

theorem tallies_init : TalliesOk init :=
  ⟨fun _ => ⟨Nat.zero_le _, Nat.zero_le _⟩, le_refl _, rfl, le_refl _⟩

/-- In every reachable state the bounds of `TalliesOk` hold. -/
theorem reachable_tallies (s : State) (h : Reachable s) : TalliesOk s := by
  induction h with
  | init => exact tallies_init
  | step s a _ _ ih => exact tallies_step s a ih

theorem gameEnded_step (s : State) (a : Action) (ha : a ≠ Action.restart)
    (hg : s.gameEnded = true) : (step s a).gameEnded = true := by
  by_cases hn : a = Action.nextDay
  · subst hn
    simp only [step]
    split_ifs
    · show (proceedNextDayCore _).gameEnded = true
      rw [gameEnded_proceedNextDayCore]; exact hg
    · exact hg
  · exact (on_step s a ha hn).1 hg

theorem gameEnded_run (actions : List Action) (s : State) (hno : Action.restart ∉ actions)
    (hg : s.gameEnded = true) : (run s actions).gameEnded = true := by
  induction actions generalizing s with
  | nil => exact hg
  | cons a rest ih =>
    have ha : a ≠ Action.restart := fun h => hno (by rw [h]; exact List.mem_cons_self _ _)
    have hr : Action.restart ∉ rest := fun h => hno (List.mem_cons_of_mem _ h)
    exact ih (step s a) hr (gameEnded_step s a ha hg)

theorem on_run (actions : List Action) (s : State) (hno : Action.restart ∉ actions)
    (hnd : Action.nextDay ∉ actions) : Onward s (run s actions) := by
  induction actions generalizing s with
  | nil => exact on_refl s
  | cons a rest ih =>
    have ha : a ≠ Action.restart := fun h => hno (by rw [h]; exact List.mem_cons_self _ _)
    have hn : a ≠ Action.nextDay := fun h => hnd (by rw [h]; exact List.mem_cons_self _ _)
    exact on_trans (on_step s a ha hn)
      (ih (step s a) (fun h => hno (List.mem_cons_of_mem _ h))
        (fun h => hnd (List.mem_cons_of_mem _ h)))

theorem fired_same_log {s t : State} (x : State) (h : t.log = s.log) :
    fired t x = fired s x := by
  unfold fired; rw [h]

theorem fired_nil_of_log {s t : State} (h : t.log = s.log) : fired s t = [] := by
  unfold fired; rw [h]; simp

theorem endOfDay_friday_nocatch (p : ℚ) (s : State) (hw : s.weeklyCaught ≤ 4) :
    ∃ pre, (endOfDay_friday p s).log = pre ++ s.log
      ∧ dailyCatchEnding ∉ pre ∧ weeklyCatchEnding ∉ pre := by
  rw [endOfDay_friday_eq]
  split_ifs with h1 h2 h3
  · exact ⟨_, badEnd_log _ _, by decide, by decide⟩
  · exact absurd h2 (by omega)
  · exact ⟨_, badEnd_log _ _, by decide, by decide⟩
  · rcases endOfDay_goodEndings_log p (weeklyPerfTotal s) (salary (weeklyPerfTotal s))
      (weekSettled s) with ⟨m, hm⟩ | h
    · exact ⟨_, hm, by simp [dailyCatchEnding], by simp [weeklyCatchEnding]⟩
    · exact ⟨_, h, by simp [dailyCatchEnding], by simp [weeklyCatchEnding]⟩

/-- With fewer than 3 daily and fewer than 5 weekly catches `endOfDay` fires neither catch
ending. -/
theorem endOfDay_nocatch (s : State) (hc : s.dailyCaught ≤ 2) (hw : s.weeklyCaught ≤ 4) :
    dailyCatchEnding ∉ fired s (endOfDay s) ∧ weeklyCatchEnding ∉ fired s (endOfDay s) := by
  cases hd : s.dayEnded with
  | true =>
    have : endOfDay s = s := by unfold endOfDay; rw [if_pos hd]
    rw [this, fired_self]
    exact ⟨List.not_mem_nil _, List.not_mem_nil _⟩
  | false =>
    rw [endOfDay_eq s hd]
    split_ifs with h1 h2 h3 h4
    · have hl := badEnd_log "公司不再需要你了（每日绩效不足）" (dayClosed s)
      rw [dayClosed_log] at hl
      rw [fired_of_append hl]
      exact ⟨by decide, by decide⟩
    · have hl := badEnd_log "不吃草的马儿（心情过低）" (dayClosed s)
      rw [dayClosed_log] at hl
      rw [fired_of_append hl]
      exact ⟨by decide, by decide⟩
    · exact absurd h3 (by omega)
    · obtain ⟨pre, hpre, p1, p2⟩ := endOfDay_friday_nocatch (dailyPerf s) (dayBooked s)
        (by rw [dayBooked_weeklyCaught]; exact hw)
      rw [dayBooked_log] at hpre
      rw [fired_of_append hpre]
      exact ⟨p1, p2⟩
    · have hl := openDailySummaryInternal_log (dailyPerf s) (dayBooked s)
      rw [dayBooked_log] at hl
      rw [fired_of_append hl]
      simp [dailyCatchEnding, weeklyCatchEnding]

/-- A tick is the identity, or the checked state, or `endOfDay` on the checked state with
the clock at 0. -/
theorem tick_cases (d : TickDraws) (s : State) :
    tick d s = s ∨ tick d s = tickChecked d s
    ∨ (s.gameEnded = false ∧ s.dayEnded = false ∧ (tickChecked d s).secondsLeft ≤ 0
        ∧ tick d s = endOfDay { tickChecked d s with secondsLeft := 0 }) := by
  by_cases hg : s.gameEnded = true
  · left; unfold tick; rw [if_pos hg]
  by_cases hd : s.dayEnded = true
  · left; unfold tick; rw [if_neg hg, if_pos hd]
  by_cases hp : s.prestart = true
  · left; unfold tick; rw [if_neg hg, if_neg hd, if_pos hp]
  by_cases hpa : s.pausedForEvent = true
  · left; unfold tick; rw [if_neg hg, if_neg hd, if_neg hp, if_pos hpa]
  rw [tick_eq d s (by simpa using hg) (by simpa using hd) (by simpa using hp) (by simpa using hpa)]
  split_ifs with h0
  · exact Or.inr (Or.inr ⟨by simpa using hg, by simpa using hd, h0, rfl⟩)
  · exact Or.inr (Or.inl rfl)

theorem tick_nocatch (d : TickDraws) (s : State) (hc : s.dailyCaught ≤ 2)
    (hw : s.weeklyCaught ≤ 4) :
    dailyCatchEnding ∉ fired s (tick d s) ∧ weeklyCatchEnding ∉ fired s (tick d s) := by
  obtain ⟨_, _, _, e4, e5, _, e7, _⟩ := st_tickChecked d s
  rcases tick_cases d s with h | h | ⟨_, _, _, h⟩
  · rw [h, fired_self]; exact ⟨List.not_mem_nil _, List.not_mem_nil _⟩
  · rw [h, fired_nil_of_log e7]; exact ⟨List.not_mem_nil _, List.not_mem_nil _⟩
  · rw [h]
    have hl : ({ tickChecked d s with secondsLeft := 0 } : State).log = s.log := e7
    rw [← fired_same_log _ hl]
    exact endOfDay_nocatch _ (by show (tickChecked d s).dailyCaught ≤ 2; rw [e4]; exact hc)
      (by show (tickChecked d s).weeklyCaught ≤ 4; rw [e5]; exact hw)

/-- With a penalty of at least 5 the daily performance is at most 5, whatever the click
count. -/
theorem dailyPerf_le_five (s : State) (hp : 5 ≤ s.dailyPenaltyPerf) : dailyPerf s ≤ 5 := by
  have e10 : toDouble 10 = 10 := by decide!
  have e5 : toDouble 5 = 5 := by decide!
  have hq : jsMul (dailyProgress s) 10 ≤ 10 := by
    have h := toDouble_mono (show dailyProgress s * 10 ≤ 10 by linarith [dailyProgress_le_one s])
    rw [e10] at h
    exact h
  have hr : jsSub (jsMul (dailyProgress s) 10) s.dailyPenaltyPerf ≤ 5 := by
    have h := toDouble_mono
      (show jsMul (dailyProgress s) 10 - s.dailyPenaltyPerf ≤ 5 by linarith)
    rw [e5] at h
    exact h
  exact round1_le_five _ hr

theorem run_append (s : State) (a b : List Action) : run s (a ++ b) = run (run s a) b := by
  unfold run; rw [List.foldl_append]

theorem fullDay_valid : ∀ a ∈ fullDay, a.valid := by
  decide!

theorem fourDays_valid : ∀ a ∈ fourDays, a.valid := by
  intro a ha
  unfold fourDays at ha
  simp only [List.mem_append] at ha
  rcases ha with ((h | h) | h) | h <;> exact fullDay_valid a h

theorem sixteenDays_valid : ∀ a ∈ sixteenDays, a.valid := by
  intro a ha
  unfold sixteenDays at ha
  simp only [List.mem_cons, List.mem_append] at ha
  rcases ha with h | ((h | h) | h) | h
  · rw [h]; trivial
  all_goals exact fourDays_valid a h

theorem fullDay_1 :
    run init (Action.start :: fullDay)
      = dayStart 2 720 10 (List.replicate 1 (Effect.dailySummary 10 71 80)) := by
  decide!

theorem fullDay_2 :
    run (dayStart 2 720 10 (List.replicate 1 (Effect.dailySummary 10 71 80))) fullDay
      = dayStart 3 640 20 (List.replicate 2 (Effect.dailySummary 10 71 80)) := by
  decide!

theorem fullDay_3 :
    run (dayStart 3 640 20 (List.replicate 2 (Effect.dailySummary 10 71 80))) fullDay
      = dayStart 4 560 30 (List.replicate 3 (Effect.dailySummary 10 71 80)) := by
  decide!

theorem fullDay_4 :
    run (dayStart 4 560 30 (List.replicate 3 (Effect.dailySummary 10 71 80))) fullDay
      = dayStart 5 480 40 (List.replicate 4 (Effect.dailySummary 10 71 80)) := by
  decide!

theorem fullDay_5 :
    run (dayStart 5 480 40 (List.replicate 4 (Effect.dailySummary 10 71 80))) fullDay
      = dayStart 8 1600 0 weekLog := by
  decide!

theorem fullDay_6 :
    run (dayStart 8 1600 0 weekLog) fullDay
      = dayStart 9 1520 10 (List.replicate 1 (Effect.dailySummary 10 71 80) ++ weekLog) := by
  decide!

theorem fullDay_7 :
    run (dayStart 9 1520 10 (List.replicate 1 (Effect.dailySummary 10 71 80) ++ weekLog)) fullDay
      = dayStart 10 1440 20 (List.replicate 2 (Effect.dailySummary 10 71 80) ++ weekLog) := by
  decide!

theorem fullDay_8 :
    run (dayStart 10 1440 20 (List.replicate 2 (Effect.dailySummary 10 71 80) ++ weekLog)) fullDay
      = dayStart 11 1360 30 (List.replicate 3 (Effect.dailySummary 10 71 80) ++ weekLog) := by
  decide!

theorem fullDay_9 :
    run (dayStart 11 1360 30 (List.replicate 3 (Effect.dailySummary 10 71 80) ++ weekLog)) fullDay
      = dayStart 12 1280 40 (List.replicate 4 (Effect.dailySummary 10 71 80) ++ weekLog) := by
  decide!

theorem fullDay_10 :
    run (dayStart 12 1280 40 (List.replicate 4 (Effect.dailySummary 10 71 80) ++ weekLog)) fullDay
      = dayStart 13 2400 0 (weekLog ++ weekLog) := by
  decide!

theorem fullDay_11 :
    run (dayStart 13 2400 0 (weekLog ++ weekLog)) fullDay
      = dayStart 14 2320 10 (List.replicate 1 (Effect.dailySummary 10 71 80) ++ weekLog ++ weekLog) := by
  decide!

theorem fullDay_12 :
    run (dayStart 14 2320 10 (List.replicate 1 (Effect.dailySummary 10 71 80) ++ weekLog ++ weekLog)) fullDay
      = dayStart 15 2240 20 (List.replicate 2 (Effect.dailySummary 10 71 80) ++ weekLog ++ weekLog) := by
  decide!

theorem fullDay_13 :
    run (dayStart 15 2240 20 (List.replicate 2 (Effect.dailySummary 10 71 80) ++ weekLog ++ weekLog)) fullDay
      = dayStart 16 2160 30 (List.replicate 3 (Effect.dailySummary 10 71 80) ++ weekLog ++ weekLog) := by
  decide!

theorem fullDay_14 :
    run (dayStart 16 2160 30 (List.replicate 3 (Effect.dailySummary 10 71 80) ++ weekLog ++ weekLog)) fullDay
      = dayStart 17 2080 40 (List.replicate 4 (Effect.dailySummary 10 71 80) ++ weekLog ++ weekLog) := by
  decide!

theorem fullDay_15 :
    run (dayStart 17 2080 40 (List.replicate 4 (Effect.dailySummary 10 71 80) ++ weekLog ++ weekLog)) fullDay
      = dayStart 18 2000 50 (List.replicate 5 (Effect.dailySummary 10 71 80) ++ weekLog ++ weekLog) := by
  decide!

theorem fullDay_16 :
    run (dayStart 18 2000 50 (List.replicate 5 (Effect.dailySummary 10 71 80) ++ weekLog ++ weekLog)) fullDay
      = dayStart 19 1920 60 (List.replicate 6 (Effect.dailySummary 10 71 80) ++ weekLog ++ weekLog) := by
  decide!

theorem run_cons_append (s : State) (a : Action) (x y : List Action) :
    run s (a :: (x ++ y)) = run (run s (a :: x)) y := by
  rw [← List.cons_append, run_append]

/-- The run `sixteenDays` ends at the first second of day 19 with a weekly base
performance of 60. -/
theorem sixteenDays_end :
    run init sixteenDays = dayStart 19 1920 60 (List.replicate 6 (Effect.dailySummary 10 71 80) ++ weekLog ++ weekLog) := by
  unfold sixteenDays fourDays
  simp only [List.append_assoc]
  rw [run_cons_append, fullDay_1,
    run_append, fullDay_2,
    run_append, fullDay_3,
    run_append, fullDay_4,
    run_append, fullDay_5,
    run_append, fullDay_6,
    run_append, fullDay_7,
    run_append, fullDay_8,
    run_append, fullDay_9,
    run_append, fullDay_10,
    run_append, fullDay_11,
    run_append, fullDay_12,
    run_append, fullDay_13,
    run_append, fullDay_14,
    run_append, fullDay_15,
    fullDay_16, List.append_assoc]

theorem sr_triggerBoss (r rv : ℚ) (s : State) : SameRecord s (triggerBoss r rv s) := by
  generalize ht : triggerBoss r rv s = t
  unfold triggerBoss at ht
  split_ifs at ht
  all_goals first | (subst ht; exact ⟨rfl, rfl⟩) | skip
  simp only [] at ht
  split at ht <;> subst ht <;> exact ⟨rfl, rfl⟩

theorem sr_tick_fishing (d : TickDraws) (s : State) : SameRecord s (tick_fishing d s) := by
  unfold tick_fishing
  simp only []
  split_ifs
  · exact sr_triggerBoss _ _ _
  · exact ⟨rfl, rfl⟩
  · exact sr_triggerBoss _ _ _
  · exact ⟨rfl, rfl⟩
  · exact ⟨rfl, rfl⟩

theorem sr_checkScriptedEvents (rp : ℚ) (s : State) :
    SameRecord s (checkScriptedEvents rp s) := by
  generalize ht : checkScriptedEvents rp s = t
  unfold checkScriptedEvents openModal at ht
  simp only [] at ht
  split_ifs at ht
  all_goals first | (subst ht; exact ⟨rfl, rfl⟩) | skip
  split at ht <;> subst ht <;> exact ⟨rfl, rfl⟩

theorem sr_tick_scripted (d : TickDraws) (s : State) : SameRecord s (tick_scripted d s) := by
  unfold tick_scripted
  simp only []
  split_ifs
  · exact sr_checkScriptedEvents _ _
  · exact ⟨rfl, rfl⟩
  · exact ⟨rfl, rfl⟩

theorem sr_checkRelationshipEvents (s : State) : SameRecord s (checkRelationshipEvents s) := by
  unfold checkRelationshipEvents openModal
  split_ifs <;> exact ⟨rfl, rfl⟩

theorem maybeEvent_zero (r rp : ℚ) (s : State) : maybeEvent 0 r rp s = s := by
  unfold maybeEvent
  simp only [if_true]
  split_ifs <;> rfl

theorem sr_tick_random (d : TickDraws) (s : State) (hb : bucket 40 s = 0) :
    SameRecord s (tick_random d s) := by
  unfold tick_random
  simp only [hb, maybeEvent_zero]
  split_ifs <;> exact ⟨rfl, rfl⟩

theorem bucket_zero (s : State) (h1 : 201 ≤ s.secondsLeft) (h2 : s.secondsLeft ≤ 240) :
    bucket 40 s = 0 := by
  unfold bucket ONE_DAY_SECONDS
  rw [Int.floor_eq_zero_iff]
  have a1 : (201 : ℚ) ≤ (s.secondsLeft : ℚ) := by exact_mod_cast h1
  have a2 : (s.secondsLeft : ℚ) ≤ 240 := by exact_mod_cast h2
  constructor
  · apply div_nonneg _ (by norm_num)
    push_cast; linarith
  · rw [div_lt_iff₀ (by norm_num)]
    push_cast; linarith

/-- While the second a tick counts lies in bucket 0, the checked state has the record of
the day's random events unchanged and the clock one second on. -/
theorem sr_tickChecked (d : TickDraws) (s : State) (h1 : 202 ≤ s.secondsLeft)
    (h2 : s.secondsLeft ≤ 240) :
    (tickChecked d s).dailyTriggeredEvents = s.dailyTriggeredEvents
    ∧ (tickChecked d s).secondsLeft = s.secondsLeft - 1 := by
  unfold tickChecked
  obtain ⟨a1, a2⟩ := sr_tick_fishing d { s with secondsLeft := s.secondsLeft - 1 }
  have a2x : (tick_fishing d { s with secondsLeft := s.secondsLeft - 1 }).secondsLeft
      = s.secondsLeft - 1 := a2
  have a1x : (tick_fishing d { s with secondsLeft := s.secondsLeft - 1 }).dailyTriggeredEvents
      = s.dailyTriggeredEvents := a1
  obtain ⟨b1, b2⟩ := sr_tick_random d (tick_fishing d { s with secondsLeft := s.secondsLeft - 1 })
    (bucket_zero _ (by rw [a2x]; omega) (by rw [a2x]; omega))
  obtain ⟨c1, c2⟩ := sr_tick_scripted d
    (tick_random d (tick_fishing d { s with secondsLeft := s.secondsLeft - 1 }))
  obtain ⟨e1, e2⟩ := sr_checkRelationshipEvents (tick_scripted d
    (tick_random d (tick_fishing d { s with secondsLeft := s.secondsLeft - 1 })))
  simp only []
  split_ifs
  · exact ⟨by rw [e1, c1, b1, a1x], by rw [e2, c2, b2, a2x]⟩
  · exact ⟨by rw [c1, b1, a1x], by rw [c2, b2, a2x]⟩

theorem proceedNextDayCore_lastEventMinute (s : State) :
    (proceedNextDayCore s).lastEventMinute = s.lastEventMinute := by
  unfold proceedNextDayCore
  simp only []
  split <;> rfl

theorem toDouble_neg_iff (x : ℚ) : toDouble x < 0 ↔ x < 0 := by
  constructor
  · intro h
    by_contra hx
    exact absurd h (not_lt.mpr (toDouble_nonneg (not_lt.mp hx)))
  · intro h
    have := toDouble_pos (show 0 < -x by linarith)
    rw [toDouble_neg] at this
    linarith

theorem toDouble_near_of_le {x B : ℚ} (h : |x| ≤ B) : |toDouble x - x| ≤ B / 2 ^ 53 :=
  le_trans (toDouble_near x) (div_le_div_of_nonneg_right h (by positivity))

theorem dailyProgress_mono (s t : State) (hc : s.clicksToday ≤ t.clicksToday) :
    dailyProgress s ≤ dailyProgress t := by
  unfold dailyProgress jsDiv WORK_TARGET_CLICKS
  apply min_le_min le_rfl
  apply toDouble_mono
  apply div_le_div_of_nonneg_right _ (by norm_num)
  exact_mod_cast hc

/-- The daily performance grows with the click count. -/
theorem dailyPerf_mono_clicks (s t : State) (hc : s.clicksToday ≤ t.clicksToday)
    (hp : s.dailyPenaltyPerf = t.dailyPenaltyPerf) : dailyPerf s ≤ dailyPerf t := by
  unfold dailyPerf jsSub jsMul
  apply round1_mono
  apply toDouble_mono
  rw [hp]
  have := toDouble_mono (show dailyProgress s * 10 ≤ dailyProgress t * 10 by
    linarith [dailyProgress_mono s t hc])
  linarith

/-- For a given penalty, the clicks at which the daily performance reaches 6: with
`dailyPerf < 6` at `c` clicks and `6 ≤ dailyPerf` at `c + 1`, the check of line 810 fires
exactly up to `c` clicks. -/
theorem dailyPerf_threshold (c : ℕ) (p : ℚ) (h1 : dailyPerf (clicked c p) < 6)
    (h2 : 6 ≤ dailyPerf (clicked (c + 1) p)) (s : State) (hp : s.dailyPenaltyPerf = p) :
    dailyPerf s < 6 ↔ s.clicksToday ≤ c := by
  constructor
  · intro h
    by_contra hc
    have := dailyPerf_mono_clicks (clicked (c + 1) p) s (by show c + 1 ≤ s.clicksToday; omega)
      (by rw [hp]; rfl)
    linarith
  · intro hc
    have := dailyPerf_mono_clicks s (clicked c p) hc (by rw [hp]; rfl)
    linarith

theorem dailyProgress_near (s : State) :
    |dailyProgress s - min 1 ((s.clicksToday : ℚ) / 400)| ≤ 1 / 2 ^ 53 := by
  unfold dailyProgress jsDiv WORK_TARGET_CLICKS
  have e1 : toDouble 1 = 1 := by decide!
  have e400 : ((400 : ℕ) : ℚ) = 400 := by norm_num
  rw [e400]
  have ha : (0 : ℚ) ≤ (s.clicksToday : ℚ) / 400 := div_nonneg (Nat.cast_nonneg _) (by norm_num)
  rcases le_or_lt ((s.clicksToday : ℚ) / 400) 1 with h | h
  · have h' := toDouble_mono h
    rw [e1] at h'
    rw [min_eq_right h', min_eq_right h]
    have := toDouble_near_of_le (show |(s.clicksToday : ℚ) / 400| ≤ 1 by
      rw [abs_of_nonneg ha]; exact h)
    exact this
  · have h' := toDouble_mono h.le
    rw [e1] at h'
    rw [min_eq_left h', min_eq_left h.le, sub_self, abs_zero]
    positivity

/-- The daily performance is the double nearest to a tenth `k / 10` that lies within
`0.05` of the exact value of the formula, up to the rounding error of the double
operations. -/
theorem dailyPerf_near (s : State) :
    ∃ k : ℤ, dailyPerf s = toDouble ((k : ℚ) / 10)
      ∧ |(k : ℚ) / 10 - exactDailyPerf s.clicksToday s.dailyPenaltyPerf|
          ≤ 1 / 20 + (53 + 3 * |s.dailyPenaltyPerf|) / 2 ^ 53 := by
  refine ⟨jsRound (jsMul (jsSub (jsMul (dailyProgress s) 10) s.dailyPenaltyPerf) 10), rfl, ?_⟩
  have hd0 := dailyProgress_nonneg s
  have hd1 := dailyProgress_le_one s
  obtain ⟨hD1, hD2⟩ := abs_le.mp (dailyProgress_near s)
  unfold exactDailyPerf jsMul jsSub
  generalize dailyProgress s = d at *
  generalize min 1 ((s.clicksToday : ℚ) / 400) = D at *
  generalize s.dailyPenaltyPerf = p at *
  have hP0 : 0 ≤ |p| := abs_nonneg p
  have hP1 : p ≤ |p| := le_abs_self p
  have hP2 : -|p| ≤ p := neg_abs_le p
  generalize |p| = P at *
  obtain ⟨hq1, hq2⟩ := abs_le.mp (toDouble_near_of_le (show |d * 10| ≤ 10 by
    rw [abs_of_nonneg (by linarith)]; linarith))
  generalize toDouble (d * 10) = q at *
  obtain ⟨hr1, hr2⟩ := abs_le.mp (toDouble_near_of_le (show |q - p| ≤ 11 + P by
    rw [abs_le]; constructor <;> linarith))
  generalize toDouble (q - p) = r at *
  obtain ⟨ht1, ht2⟩ := abs_le.mp (toDouble_near_of_le (show |r * 10| ≤ 220 + 20 * P by
    rw [abs_le]; constructor <;> linarith))
  generalize toDouble (r * 10) = t at *
  obtain ⟨hk1, hk2⟩ := jsRound_spec t
  generalize (jsRound t : ℚ) = k at *
  rw [abs_le]
  constructor <;> linarith

/-- The weekly block once the weekly performance and catch checks have passed: the two
streaks are updated and the money settled; then either an ending, or both summaries, the
daily deduction and the weekly reset. -/
theorem endOfDay_friday_resolution (p : ℚ) (s : State) (ht : 50 ≤ weeklyPerfTotal s)
    (hc : s.weeklyCaught < 5) :
    (endOfDay_friday p s).highPerfWeeksStreak
        = (if weeklyPerfTotal s ≥ 80 then s.highPerfWeeksStreak + 1 else 0)
    ∧ (endOfDay_friday p s).perfectFishWeeksStreak
        = (if weeklyPerfTotal s ≥ 60 ∧ s.weeklyCaught = 0 then s.perfectFishWeeksStreak + 1
           else 0)
    ∧ (((∃ k m, (endOfDay_friday p s).log = [Effect.ending k m] ++ s.log)
          ∧ (endOfDay_friday p s).money
              = round1 (jsSub (jsAdd s.money (salary (weeklyPerfTotal s))) 800)
          ∧ (endOfDay_friday p s).gameEnded = true)
      ∨ ((endOfDay_friday p s).log =
            [Effect.dailySummary p (jsRound s.mood) (80 + s.dailyEventExpenses),
             Effect.weeklySummary (weeklyPerfTotal s) (salary (weeklyPerfTotal s)) 1200] ++ s.log
          ∧ (endOfDay_friday p s).money
              = round1 (jsSub (round1 (jsSub (jsAdd s.money (salary (weeklyPerfTotal s))) 800))
                  80)
          ∧ (endOfDay_friday p s).weeklyBasePerf = 0 ∧ (endOfDay_friday p s).weeklyExtraPerf = 0
          ∧ (endOfDay_friday p s).weeklyCaught = 0
          ∧ (endOfDay_friday p s).weeklyEventExpenses = 0
          ∧ (endOfDay_friday p s).gameEnded = s.gameEnded)) := by
  rw [endOfDay_friday_eq, if_neg (not_lt.mpr ht), if_neg (Nat.not_le.mpr hc)]
  by_cases hm : (weekSettled s).money < 0
  · rw [if_pos hm]
    exact ⟨rfl, rfl, Or.inl ⟨⟨_, _, badEnd_log _ _⟩, rfl, rfl⟩⟩
  · rw [if_neg hm, endOfDay_goodEndings_eq]
    cases goodEndingOf (weeklyPerfTotal s) (weekSettled s) with
    | some m => exact ⟨rfl, rfl, Or.inl ⟨⟨_, _, goodEnd_log _ _⟩, rfl, rfl⟩⟩
    | none =>
      refine ⟨?_, ?_, Or.inr ?_⟩
      · simp [openDailySummaryInternal, openWeeklySummaryInternal, weekReset, weekSettled,
          closeFish_eq, closeModal]
      · simp [openDailySummaryInternal, openWeeklySummaryInternal, weekReset, weekSettled,
          closeFish_eq, closeModal]
      · simp [openDailySummaryInternal, openWeeklySummaryInternal, weekReset, weekSettled,
          closeFish_eq, closeModal]
        norm_num

/-- Salary 2600 and rent on integer money: the settlement adds 1800. -/
theorem settle_intCast (n : ℤ) (h : |n| < 2 ^ 40) :
    round1 (jsSub (jsAdd (n : ℚ) 2600) 800) = (n : ℚ) + 1800 := by
  obtain ⟨h1, h2⟩ := abs_lt.mp h
  have e1 : jsAdd (n : ℚ) 2600 = ((n + 2600 : ℤ) : ℚ) := by
    have := jsAdd_intCast n 2600 (abs_lt.mpr ⟨by omega, by omega⟩)
    push_cast at this ⊢
    exact this
  have e2 : jsSub ((n + 2600 : ℤ) : ℚ) 800 = ((n + 1800 : ℤ) : ℚ) := by
    have := jsSub_intCast (n + 2600) 800 (abs_lt.mpr ⟨by omega, by omega⟩)
    rw [show n + 2600 - 800 = n + 1800 by ring] at this
    push_cast at this ⊢
    exact this
  rw [e1, e2, round1_intCast _ (abs_lt.mpr ⟨by omega, by omega⟩)]
  push_cast
  rfl

/-- The daily deduction on integer money. -/
theorem deduct_intCast (n : ℤ) (h : |n| < 2 ^ 40) :
    round1 (jsSub (n : ℚ) 80) = (n : ℚ) - 80 := by
  obtain ⟨h1, h2⟩ := abs_lt.mp h
  have e2 : jsSub (n : ℚ) 80 = ((n - 80 : ℤ) : ℚ) := by
    have := jsSub_intCast n 80 (abs_lt.mpr ⟨by omega, by omega⟩)
    push_cast at this ⊢
    exact this
  rw [e2, round1_intCast _ (abs_lt.mpr ⟨by omega, by omega⟩)]
  push_cast
  rfl

/-- The rounding to one decimal place returns the double nearest to `j / 10` whenever the
scaled double is within one half of the integer `j`. -/
theorem round1_eq_of_near (x : ℚ) (j : ℤ) (h : |toDouble (x * 10) - (j : ℚ)| < 1 / 2) :
    round1 x = toDouble ((j : ℚ) / 10) := by
  obtain ⟨h1, h2⟩ := abs_lt.mp h
  have e : jsRound (jsMul x 10) = j := by
    unfold jsRound jsMul
    rw [Int.floor_eq_iff]
    constructor <;> linarith
  unfold round1 jsDiv
  rw [e]

/-- Salary 2600 and rent on money that is the double of a tenth: the settlement gives the
double of the tenth that is 1800 higher. -/
theorem settle_tenth (k : ℤ) (hk : |k| < 2 ^ 40) :
    round1 (jsSub (jsAdd (toDouble ((k : ℚ) / 10)) 2600) 800)
      = toDouble (((k + 18000 : ℤ) : ℚ) / 10) := by
  have hk' : |(k : ℚ)| < 2 ^ 40 := by exact_mod_cast hk
  obtain ⟨k1, k2⟩ := abs_lt.mp hk'
  apply round1_eq_of_near
  unfold jsSub jsAdd
  obtain ⟨hm1, hm2⟩ := abs_le.mp (toDouble_near_of_le (show |(k : ℚ) / 10| ≤ 2 ^ 40 / 10 by
    rw [abs_le]; constructor <;> linarith))
  generalize toDouble ((k : ℚ) / 10) = m at *
  obtain ⟨ha1, ha2⟩ := abs_le.mp (toDouble_near_of_le (show |m + 2600| ≤ 2 ^ 40 by
    rw [abs_le]; constructor <;> linarith))
  generalize toDouble (m + 2600) = a at *
  obtain ⟨hb1, hb2⟩ := abs_le.mp (toDouble_near_of_le (show |a - 800| ≤ 2 ^ 41 by
    rw [abs_le]; constructor <;> linarith))
  generalize toDouble (a - 800) = b at *
  obtain ⟨ht1, ht2⟩ := abs_le.mp (toDouble_near_of_le (show |b * 10| ≤ 2 ^ 45 by
    rw [abs_le]; constructor <;> linarith))
  generalize toDouble (b * 10) = t at *
  push_cast
  rw [abs_lt]
  constructor <;> linarith

/-- The daily deduction on money that is the double of a tenth. -/
theorem deduct_tenth (k : ℤ) (hk : |k| < 2 ^ 40) :
    round1 (jsSub (toDouble ((k : ℚ) / 10)) 80) = toDouble (((k - 800 : ℤ) : ℚ) / 10) := by
  have hk' : |(k : ℚ)| < 2 ^ 40 := by exact_mod_cast hk
  obtain ⟨k1, k2⟩ := abs_lt.mp hk'
  apply round1_eq_of_near
  unfold jsSub
  obtain ⟨hm1, hm2⟩ := abs_le.mp (toDouble_near_of_le (show |(k : ℚ) / 10| ≤ 2 ^ 40 / 10 by
    rw [abs_le]; constructor <;> linarith))
  generalize toDouble ((k : ℚ) / 10) = m at *
  obtain ⟨hb1, hb2⟩ := abs_le.mp (toDouble_near_of_le (show |m - 80| ≤ 2 ^ 41 by
    rw [abs_le]; constructor <;> linarith))
  generalize toDouble (m - 80) = b at *
  obtain ⟨ht1, ht2⟩ := abs_le.mp (toDouble_near_of_le (show |b * 10| ≤ 2 ^ 45 by
    rw [abs_le]; constructor <;> linarith))
  generalize toDouble (b * 10) = t at *
  push_cast
  rw [abs_lt]
  constructor <;> linarith

/-- The daily performance is negative exactly when the scaled double that `Math.round`
receives is below one half under zero. -/
theorem dailyPerf_neg_iff (s : State) :
    dailyPerf s < 0
      ↔ jsMul (jsSub (jsMul (dailyProgress s) 10) s.dailyPenaltyPerf) 10 < -(1 / 2) := by
  unfold dailyPerf round1 jsDiv
  rw [toDouble_neg_iff]
  generalize jsMul (jsSub (jsMul (dailyProgress s) 10) s.dailyPenaltyPerf) 10 = t
  rw [div_lt_iff₀ (by norm_num : (0 : ℚ) < 10), zero_mul]
  have e : ((jsRound t : ℤ) : ℚ) < 0 ↔ jsRound t < 0 := by exact_mod_cast Iff.rfl
  rw [e]
  unfold jsRound
  rw [Int.floor_lt]
  constructor <;> intro h <;> push_cast at h ⊢ <;> linarith

/-! ## The claims -/

/-- C1 counterexample: with 39 clicks and one penalty point the penalty exceeds the progress term
(0.975), yet the daily performance is 0 and not negative. -/
theorem C1_counterexample :
    dailyProgress { init with clicksToday := 39, dailyPenaltyPerf := 1 } * 10
        < ({ init with clicksToday := 39, dailyPenaltyPerf := 1 } : State).dailyPenaltyPerf
      ∧ exactDailyPerf 39 1 < 0
      ∧ ¬ dailyPerf { init with clicksToday := 39, dailyPenaltyPerf := 1 } < 0 := by
  decide!

/-- C1 (amended): the daily performance of `endOfDay` is the double-precision value of
`Math.round((Math.min(1, clicksToday/400) * 10 - dailyPenaltyPerf) * 10) / 10`. It is a
function of `clicksToday` and `dailyPenaltyPerf` alone and grows with the clicks; it is the
double nearest to a tenth `k/10` that lies within 0.05, plus a rounding error of at most
`(53 + 3|penalty|) / 2^53`, of the exact value `min(1, clicks/400) * 10 - penalty`. It is
not floored at 0: it is negative exactly when the scaled double handed to `Math.round` is
below -0.5, hence whenever the exact value is below -0.05 by more than the rounding error,
and it is 0 when the exact value is within 0.05, less the rounding error, of 0. It is the
value the daily summary shows and the weekly base accumulates. -/
theorem C1_dailyPerf (s : State) :
    (∀ t : State, t.clicksToday = s.clicksToday → t.dailyPenaltyPerf = s.dailyPenaltyPerf →
        dailyPerf t = dailyPerf s)
    ∧ (∀ t : State, s.clicksToday ≤ t.clicksToday → t.dailyPenaltyPerf = s.dailyPenaltyPerf →
        dailyPerf s ≤ dailyPerf t)
    ∧ (∃ k : ℤ, dailyPerf s = toDouble ((k : ℚ) / 10)
        ∧ |(k : ℚ) / 10 - exactDailyPerf s.clicksToday s.dailyPenaltyPerf|
            ≤ 1 / 20 + (53 + 3 * |s.dailyPenaltyPerf|) / 2 ^ 53)
    ∧ (dailyPerf s < 0
        ↔ jsMul (jsSub (jsMul (dailyProgress s) 10) s.dailyPenaltyPerf) 10 < -(1 / 2))
    ∧ (exactDailyPerf s.clicksToday s.dailyPenaltyPerf
          < -(1 / 20) - (53 + 3 * |s.dailyPenaltyPerf|) / 2 ^ 53 → dailyPerf s < 0)
    ∧ (-(1 / 20) + (53 + 3 * |s.dailyPenaltyPerf|) / 2 ^ 53
          < exactDailyPerf s.clicksToday s.dailyPenaltyPerf →
        exactDailyPerf s.clicksToday s.dailyPenaltyPerf
          < 1 / 20 - (53 + 3 * |s.dailyPenaltyPerf|) / 2 ^ 53 → dailyPerf s = 0)
    ∧ (s.dayEnded = false → 6 ≤ dailyPerf s → 50 ≤ s.mood → s.dailyCaught < 3 →
        ¬ isFriday s.day →
        fired s (endOfDay s)
          = [Effect.dailySummary (dailyPerf s) (jsRound s.mood) (80 + s.dailyEventExpenses)]
        ∧ (endOfDay s).weeklyBasePerf = round1 (jsAdd s.weeklyBasePerf (dailyPerf s))) := by
  refine ⟨?_, ?_, dailyPerf_near s, dailyPerf_neg_iff s, ?_, ?_, ?_⟩
  · intro t hc hp
    unfold dailyPerf dailyProgress
    rw [hc, hp]
  · intro t hc hp
    exact dailyPerf_mono_clicks s t hc hp.symm
  · intro h
    obtain ⟨k, hk, hb⟩ := dailyPerf_near s
    obtain ⟨hb1, hb2⟩ := abs_le.mp hb
    rw [hk, toDouble_neg_iff]
    linarith
  · intro h1 h2
    obtain ⟨k, hk, hb⟩ := dailyPerf_near s
    obtain ⟨hb1, hb2⟩ := abs_le.mp hb
    have k1 : (-1 : ℚ) < (k : ℚ) := by linarith
    have k2 : (k : ℚ) < 1 := by linarith
    have k1' : -1 < k := by exact_mod_cast k1
    have k2' : k < 1 := by exact_mod_cast k2
    have k0 : k = 0 := by omega
    rw [hk, k0]
    decide!
  · intro hd h hm hc hf
    rw [endOfDay_pass s hd h hm hc, if_neg hf]
    constructor
    · apply fired_of_append
      rw [openDailySummaryInternal_log]
      simp [dayBooked, dayClosed, closeFish_eq, closeModal]
    · simp [openDailySummaryInternal, dayBooked, dayClosed, closeFish_eq, closeModal]

/-- C1 witness: a first day with the quota met; and the values at 238 and 326 clicks, where
the exact value is a tie (5.95, 8.15) and the doubles give 5.9 and 8.1, at 38 clicks with
one penalty point (-0.1) and at 39 clicks with one penalty point (0). -/
theorem C1_dailyPerf_witness :
    (fired { init with clicksToday := 400 } (endOfDay { init with clicksToday := 400 })
        = [Effect.dailySummary (dailyPerf { init with clicksToday := 400 })
            (jsRound ({ init with clicksToday := 400 } : State).mood)
            (80 + ({ init with clicksToday := 400 } : State).dailyEventExpenses)]
      ∧ (endOfDay { init with clicksToday := 400 }).weeklyBasePerf
          = round1 (jsAdd ({ init with clicksToday := 400 } : State).weeklyBasePerf
              (dailyPerf { init with clicksToday := 400 })))
    ∧ dailyPerf { init with clicksToday := 400 } = 10
    ∧ (exactDailyPerf 238 0 = 119 / 20 ∧ dailyPerf (clicked 238 0) = toDouble (59 / 10))
    ∧ (exactDailyPerf 326 0 = 163 / 20 ∧ dailyPerf (clicked 326 0) = toDouble (81 / 10))
    ∧ (exactDailyPerf 38 1 = -(1 / 20) ∧ dailyPerf (clicked 38 1) = toDouble (-(1 / 10)))
    ∧ (exactDailyPerf 39 1 = -(1 / 40) ∧ dailyPerf (clicked 39 1) = 0) :=
  ⟨(C1_dailyPerf { init with clicksToday := 400 }).2.2.2.2.2.2
    (by decide!) (by decide!) (by decide!) (by decide!) (by decide!),
   by decide!, by decide!, by decide!, by decide!, by decide!⟩

/-- C2: with `dayEnded = false`, `endOfDay` applies the daily bad-ending checks in order and
stops at the first match: the daily-performance ending iff `dailyPerf < 6`; the mood ending
iff `dailyPerf ≥ 6` and `mood < 50`; the daily-catch ending iff `dailyPerf ≥ 6`, `mood ≥ 50`
and `dailyCaught ≥ 3`; none of the three otherwise. An ending that fires ends the game.
With the performance computed in doubles, `dailyPerf < 6` holds up to 238 clicks without a
penalty, up to 278, 317, 358 and 398 clicks with a penalty of 1, 2, 3 and 4, and at every
click count with a penalty of 5 or more. -/
theorem C2_daily_checks (s : State) (hd : s.dayEnded = false) :
    (dailyPerf s < 6 ↔ fired s (endOfDay s) = [dailyPerfEnding])
    ∧ (6 ≤ dailyPerf s ∧ s.mood < 50 ↔ fired s (endOfDay s) = [moodEnding])
    ∧ (6 ≤ dailyPerf s ∧ 50 ≤ s.mood ∧ 3 ≤ s.dailyCaught ↔
        fired s (endOfDay s) = [dailyCatchEnding])
    ∧ (6 ≤ dailyPerf s ∧ 50 ≤ s.mood ∧ s.dailyCaught < 3 ↔
        dailyPerfEnding ∉ fired s (endOfDay s) ∧ moodEnding ∉ fired s (endOfDay s)
          ∧ dailyCatchEnding ∉ fired s (endOfDay s))
    ∧ (dailyPerf s < 6 ∨ s.mood < 50 ∨ 3 ≤ s.dailyCaught → (endOfDay s).gameEnded = true)
    ∧ (s.dailyPenaltyPerf = 0 → (dailyPerf s < 6 ↔ s.clicksToday ≤ 238))
    ∧ (s.dailyPenaltyPerf = 1 → (dailyPerf s < 6 ↔ s.clicksToday ≤ 278))
    ∧ (s.dailyPenaltyPerf = 2 → (dailyPerf s < 6 ↔ s.clicksToday ≤ 317))
    ∧ (s.dailyPenaltyPerf = 3 → (dailyPerf s < 6 ↔ s.clicksToday ≤ 358))
    ∧ (s.dailyPenaltyPerf = 4 → (dailyPerf s < 6 ↔ s.clicksToday ≤ 398))
    ∧ (5 ≤ s.dailyPenaltyPerf → dailyPerf s < 6) := by
  obtain ⟨c1, c2, c3, c4⟩ := endOfDay_fired_cases s hd
  have d12 : dailyPerfEnding ≠ moodEnding := by decide
  have d13 : dailyPerfEnding ≠ dailyCatchEnding := by decide
  have d23 : moodEnding ≠ dailyCatchEnding := by decide
  have thr : (s.dailyPenaltyPerf = 0 → (dailyPerf s < 6 ↔ s.clicksToday ≤ 238))
      ∧ (s.dailyPenaltyPerf = 1 → (dailyPerf s < 6 ↔ s.clicksToday ≤ 278))
      ∧ (s.dailyPenaltyPerf = 2 → (dailyPerf s < 6 ↔ s.clicksToday ≤ 317))
      ∧ (s.dailyPenaltyPerf = 3 → (dailyPerf s < 6 ↔ s.clicksToday ≤ 358))
      ∧ (s.dailyPenaltyPerf = 4 → (dailyPerf s < 6 ↔ s.clicksToday ≤ 398))
      ∧ (5 ≤ s.dailyPenaltyPerf → dailyPerf s < 6) :=
    ⟨dailyPerf_threshold 238 0 (by decide!) (by decide!) s,
     dailyPerf_threshold 278 1 (by decide!) (by decide!) s,
     dailyPerf_threshold 317 2 (by decide!) (by decide!) s,
     dailyPerf_threshold 358 3 (by decide!) (by decide!) s,
     dailyPerf_threshold 398 4 (by decide!) (by decide!) s,
     fun h => lt_of_le_of_lt (dailyPerf_le_five s h) (by norm_num)⟩
  rcases lt_or_le (dailyPerf s) 6 with h | h
  · have e := c1 h
    have h' := not_le.mpr h
    refine ⟨⟨fun _ => e, fun _ => h⟩, ?_, ?_, ?_, ?_, thr⟩
    · exact ⟨fun x => absurd x.1 h', fun x => by rw [e] at x; simp [d12] at x⟩
    · exact ⟨fun x => absurd x.1 h', fun x => by rw [e] at x; simp [d13] at x⟩
    · exact ⟨fun x => absurd x.1 h', fun x => by rw [e] at x; simp at x⟩
    · intro _; rw [endOfDay_perf_lt s hd h]; rfl
  · have h' := not_lt.mpr h
    rcases lt_or_le s.mood 50 with hm | hm
    · have e := c2 h hm
      have hm' := not_le.mpr hm
      refine ⟨?_, ⟨fun _ => e, fun _ => ⟨h, hm⟩⟩, ?_, ?_, ?_, thr⟩
      · exact ⟨fun x => absurd x h', fun x => by rw [e] at x; simp [d12.symm] at x⟩
      · exact ⟨fun x => absurd x.2.1 hm', fun x => by rw [e] at x; simp [d23] at x⟩
      · exact ⟨fun x => absurd x.2.1 hm', fun x => by rw [e] at x; simp at x⟩
      · intro _; rw [endOfDay_mood_lt s hd h hm]; rfl
    · have hm' := not_lt.mpr hm
      rcases Nat.lt_or_ge s.dailyCaught 3 with hc | hc
      · have e := c4 h hm hc
        have hc' := Nat.not_le.mpr hc
        refine ⟨?_, ?_, ?_, ⟨fun _ => e, fun _ => ⟨h, hm, hc⟩⟩, ?_, thr⟩
        · exact ⟨fun x => absurd x h', fun x => by rw [x] at e; simp at e⟩
        · exact ⟨fun x => absurd x.2 hm', fun x => by rw [x] at e; simp at e⟩
        · exact ⟨fun x => absurd x.2.2 hc', fun x => by rw [x] at e; simp at e⟩
        · rintro (x | x | x)
          · exact absurd x h'
          · exact absurd x hm'
          · exact absurd x hc'
      · have e := c3 h hm hc
        have hc' := Nat.not_lt.mpr hc
        refine ⟨?_, ?_, ⟨fun _ => e, fun _ => ⟨h, hm, hc⟩⟩, ?_, ?_, thr⟩
        · exact ⟨fun x => absurd x h', fun x => by rw [e] at x; simp [d13.symm] at x⟩
        · exact ⟨fun x => absurd x.2 hm', fun x => by rw [e] at x; simp [d23.symm] at x⟩
        · exact ⟨fun x => absurd x.2.2 hc', fun x => by rw [e] at x; simp at x⟩
        · intro _; rw [endOfDay_caught s hd h hm hc]; rfl

/-- C2 witness: with 238 clicks and no penalty the day ends with the daily-performance
ending; with 239 clicks it does not. -/
theorem C2_daily_checks_witness :
    ((clicked 238 0).dayEnded = false
      ∧ fired (clicked 238 0) (endOfDay (clicked 238 0)) = [dailyPerfEnding]
      ∧ (endOfDay (clicked 238 0)).gameEnded = true)
    ∧ ((clicked 239 0).dayEnded = false
      ∧ dailyPerfEnding ∉ fired (clicked 239 0) (endOfDay (clicked 239 0))
      ∧ moodEnding ∉ fired (clicked 239 0) (endOfDay (clicked 239 0))
      ∧ dailyCatchEnding ∉ fired (clicked 239 0) (endOfDay (clicked 239 0))) :=
  ⟨⟨rfl,
    (C2_daily_checks (clicked 238 0) rfl).1.mp
      (((C2_daily_checks (clicked 238 0) rfl).2.2.2.2.2.1 rfl).mpr (by decide)),
    (C2_daily_checks (clicked 238 0) rfl).2.2.2.2.1
      (Or.inl (((C2_daily_checks (clicked 238 0) rfl).2.2.2.2.2.1 rfl).mpr (by decide)))⟩,
   ⟨rfl,
    (C2_daily_checks (clicked 239 0) rfl).2.2.2.1.mp
      ⟨not_lt.mp (fun h =>
          absurd (((C2_daily_checks (clicked 239 0) rfl).2.2.2.2.2.1 rfl).mp h) (by decide)),
        by decide!, by decide⟩⟩⟩

/-- C3 counterexample: with mood 40 and no click the day ends with the daily-performance
ending, not the mood ending. -/
theorem C3_counterexample :
    ({ init with mood := 40 } : State).mood < 50
      ∧ ({ init with mood := 40 } : State).dayEnded = false
      ∧ fired { init with mood := 40 } (endOfDay { init with mood := 40 }) = [dailyPerfEnding]
      ∧ moodEnding ∉ fired { init with mood := 40 } (endOfDay { init with mood := 40 }) := by
  decide!

/-- C3 (amended): when `endOfDay` runs (`dayEnded = false`) with `mood < 50`, the game ends
with a bad ending: the mood ending if `dailyPerf ≥ 6`, the daily-performance ending, which
is checked first, if `dailyPerf < 6`; without a penalty the first is the case from 239
clicks on and the second up to 238 clicks. -/
theorem C3_low_mood_ends (s : State) (hd : s.dayEnded = false) (hm : s.mood < 50) :
    (endOfDay s).gameEnded = true
    ∧ (6 ≤ dailyPerf s → fired s (endOfDay s) = [moodEnding])
    ∧ (dailyPerf s < 6 → fired s (endOfDay s) = [dailyPerfEnding])
    ∧ (s.dailyPenaltyPerf = 0 → 239 ≤ s.clicksToday → fired s (endOfDay s) = [moodEnding])
    ∧ (s.dailyPenaltyPerf = 0 → s.clicksToday ≤ 238 →
        fired s (endOfDay s) = [dailyPerfEnding]) := by
  obtain ⟨c1, c2, _, _⟩ := endOfDay_fired_cases s hd
  have thr := dailyPerf_threshold 238 0 (by decide!) (by decide!) s
  refine ⟨?_, fun h => c2 h hm, c1, ?_, ?_⟩
  · rcases lt_or_le (dailyPerf s) 6 with h | h
    · rw [endOfDay_perf_lt s hd h]; rfl
    · rw [endOfDay_mood_lt s hd h hm]; rfl
  · intro hp hc
    refine c2 (not_lt.mp fun h => ?_) hm
    have := (thr hp).mp h
    omega
  · intro hp hc
    exact c1 ((thr hp).mpr hc)

/-- C3 witness: mood 40 with the quota met gives the mood ending; mood 40 with 238 clicks
gives the daily-performance ending. -/
theorem C3_low_mood_ends_witness :
    ((endOfDay { init with mood := 40, clicksToday := 400 }).gameEnded = true
      ∧ fired { init with mood := 40, clicksToday := 400 }
          (endOfDay { init with mood := 40, clicksToday := 400 }) = [moodEnding])
    ∧ ((endOfDay { init with mood := 40, clicksToday := 238 }).gameEnded = true
      ∧ fired { init with mood := 40, clicksToday := 238 }
          (endOfDay { init with mood := 40, clicksToday := 238 }) = [dailyPerfEnding]) :=
  ⟨⟨(C3_low_mood_ends { init with mood := 40, clicksToday := 400 } (by decide)
        (by decide!)).1,
    (C3_low_mood_ends { init with mood := 40, clicksToday := 400 } (by decide)
        (by decide!)).2.2.2.1 (by decide!) (by decide)⟩,
   ⟨(C3_low_mood_ends { init with mood := 40, clicksToday := 238 } (by decide)
        (by decide!)).1,
    (C3_low_mood_ends { init with mood := 40, clicksToday := 238 } (by decide)
        (by decide!)).2.2.2.2 (by decide!) (by decide)⟩⟩

/-- C4: in every state reachable from the initial state by ticks, work clicks, fishing
open and close, event choices, crisis acknowledgement, boss window expiry, day advance and
reset, `0 ≤ mood ≤ 100` and `0 ≤ relationship ≤ 100`. -/
theorem C4_mood_relationship_range (s : State) (h : Reachable s) :
    0 ≤ s.mood ∧ s.mood ≤ 100 ∧ 0 ≤ s.relationship ∧ s.relationship ≤ 100 := by
  induction h with
  | init => exact ok_init
  | step s a _ _ ih => exact ok_step s a ih

/-- C4 witness: the state after the start button and one work click. -/
theorem C4_mood_relationship_range_witness :
    0 ≤ (step (step init .start) .workClick).mood
      ∧ (step (step init .start) .workClick).mood ≤ 100
      ∧ 0 ≤ (step (step init .start) .workClick).relationship
      ∧ (step (step init .start) .workClick).relationship ≤ 100 :=
  C4_mood_relationship_range (step (step init .start) .workClick)
    (Reachable.step _ _ (Reachable.step _ _ Reachable.init trivial) trivial)

/-- C5 (the code at the failing input): after day 12, a week-terminal day with
`12 mod 7 = 5`, `proceedNextDayCore` moves to day 13, which is the sixth day of its
7-day cycle; only day 5 jumps over the weekend. -/
theorem C5_day12_advances_to_13 :
    isFriday 12 ∧ 12 % 7 = 5
      ∧ (proceedNextDayCore { init with day := 12 }).day = 13
      ∧ ¬ ((13 - 1) % 7 + 1 ≤ 5)
      ∧ (proceedNextDayCore { init with day := 5 }).day = 8 := by
  decide

/-- C6: at a week-terminal day that passes the daily checks, `weeklyPerfTotal` is
`round1(weeklyBasePerf + min(weeklyExtraPerf, 20))` with the day already in the base and it
is the value the weekly performance check compares; once the weekly performance and catch
checks have passed, `salary = round1(weeklyPerfTotal * 40)` and the settlement sets money
to `round1(money + salary - 800)`, which is the money of an ending fired there and
otherwise is followed by the daily deduction of 80; every operation is a double operation.
For day 5, base 55 and extra 10: total 65, salary 2600 and settled money prior + 1800, for
money an integer and, as the nearest double, for money a tenth. -/
theorem C6_weekly_settlement (s : State) (hd : s.dayEnded = false) (hf : isFriday s.day)
    (hp : 6 ≤ dailyPerf s) (hm : 50 ≤ s.mood) (hc : s.dailyCaught < 3) :
    weeklyPerfTotal (dayBooked s)
        = round1 (jsAdd (round1 (jsAdd s.weeklyBasePerf (dailyPerf s)))
            (min s.weeklyExtraPerf 20))
    ∧ salary (weeklyPerfTotal (dayBooked s)) = round1 (jsMul (weeklyPerfTotal (dayBooked s)) 40)
    ∧ (weeklyPerfTotal (dayBooked s) < 50 →
        fired s (endOfDay s) = [weeklyPerfEnding] ∧ (endOfDay s).money = s.money)
    ∧ (50 ≤ weeklyPerfTotal (dayBooked s) → 5 ≤ s.weeklyCaught →
        fired s (endOfDay s) = [weeklyCatchEnding] ∧ (endOfDay s).money = s.money)
    ∧ (50 ≤ weeklyPerfTotal (dayBooked s) → s.weeklyCaught < 5 →
        ((∃ k m, fired s (endOfDay s) = [Effect.ending k m])
          ∧ (endOfDay s).money
              = round1 (jsSub (jsAdd s.money (salary (weeklyPerfTotal (dayBooked s)))) 800))
        ∨ (fired s (endOfDay s) =
              [Effect.dailySummary (dailyPerf s) (jsRound s.mood) (80 + s.dailyEventExpenses),
               Effect.weeklySummary (weeklyPerfTotal (dayBooked s))
                 (salary (weeklyPerfTotal (dayBooked s))) 1200]
          ∧ (endOfDay s).money
              = round1 (jsSub
                  (round1 (jsSub (jsAdd s.money (salary (weeklyPerfTotal (dayBooked s)))) 800))
                  80)))
    ∧ (s.day = 5 → round1 (jsAdd s.weeklyBasePerf (dailyPerf s)) = 55 →
        s.weeklyExtraPerf = 10 →
        weeklyPerfTotal (dayBooked s) = 65
        ∧ salary (weeklyPerfTotal (dayBooked s)) = 2600
        ∧ (∀ n : ℤ, |n| < 2 ^ 40 → s.money = (n : ℚ) →
            round1 (jsSub (jsAdd s.money (salary (weeklyPerfTotal (dayBooked s)))) 800)
              = s.money + 1800)
        ∧ (∀ k : ℤ, |k| < 2 ^ 40 → s.money = toDouble ((k : ℚ) / 10) →
            round1 (jsSub (jsAdd s.money (salary (weeklyPerfTotal (dayBooked s)))) 800)
              = toDouble ((((k + 18000 : ℤ) : ℚ)) / 10))) := by
  have hE := endOfDay_pass s hd hp hm hc
  rw [if_pos hf] at hE
  refine ⟨dayBooked_weeklyPerfTotal s, rfl, ?_, ?_, ?_, ?_⟩
  · intro ht
    rw [hE, endOfDay_friday_eq, if_pos ht]
    exact ⟨fired_of_append (by rw [badEnd_log, dayBooked_log]; rfl), dayBooked_money s⟩
  · intro ht hw
    rw [hE, endOfDay_friday_eq, if_neg (not_lt.mpr ht),
      if_pos (by rw [dayBooked_weeklyCaught]; exact hw)]
    exact ⟨fired_of_append (by rw [badEnd_log, dayBooked_log]; rfl), dayBooked_money s⟩
  · intro ht hw
    rw [hE]
    have h := endOfDay_friday_settled (dailyPerf s) (dayBooked s) ht
      (by rw [dayBooked_weeklyCaught]; exact hw)
    rw [dayBooked_log, dayBooked_money, dayBooked_mood, dayBooked_dailyEventExpenses] at h
    rcases h with ⟨⟨k, m, hl⟩, hmoney⟩ | ⟨hl, hmoney, _⟩
    · exact Or.inl ⟨⟨k, m, fired_of_append hl⟩, hmoney⟩
    · exact Or.inr ⟨fired_of_append hl, hmoney⟩
  · intro _ hb he
    have ht : weeklyPerfTotal (dayBooked s) = 65 := by
      rw [dayBooked_weeklyPerfTotal, hb, he]
      decide!
    have hs : salary (weeklyPerfTotal (dayBooked s)) = 2600 := by
      rw [ht]
      decide!
    refine ⟨ht, hs, ?_, ?_⟩
    · intro n hn hmoney
      rw [hs, hmoney]
      exact settle_intCast n hn
    · intro k hk hmoney
      rw [hs, hmoney]
      exact settle_tenth k hk

/-- C6 witness: a Friday of week one with base 45, a full day and extra 10; and the same
Friday with 326 clicks and no extra, where the day counts 8.1: total 53.1, salary 2124 and
money 800 + 2124 - 800 - 80. -/
theorem C6_weekly_settlement_witness :
    ((endOfDay fridayExample).money = 2520
      ∧ weeklyPerfTotal (dayBooked fridayExample) = 65
      ∧ salary (weeklyPerfTotal (dayBooked fridayExample)) = 2600
      ∧ round1 (jsSub (jsAdd fridayExample.money
          (salary (weeklyPerfTotal (dayBooked fridayExample)))) 800)
            = fridayExample.money + 1800)
    ∧ (weeklyPerfTotal (dayBooked fridayTie) = toDouble (531 / 10)
      ∧ salary (weeklyPerfTotal (dayBooked fridayTie)) = 2124
      ∧ fired fridayTie (endOfDay fridayTie)
          = [Effect.dailySummary (toDouble (81 / 10)) 100 80,
             Effect.weeklySummary (toDouble (531 / 10)) 2124 1200]
      ∧ (endOfDay fridayTie).money = 2044) :=
  ⟨⟨by decide!,
    ((C6_weekly_settlement fridayExample (by decide) (by decide) (by decide!)
      (by decide!) (by decide)).2.2.2.2.2 (by decide) (by decide!) (by decide!)).1,
    ((C6_weekly_settlement fridayExample (by decide) (by decide) (by decide!)
      (by decide!) (by decide)).2.2.2.2.2 (by decide) (by decide!) (by decide!)).2.1,
    ((C6_weekly_settlement fridayExample (by decide) (by decide) (by decide!)
      (by decide!) (by decide)).2.2.2.2.2 (by decide) (by decide!) (by decide!)).2.2.1
        800 (by decide) (by decide!)⟩,
   ⟨by decide!, by decide!, by decide!, by decide!⟩⟩

/-- C7: `endOfDay` performs the weekly resolution only on a week-terminal day (`day = 5`, or
`day > 5` and `(day - 5) mod 7 = 0`), and on such a day every call that gets past the daily
checks performs it: the weekly performance ending below a total of 50 and the weekly catch
ending from 5 catches on; otherwise the two weekly streaks are updated and salary and rent
settled, and then either an ending fires or both summaries are shown, the daily 80 is
deducted and the weekly accumulators are reset. On every other day a call that gets past the
daily checks leaves `weeklyExtraPerf`, `weeklyCaught`, `weeklyEventExpenses`,
`highPerfWeeksStreak` and `perfectFishWeeksStreak` unchanged, shows the daily summary only,
and changes money only by the daily deduction of 80. -/
theorem C7_weekly_resolution_frame (s : State) :
    ((∃ e ∈ fired s (endOfDay s), isWeeklyEffect e = true) →
        s.day = 5 ∨ (s.day > 5 ∧ (s.day - 5) % 7 = 0))
    ∧ (s.dayEnded = false → 6 ≤ dailyPerf s → 50 ≤ s.mood → s.dailyCaught < 3 →
        (s.day = 5 ∨ (s.day > 5 ∧ (s.day - 5) % 7 = 0)) →
        (∃ e ∈ fired s (endOfDay s), isWeeklyEffect e = true)
        ∧ (weeklyPerfTotal (dayBooked s) < 50 → fired s (endOfDay s) = [weeklyPerfEnding])
        ∧ (50 ≤ weeklyPerfTotal (dayBooked s) → 5 ≤ s.weeklyCaught →
            fired s (endOfDay s) = [weeklyCatchEnding])
        ∧ (50 ≤ weeklyPerfTotal (dayBooked s) → s.weeklyCaught < 5 →
            (endOfDay s).highPerfWeeksStreak
                = (if weeklyPerfTotal (dayBooked s) ≥ 80 then s.highPerfWeeksStreak + 1 else 0)
            ∧ (endOfDay s).perfectFishWeeksStreak
                = (if weeklyPerfTotal (dayBooked s) ≥ 60 ∧ s.weeklyCaught = 0 then
                    s.perfectFishWeeksStreak + 1 else 0)
            ∧ (((∃ k m, fired s (endOfDay s) = [Effect.ending k m])
                  ∧ (endOfDay s).money
                      = round1 (jsSub (jsAdd s.money (salary (weeklyPerfTotal (dayBooked s))))
                          800)
                  ∧ (endOfDay s).gameEnded = true)
              ∨ (fired s (endOfDay s) =
                    [Effect.dailySummary (dailyPerf s) (jsRound s.mood)
                       (80 + s.dailyEventExpenses),
                     Effect.weeklySummary (weeklyPerfTotal (dayBooked s))
                       (salary (weeklyPerfTotal (dayBooked s))) 1200]
                  ∧ (endOfDay s).money
                      = round1 (jsSub (round1 (jsSub
                          (jsAdd s.money (salary (weeklyPerfTotal (dayBooked s)))) 800)) 80)
                  ∧ (endOfDay s).weeklyBasePerf = 0 ∧ (endOfDay s).weeklyExtraPerf = 0
                  ∧ (endOfDay s).weeklyCaught = 0
                  ∧ (endOfDay s).weeklyEventExpenses = 0
                  ∧ (endOfDay s).gameEnded = s.gameEnded))))
    ∧ (s.dayEnded = false → 6 ≤ dailyPerf s → 50 ≤ s.mood → s.dailyCaught < 3 →
        ¬ (s.day = 5 ∨ (s.day > 5 ∧ (s.day - 5) % 7 = 0)) →
        (endOfDay s).weeklyExtraPerf = s.weeklyExtraPerf
        ∧ (endOfDay s).weeklyCaught = s.weeklyCaught
        ∧ (endOfDay s).weeklyEventExpenses = s.weeklyEventExpenses
        ∧ (endOfDay s).highPerfWeeksStreak = s.highPerfWeeksStreak
        ∧ (endOfDay s).perfectFishWeeksStreak = s.perfectFishWeeksStreak
        ∧ (endOfDay s).money = round1 (jsSub s.money 80)
        ∧ (∀ n : ℤ, |n| < 2 ^ 40 → s.money = (n : ℚ) → (endOfDay s).money = s.money - 80)
        ∧ (∀ k : ℤ, |k| < 2 ^ 40 → s.money = toDouble ((k : ℚ) / 10) →
            (endOfDay s).money = toDouble (((k - 800 : ℤ) : ℚ) / 10))
        ∧ fired s (endOfDay s)
            = [Effect.dailySummary (dailyPerf s) (jsRound s.mood) (80 + s.dailyEventExpenses)]
        ∧ ¬ ∃ e ∈ fired s (endOfDay s), isWeeklyEffect e = true) := by
  have key : s.dayEnded = false → 6 ≤ dailyPerf s → 50 ≤ s.mood → s.dailyCaught < 3 →
      ¬ isFriday s.day →
      fired s (endOfDay s)
        = [Effect.dailySummary (dailyPerf s) (jsRound s.mood) (80 + s.dailyEventExpenses)] := by
    intro hd hp hm hc hf
    rw [endOfDay_not_friday s hd hp hm hc hf]
    apply fired_of_append
    rw [openDailySummaryInternal_log, dayBooked_log, dayBooked_mood, dayBooked_dailyEventExpenses]
  have onlyIf : (∃ e ∈ fired s (endOfDay s), isWeeklyEffect e = true) → isFriday s.day := by
    rintro ⟨e, he, hw⟩
    by_contra hf
    cases hd : s.dayEnded with
    | true =>
      have : endOfDay s = s := by unfold endOfDay; rw [if_pos hd]
      rw [this, fired_self] at he
      simp at he
    | false =>
      obtain ⟨c1, c2, c3, _⟩ := endOfDay_fired_cases s hd
      rcases lt_or_le (dailyPerf s) 6 with hp | hp
      · rw [c1 hp, List.mem_singleton] at he
        rw [he] at hw; exact absurd hw (by decide)
      rcases lt_or_le s.mood 50 with hm | hm
      · rw [c2 hp hm, List.mem_singleton] at he
        rw [he] at hw; exact absurd hw (by decide)
      rcases Nat.lt_or_ge s.dailyCaught 3 with hc | hc
      · rw [key hd hp hm hc hf, List.mem_singleton] at he
        rw [he] at hw; exact absurd hw (by simp [isWeeklyEffect])
      · rw [c3 hp hm hc, List.mem_singleton] at he
        rw [he] at hw; exact absurd hw (by decide)
  refine ⟨onlyIf, ?_, ?_⟩
  · intro hd hp hm hc hF
    have hf : isFriday s.day := hF
    have hE := endOfDay_pass s hd hp hm hc
    rw [if_pos hf] at hE
    refine ⟨?_, ?_, ?_, ?_⟩
    · rw [hE]
      obtain ⟨pre, hpre, e, he, hw⟩ := endOfDay_friday_weekly (dailyPerf s) (dayBooked s)
      rw [dayBooked_log] at hpre
      rw [fired_of_append hpre]
      exact ⟨e, he, hw⟩
    · intro ht
      rw [hE, endOfDay_friday_eq, if_pos ht]
      exact fired_of_append (by rw [badEnd_log, dayBooked_log]; rfl)
    · intro ht hw
      rw [hE, endOfDay_friday_eq, if_neg (not_lt.mpr ht),
        if_pos (by rw [dayBooked_weeklyCaught]; exact hw)]
      exact fired_of_append (by rw [badEnd_log, dayBooked_log]; rfl)
    · intro ht hw
      rw [hE]
      have h := endOfDay_friday_resolution (dailyPerf s) (dayBooked s) ht
        (by rw [dayBooked_weeklyCaught]; exact hw)
      have e1 : (dayBooked s).highPerfWeeksStreak = s.highPerfWeeksStreak := by
        simp [dayBooked, dayClosed, closeFish_eq, closeModal]
      have e2 : (dayBooked s).perfectFishWeeksStreak = s.perfectFishWeeksStreak := by
        simp [dayBooked, dayClosed, closeFish_eq, closeModal]
      have e3 : (dayBooked s).gameEnded = s.gameEnded := by
        simp [dayBooked, dayClosed, closeFish_eq, closeModal]
      rw [dayBooked_log, dayBooked_money, dayBooked_mood, dayBooked_dailyEventExpenses,
        dayBooked_weeklyCaught, e1, e2, e3] at h
      obtain ⟨h1, h2, h3⟩ := h
      refine ⟨h1, h2, ?_⟩
      rcases h3 with ⟨⟨k, m, hl⟩, hmoney, hg⟩ | ⟨hl, hrest⟩
      · exact Or.inl ⟨⟨k, m, fired_of_append hl⟩, hmoney, hg⟩
      · exact Or.inr ⟨fired_of_append hl, hrest⟩
  · intro hd hp hm hc hF
    have hf : ¬ isFriday s.day := hF
    have hmoney : (endOfDay s).money = round1 (jsSub s.money 80) := by
      rw [endOfDay_not_friday s hd hp hm hc hf, openDailySummaryInternal_money, dayBooked_money]
    have frame : (endOfDay s).weeklyExtraPerf = s.weeklyExtraPerf
        ∧ (endOfDay s).weeklyCaught = s.weeklyCaught
        ∧ (endOfDay s).weeklyEventExpenses = s.weeklyEventExpenses
        ∧ (endOfDay s).highPerfWeeksStreak = s.highPerfWeeksStreak
        ∧ (endOfDay s).perfectFishWeeksStreak = s.perfectFishWeeksStreak := by
      rw [endOfDay_not_friday s hd hp hm hc hf]
      simp [openDailySummaryInternal, dayBooked, dayClosed, closeFish_eq, closeModal]
    refine ⟨frame.1, frame.2.1, frame.2.2.1, frame.2.2.2.1, frame.2.2.2.2, hmoney, ?_, ?_,
      key hd hp hm hc hf, fun h => hf (onlyIf h)⟩
    · intro n hn hk
      rw [hmoney, hk]
      exact deduct_intCast n hn
    · intro k hk hmk
      rw [hmoney, hmk]
      exact deduct_tenth k hk

/-- C7 witness: the first day with the quota met is no week-terminal day and costs 80; the
Friday with 326 clicks on a base of 45 counts 53.1, resets both streaks and the weekly
accumulators and shows both summaries. -/
theorem C7_weekly_resolution_frame_witness :
    ((endOfDay { init with clicksToday := 400 }).weeklyExtraPerf = 0
      ∧ (endOfDay { init with clicksToday := 400 }).money = 720)
    ∧ ((∃ e ∈ fired fridayTie (endOfDay fridayTie), isWeeklyEffect e = true)
      ∧ (endOfDay fridayTie).highPerfWeeksStreak = 0
      ∧ (endOfDay fridayTie).perfectFishWeeksStreak = 0
      ∧ (endOfDay fridayTie).weeklyBasePerf = 0
      ∧ (endOfDay fridayTie).money = 2044) :=
  ⟨⟨((C7_weekly_resolution_frame { init with clicksToday := 400 }).2.2
        (by decide) (by decide!) (by decide!) (by decide) (by decide)).1,
    (((C7_weekly_resolution_frame { init with clicksToday := 400 }).2.2
        (by decide) (by decide!) (by decide!) (by decide) (by decide)).2.2.2.2.2.2.1
        800 (by decide) (by decide!)).trans (by decide!)⟩,
   ⟨((C7_weekly_resolution_frame fridayTie).2.1
        (by decide) (by decide!) (by decide!) (by decide) (by decide)).1,
    by decide!, by decide!, by decide!, by decide!⟩⟩

/-- C8 counterexample: on a fresh game 400 work clicks in a row end the game with the mood
ending (from click 272 on); the 240 ticks that follow do nothing, the clock still shows
240 seconds, no daily summary is shown and no money is deducted. -/
theorem C8_counterexample :
    (run init clicksOnly).gameEnded = true
      ∧ (run init clicksOnly).log = List.replicate 9 moodEnding
      ∧ (run init clicksOnly).secondsLeft = 240
      ∧ (run init clicksOnly).summaryOpen = false
      ∧ (run init clicksOnly).money = 800 := by
  decide!

/-- C8 (amended): on the first day, when the last second of the timer runs out with the
quota met (`clicksToday ≥ 400`), no penalty, no catch and no event expense, mood kept at 50
or above, no fishing and no event in that tick, and money 800, the tick yields
`dailyPerf = 10`, fires no ending and presents the daily summary with performance 10 and
total daily expense 80; money becomes 720. -/
theorem C8_full_day_summary (d : TickDraws) (s : State)
    (hg : s.gameEnded = false) (hd : s.dayEnded = false) (hp : s.prestart = false)
    (hpa : s.pausedForEvent = false) (hsec : s.secondsLeft = 1) (hday : s.day = 1)
    (hclicks : 400 ≤ s.clicksToday) (hpen : s.dailyPenaltyPerf = 0) (hmood : 50 ≤ s.mood)
    (hcaught : s.dailyCaught = 0) (hexp : s.dailyEventExpenses = 0) (hmoney : s.money = 800)
    (hfish : s.isFishing = false) (hrel : 40 ≤ s.relationship)
    (hev : 6 / 10 ≤ d.event) (hgate : 3 / 10 ≤ d.scriptedGate) :
    dailyPerf s = 10
    ∧ fired s (tick d s) = [Effect.dailySummary 10 (jsRound s.mood) 80]
    ∧ (tick d s).money = 720
    ∧ (tick d s).gameEnded = false
    ∧ (tick d s).dayEnded = true
    ∧ (tick d s).summaryOpen = true := by
  obtain ⟨m, l, hq⟩ := tickChecked_quiet d s hfish (not_lt.mpr hev) (not_lt.mpr hgate)
    (not_lt.mpr hrel)
  have hperf := dailyPerf_full s hclicks hpen
  refine ⟨hperf, ?_⟩
  rw [tick_eq d s hg hd hp hpa, hq]
  simp only []
  rw [if_pos (by rw [hsec]; norm_num)]
  generalize hs3 : ({ s with secondsLeft := 0, lastMinuteMark := m, lockEventOrBoss := l } : State)
    = s3
  have e1 : s3.dayEnded = false := by rw [← hs3]; exact hd
  have e2 : dailyPerf s3 = 10 := by rw [← hs3]; exact hperf
  have e3 : s3.mood = s.mood := by rw [← hs3]
  have e4 : s3.dailyCaught = 0 := by rw [← hs3]; exact hcaught
  have e5 : s3.day = 1 := by rw [← hs3]; exact hday
  have e6 : s3.log = s.log := by rw [← hs3]
  have e7 : s3.dailyEventExpenses = 0 := by rw [← hs3]; exact hexp
  have e8 : s3.money = 800 := by rw [← hs3]; exact hmoney
  have e9 : s3.gameEnded = false := by rw [← hs3]; exact hg
  rw [endOfDay_not_friday s3 e1 (by rw [e2]; norm_num) (by rw [e3]; exact hmood)
    (by rw [e4]; norm_num) (by rw [e5]; decide), e2]
  refine ⟨?_, ?_, ?_, ?_, ?_⟩
  · apply fired_of_append
    rw [openDailySummaryInternal_log, dayBooked_log, dayBooked_mood, dayBooked_dailyEventExpenses,
      e3, e6, e7]
    norm_num
  · rw [openDailySummaryInternal_money, dayBooked_money, e8]
    decide!
  · simp [openDailySummaryInternal, dayBooked, dayClosed, closeFish_eq, closeModal, e9]
  · simp [openDailySummaryInternal, dayBooked, dayClosed, closeFish_eq, closeModal]
  · simp [openDailySummaryInternal, dayBooked, dayClosed, closeFish_eq, closeModal]

/-- C8 witness: the run `goodDay` reaches `lastSecond`, the last second of day 1 with 400
clicks and mood 71, and the next tick shows the daily summary 10 / 71 / 80 and leaves 720. -/
theorem C8_full_day_summary_witness :
    run init goodDay = lastSecond
      ∧ fired lastSecond (tick quietDraws lastSecond) = [Effect.dailySummary 10 71 80]
      ∧ (tick quietDraws lastSecond).money = 720
      ∧ (tick quietDraws lastSecond).gameEnded = false := by
  have h := C8_full_day_summary quietDraws lastSecond (by decide) (by decide) (by decide)
    (by decide) (by decide) (by decide) (by decide) (by decide!) (by decide!) (by decide)
    (by decide!) (by decide!) (by decide) (by decide!) (by decide!) (by decide!)
  have hm : jsRound lastSecond.mood = 71 := by decide!
  rw [hm] at h
  exact ⟨by decide!, h.2.1, h.2.2.1, h.2.2.2.1⟩

/-- C9: when a pending boss reaction window runs out while `isFishing` is true,
`dailyCaught`, `weeklyCaught` and `dailyPenaltyPerf` each grow by exactly 1 and the game
ends with a catch ending iff afterwards `dailyCaught ≥ 3` (daily catch ending) or
`weeklyCaught ≥ 5` (weekly catch ending); with `isFishing` false the three counters keep
their values and nothing is fired. -/
theorem C9_boss_window_expiry (s : State) (id : ℕ)
    (hpending : s.bossTimers.any (fun t => t.1 == id) = true) :
    (s.isFishing = true →
      (step s (.bossWindow id)).dailyCaught = s.dailyCaught + 1
      ∧ (step s (.bossWindow id)).weeklyCaught = s.weeklyCaught + 1
      ∧ (step s (.bossWindow id)).dailyPenaltyPerf = s.dailyPenaltyPerf + 1
      ∧ (fired s (step s (.bossWindow id)) = [dailyCatchEnding] ↔
          (step s (.bossWindow id)).dailyCaught ≥ 3)
      ∧ (fired s (step s (.bossWindow id)) = [weeklyCatchEnding] ↔
          (step s (.bossWindow id)).dailyCaught < 3 ∧ (step s (.bossWindow id)).weeklyCaught ≥ 5)
      ∧ (fired s (step s (.bossWindow id)) = [] ↔
          (step s (.bossWindow id)).dailyCaught < 3 ∧ (step s (.bossWindow id)).weeklyCaught < 5)
      ∧ ((step s (.bossWindow id)).dailyCaught ≥ 3 ∨ (step s (.bossWindow id)).weeklyCaught ≥ 5 →
          (step s (.bossWindow id)).gameEnded = true))
    ∧ (s.isFishing = false →
      (step s (.bossWindow id)).dailyCaught = s.dailyCaught
      ∧ (step s (.bossWindow id)).weeklyCaught = s.weeklyCaught
      ∧ (step s (.bossWindow id)).dailyPenaltyPerf = s.dailyPenaltyPerf
      ∧ (step s (.bossWindow id)).gameEnded = s.gameEnded
      ∧ fired s (step s (.bossWindow id)) = []) := by
  have hstep : step s (.bossWindow id)
      = bossWindowExpired { s with bossTimers := clearTimeout id s.bossTimers } := by
    simp only [step]; rw [if_pos hpending]
  rw [hstep]
  constructor
  · intro hf
    obtain ⟨e1, e2, e3, e4, e5⟩ :=
      bossWindowExpired_fishing { s with bossTimers := clearTimeout id s.bossTimers } hf
    simp only [] at e1 e2 e3 e4 e5
    rw [e1, e2, e3]
    have d1 : dailyCatchEnding ≠ weeklyCatchEnding := by decide
    refine ⟨rfl, rfl, rfl, ?_, ?_, ?_, e5⟩
    · by_cases h3 : s.dailyCaught + 1 ≥ 3
      · rw [if_pos h3] at e4
        rw [fired_of_append e4]; simp [h3]
      · by_cases h5 : s.weeklyCaught + 1 ≥ 5
        · rw [if_neg h3, if_pos h5] at e4
          rw [fired_of_append e4]; simp [h3, d1.symm]
        · rw [if_neg h3, if_neg h5] at e4
          rw [fired_of_append e4]; simp [h3]
    · by_cases h3 : s.dailyCaught + 1 ≥ 3
      · rw [if_pos h3] at e4
        rw [fired_of_append e4]; simp [d1]; omega
      · by_cases h5 : s.weeklyCaught + 1 ≥ 5
        · rw [if_neg h3, if_pos h5] at e4
          rw [fired_of_append e4]; simp; omega
        · rw [if_neg h3, if_neg h5] at e4
          rw [fired_of_append e4]; simp; omega
    · by_cases h3 : s.dailyCaught + 1 ≥ 3
      · rw [if_pos h3] at e4
        rw [fired_of_append e4]; simp; omega
      · by_cases h5 : s.weeklyCaught + 1 ≥ 5
        · rw [if_neg h3, if_pos h5] at e4
          rw [fired_of_append e4]; simp; omega
        · rw [if_neg h3, if_neg h5] at e4
          rw [fired_of_append e4]; simp; omega
  · intro hf
    have h := bossWindowExpired_idle { s with bossTimers := clearTimeout id s.bossTimers } hf
    rw [h]
    exact ⟨rfl, rfl, rfl, rfl, fired_of_append rfl⟩

/-- C9 witness: the boss has appeared while the player is fishing with two catches today;
when the pending window runs out the third catch ends the game. -/
theorem C9_boss_window_expiry_witness :
    (step caughtExample (.bossWindow 1)).dailyCaught = 3
      ∧ fired caughtExample (step caughtExample (.bossWindow 1)) = [dailyCatchEnding] := by
  have h := (C9_boss_window_expiry caughtExample 1 (by decide)).1 (by decide)
  exact ⟨h.1, h.2.2.2.1.mpr (by decide)⟩

/-- C10: choosing the first option of the lottery event with draw `r` awards 10000 if
`r < 0.0001`, 100 if `0.0001 ≤ r < 0.0501`, 20 if `0.0501 ≤ r < 0.2501` and 0 otherwise,
queues the announcement of that prize, and changes money by exactly `prize - 10`; the
draws 0.00005, 0.10 and 0.99 give 10000, 20 and 0. -/
theorem C10_lottery (r : ℚ) (s : State) :
    (∃ ev ∈ events, ev.id = "lottery_ticket")
    ∧ (∀ ev ∈ events, ev.id = "lottery_ticket" →
        ev.a.special = some "lottery" ∧ ev.a.money = -10
        ∧ (randomChoice ev ev.a r s).money = s.money + (lotteryWin r - 10)
        ∧ (randomChoice ev ev.a r s).lotteryTimers = s.lotteryTimers ++ [lotteryWin r])
    ∧ (r < 1 / 10000 → lotteryWin r = 10000)
    ∧ (1 / 10000 ≤ r → r < 501 / 10000 → lotteryWin r = 100)
    ∧ (501 / 10000 ≤ r → r < 2501 / 10000 → lotteryWin r = 20)
    ∧ (2501 / 10000 ≤ r → lotteryWin r = 0)
    ∧ lotteryWin (5 / 100000) = 10000 ∧ lotteryWin (1 / 10) = 20 ∧ lotteryWin (99 / 100) = 0 := by
  refine ⟨⟨lotteryTicket, by decide, rfl⟩, ?_, ?_, ?_, ?_, ?_,
    by decide!, by decide!, by decide!⟩
  · intro ev hev hid
    rw [mem_events_lottery ev hev hid]
    refine ⟨rfl, rfl, ?_, ?_⟩
    · unfold randomChoice
      simp only [applyOutcome_eq]
      simp [lotteryTicket]
      ring
    · unfold randomChoice
      simp only [applyOutcome_eq]
      simp [lotteryTicket]
  · intro h
    unfold lotteryWin
    rw [if_pos h]
  · intro h1 h2
    unfold lotteryWin
    rw [if_neg (not_lt.mpr h1), if_pos (by linarith)]
  · intro h1 h2
    unfold lotteryWin
    rw [if_neg (not_lt.mpr (by linarith)), if_neg (not_lt.mpr (by linarith)),
      if_pos (by linarith)]
  · intro h1
    unfold lotteryWin
    rw [if_neg (not_lt.mpr (by linarith)), if_neg (not_lt.mpr (by linarith)),
      if_neg (not_lt.mpr (by linarith))]

/-- C10 witness: the draw 0.03 on the initial state wins 100, so money grows by 90. -/
theorem C10_lottery_witness :
    lotteryWin (3 / 100) = 100
      ∧ ∀ ev ∈ events, ev.id = "lottery_ticket" →
          (randomChoice ev ev.a (3 / 100) init).money = init.money + (lotteryWin (3 / 100) - 10) :=
  ⟨(C10_lottery (3 / 100) init).2.2.2.1 (by norm_num) (by norm_num),
   fun ev hev hid => ((C10_lottery (3 / 100) init).2.1 ev hev hid).2.2.1⟩

/-- C11: within one day no random event is selected twice: `maybeEvent` only selects a
catalog event whose id is not in `dailyTriggeredEvents` and appends that id, so in every
reachable state `dailyTriggeredEvents` has no duplicate; after advancing to the next day it
is empty. -/
theorem C11_random_event_once_a_day :
    (∀ (f : ℤ) (r rp : ℚ) (s : State),
        (maybeEvent f r rp s).dailyTriggeredEvents = s.dailyTriggeredEvents
        ∨ ∃ ev ∈ events, ev.id ∉ s.dailyTriggeredEvents
            ∧ (maybeEvent f r rp s).dailyTriggeredEvents = s.dailyTriggeredEvents ++ [ev.id]
            ∧ (maybeEvent f r rp s).opt1 = some (Handler.random ev ev.a)
            ∧ (maybeEvent f r rp s).opt2 = some (Handler.random ev ev.b))
    ∧ (∀ s : State, Reachable s → s.dailyTriggeredEvents.Nodup)
    ∧ (∀ s : State, (proceedNextDayCore s).dailyTriggeredEvents = [])
    ∧ (∀ s : State, s.summaryOpen = true → (step s Action.nextDay).dailyTriggeredEvents = []) := by
  refine ⟨?_, fun s h => (reachable_nodup s h).1, proceedNextDayCore_dailyTriggeredEvents, ?_⟩
  · intro f r rp s
    rcases maybeEvent_selects f r rp s with h | h | ⟨ev, hev, hnot, hd, h1, h2, _⟩
    · rw [h]; exact Or.inl rfl
    · exact Or.inl h.1
    · exact Or.inr ⟨ev, hev, hnot, hd, h1, h2⟩
  · intro s hs
    simp only [step]
    rw [if_pos hs]
    exact proceedNextDayCore_dailyTriggeredEvents _

/-- C11 witness: a first day on which a random event fires at second 40; the record holds
its id once, and is empty after the day advance. -/
theorem C11_random_event_once_a_day_witness :
    (run init (Action.start :: (List.replicate 39 (Action.tick quietDraws)
        ++ [Action.tick eventDraws]))).dailyTriggeredEvents = ["colleague_help"]
    ∧ (run init (Action.start :: (List.replicate 39 (Action.tick quietDraws)
        ++ [Action.tick eventDraws]))).dailyTriggeredEvents.Nodup
    ∧ (step (run init (goodDay ++ [Action.tick eventDraws])) Action.nextDay).dailyTriggeredEvents
        = [] :=
  ⟨by decide!,
   C11_random_event_once_a_day.2.1 _ (reachable_run _ _ Reachable.init (by decide!)),
   C11_random_event_once_a_day.2.2.2 _ (by decide!)⟩

/-- C12: in a sequence of operations without `resetGame` a scripted event keeps its
`triggered` mark, and `checkScriptedEvents` only ever selects an unmarked event, which it
marks; so an event that has fired is never selected again, and in every reachable state
each scripted event is marked at most once. -/
theorem C12_scripted_event_once :
    (∀ (s : State) (actions : List Action), Action.restart ∉ actions →
        ∀ id ∈ s.triggered, id ∈ (run s actions).triggered)
    ∧ (∀ (rp : ℚ) (s : State),
        checkScriptedEvents rp s = s
        ∨ ∃ ev ∈ scriptedEvents, ev.id ∉ s.triggered
            ∧ (checkScriptedEvents rp s).triggered = ev.id :: s.triggered
            ∧ (checkScriptedEvents rp s).opt1 = some (Handler.scripted ev ev.a "A")
            ∧ (checkScriptedEvents rp s).opt2 = some (Handler.scripted ev ev.b "B"))
    ∧ (∀ (s : State) (actions : List Action) (rp : ℚ) (ev : ScriptedEvent),
        Action.restart ∉ actions → ev.id ∈ s.triggered →
        (checkScriptedEvents rp (run s actions)).triggered
          ≠ ev.id :: (run s actions).triggered)
    ∧ (∀ s : State, Reachable s → s.triggered.Nodup)
    ∧ (scriptedEvents.map (fun ev => ev.id)).Nodup := by
  refine ⟨fun s actions hno => (adv_run actions s hno).2.2, ?_, ?_,
    fun s h => (reachable_nodup s h).2, by decide⟩
  · intro rp s
    rcases checkScriptedEvents_selects rp s with h | ⟨ev, hev, hnot, _, ht, h1, h2, _⟩
    · exact Or.inl h
    · exact Or.inr ⟨ev, hev, hnot, ht, h1, h2⟩
  · intro s actions rp ev hno hmem heq
    have hin := (adv_run actions s hno).2.2 ev.id hmem
    rcases checkScriptedEvents_selects rp (run s actions) with h | ⟨ev', _, hnot, _, ht, _⟩
    · rw [h] at heq
      have := congrArg List.length heq
      simp at this
    · rw [ht] at heq
      have hid : ev'.id = ev.id := (List.cons.inj heq).1
      rw [hid] at hnot
      exact hnot hin

/-- C12 witness: on day 1 the scripted event of the day fires at second 60; a 61st second
later its mark is still there and the check does not select it. -/
theorem C12_scripted_event_once_witness :
    (run init scriptedAtSecond60).triggered = ["DAY1_MENTOR_INTRO"]
    ∧ "DAY1_MENTOR_INTRO" ∈ (run (run init scriptedAtSecond60)
        [Action.opt1 0, Action.tick scriptedDraws]).triggered
    ∧ (run init scriptedAtSecond60).triggered.Nodup :=
  ⟨by decide!,
   C12_scripted_event_once.1 (run init scriptedAtSecond60)
     [Action.opt1 0, Action.tick scriptedDraws] (by decide) "DAY1_MENTOR_INTRO" (by decide!),
   C12_scripted_event_once.2.2.2.1 _ (reachable_run _ _ Reachable.init (by decide!))⟩

/-- C13 (the code at the failing input): the boss appears at second 39 while the player is
fishing; at second 40 the tick enters a new 40-second bucket, clears `lockEventOrBoss`
(line 1917) and opens a random event modal while the reaction window is still pending. -/
theorem C13_event_opens_during_boss_window :
    Reachable (run init bossAtSecond39)
      ∧ bossWindowActive (run init bossAtSecond39) = true
      ∧ eventModalActive (run init bossAtSecond39) = false
      ∧ (run init bossAtSecond39).lockEventOrBoss = true
      ∧ bossWindowActive (tick eventDraws (run init bossAtSecond39)) = true
      ∧ eventModalActive (tick eventDraws (run init bossAtSecond39)) = true :=
  ⟨reachable_run _ _ Reachable.init (by decide!), by decide!, by decide!, by decide!,
   by decide!, by decide!⟩

/-- C14 (the code at the failing inputs): after the player escapes the boss by closing the
fishing panel, `lockEventOrBoss` is still true although no boss window and no modal is
active; and when a new 40-second bucket starts while the reaction window is pending, the
tick sets `lockEventOrBoss` to false although the window is active. -/
theorem C14_lock_out_of_step :
    Reachable (run init (bossAtSecond6 ++ [Action.closeFish]))
      ∧ (run init (bossAtSecond6 ++ [Action.closeFish])).lockEventOrBoss = true
      ∧ bossWindowActive (run init (bossAtSecond6 ++ [Action.closeFish])) = false
      ∧ (run init (bossAtSecond6 ++ [Action.closeFish])).bossTimers = []
      ∧ (run init (bossAtSecond6 ++ [Action.closeFish])).modalOpen = false
      ∧ Reachable (run init (bossAtSecond39 ++ [Action.tick quietDraws]))
      ∧ (run init (bossAtSecond39 ++ [Action.tick quietDraws])).lockEventOrBoss = false
      ∧ bossWindowActive (run init (bossAtSecond39 ++ [Action.tick quietDraws])) = true :=
  ⟨reachable_run _ _ Reachable.init (by decide!), by decide!, by decide!, by decide!,
   by decide!, reachable_run _ _ Reachable.init (by decide!), by decide!, by decide!⟩

/-- C15: on a week-terminal day that passes the daily checks `endOfDay` produces exactly one
result, the first that matches in the order: `weeklyPerfTotal < 50` (bad), `weeklyCaught ≥ 5`
(bad), money after salary and rent `< 0` (bad), then the good endings (a) to (h) with their
tests; that ending is the only effect and ends the game. If none matches the game goes on:
the weekly and the daily summary are presented and the weekly accumulators are reset. -/
theorem C15_weekly_order (s : State) (hd : s.dayEnded = false) (hp : 6 ≤ dailyPerf s)
    (hm : 50 ≤ s.mood) (hc : s.dailyCaught < 3) (hf : isFriday s.day) :
    (∀ e, weeklyResultOf s = some e →
        fired s (endOfDay s) = [e] ∧ (endOfDay s).gameEnded = true)
    ∧ (weeklyResultOf s = none →
        fired s (endOfDay s) =
          [Effect.dailySummary (dailyPerf s) (jsRound s.mood) (80 + s.dailyEventExpenses),
           Effect.weeklySummary (weeklyPerfTotal (dayBooked s))
             (salary (weeklyPerfTotal (dayBooked s))) 1200]
        ∧ (endOfDay s).gameEnded = s.gameEnded
        ∧ (endOfDay s).weeklyBasePerf = 0 ∧ (endOfDay s).weeklyExtraPerf = 0
        ∧ (endOfDay s).weeklyCaught = 0 ∧ (endOfDay s).weeklyEventExpenses = 0) := by
  have hE := endOfDay_pass s hd hp hm hc
  rw [if_pos hf, endOfDay_friday_eq] at hE
  have hW := weeklyResultOf_eq s
  by_cases h1 : weeklyPerfTotal (dayBooked s) < 50
  · rw [if_pos h1] at hE hW
    rw [hW, hE]
    refine ⟨fun e he => ?_, fun h => absurd h (by simp)⟩
    rw [← Option.some.inj he]
    exact ⟨fired_of_append (by rw [badEnd_log, dayBooked_log]; rfl), rfl⟩
  rw [if_neg h1] at hE hW
  by_cases h2 : (dayBooked s).weeklyCaught ≥ 5
  · rw [if_pos h2] at hE hW
    rw [hW, hE]
    refine ⟨fun e he => ?_, fun h => absurd h (by simp)⟩
    rw [← Option.some.inj he]
    exact ⟨fired_of_append (by rw [badEnd_log, dayBooked_log]; rfl), rfl⟩
  rw [if_neg h2] at hE hW
  by_cases h3 : (weekSettled (dayBooked s)).money < 0
  · rw [if_pos h3] at hE hW
    rw [hW, hE]
    refine ⟨fun e he => ?_, fun h => absurd h (by simp)⟩
    rw [← Option.some.inj he]
    exact ⟨fired_of_append (by rw [badEnd_log, weekSettled_log, dayBooked_log]; rfl), rfl⟩
  rw [if_neg h3] at hE hW
  rw [endOfDay_goodEndings_eq] at hE
  rw [hW, hE]
  cases hg : goodEndingOf (weeklyPerfTotal (dayBooked s)) (weekSettled (dayBooked s)) with
  | some m =>
    refine ⟨fun e he => ?_, fun h => absurd h (by simp)⟩
    simp only [Option.map] at he
    rw [← Option.some.inj he]
    exact ⟨fired_of_append (by rw [goodEnd_log, weekSettled_log, dayBooked_log]), rfl⟩
  | none =>
    refine ⟨fun e he => absurd he (by simp), fun _ => ?_⟩
    refine ⟨fired_of_append ?_, ?_⟩
    · simp [openDailySummaryInternal, openWeeklySummaryInternal, weekReset, weekSettled,
        dayBooked, dayClosed, closeFish_eq, closeModal]
      norm_num
    · simp [openDailySummaryInternal, openWeeklySummaryInternal, weekReset, weekSettled,
        dayBooked, dayClosed, closeFish_eq, closeModal]

/-- C15 witness: the Friday of `fridayExample` (total 65, day 5) matches no test, so the game
goes on with both summaries and the weekly accumulators reset; the Friday of `fridayShort`
(base 39.8, extra 2, 326 clicks worth 8.1) totals 49.9 and ends with the weekly performance
ending. -/
theorem C15_weekly_order_witness :
    (weeklyResultOf fridayExample = none
      ∧ fired fridayExample (endOfDay fridayExample)
          = [Effect.dailySummary (dailyPerf fridayExample) (jsRound fridayExample.mood)
               (80 + fridayExample.dailyEventExpenses),
             Effect.weeklySummary (weeklyPerfTotal (dayBooked fridayExample))
               (salary (weeklyPerfTotal (dayBooked fridayExample))) 1200]
      ∧ dailyPerf fridayExample = 10 ∧ weeklyPerfTotal (dayBooked fridayExample) = 65
      ∧ salary (weeklyPerfTotal (dayBooked fridayExample)) = 2600
      ∧ (endOfDay fridayExample).weeklyBasePerf = 0)
    ∧ (weeklyPerfTotal (dayBooked fridayShort) = toDouble (499 / 10)
      ∧ weeklyResultOf fridayShort = some weeklyPerfEnding
      ∧ fired fridayShort (endOfDay fridayShort) = [weeklyPerfEnding]
      ∧ (endOfDay fridayShort).gameEnded = true) :=
  ⟨⟨by decide!,
    ((C15_weekly_order fridayExample (by decide) (by decide!) (by decide!) (by decide)
      (by decide)).2 (by decide!)).1,
    by decide!, by decide!, by decide!,
    ((C15_weekly_order fridayExample (by decide) (by decide!) (by decide!) (by decide)
      (by decide)).2 (by decide!)).2.2.1⟩,
   ⟨by decide!, by decide!,
    ((C15_weekly_order fridayShort (by decide) (by decide!) (by decide!) (by decide)
      (by decide)).1 weeklyPerfEnding (by decide!)).1,
    ((C15_weekly_order fridayShort (by decide) (by decide!) (by decide!) (by decide)
      (by decide)).1 weeklyPerfEnding (by decide!)).2⟩⟩

/-- C16: for every outcome with performance delta `p`, applied by the random-event applier
or by the scripted-event applier (directly or through the click handlers): if `p > 0` then
`weeklyExtraPerf` grows by `p` and `dailyPenaltyPerf` is unchanged; if `p < 0` then
`dailyPenaltyPerf` grows by `|p|` and `weeklyExtraPerf` is unchanged; if `p = 0` neither
changes. -/
theorem C16_perf_delta_buckets (o : Outcome) (s : State) :
    (∀ r : ℚ, PerfBuckets o s (applyOutcome o r s))
    ∧ (∀ (ev : RandomEvent) (r : ℚ), PerfBuckets o s (randomChoice ev o r s))
    ∧ (∀ (eventFlags : List (String × String)) (choiceType : String),
        PerfBuckets o s (applyScriptedOutcome o eventFlags choiceType s))
    ∧ (∀ (ev : ScriptedEvent) (choiceType : String),
        PerfBuckets o s (scriptedChoice ev o choiceType s)) := by
  refine ⟨fun r => ?_, fun ev r => ?_, fun fl c => ?_, fun ev c => ?_⟩
  · apply perfBuckets_of_fields <;> (rw [applyOutcome_eq])
  · apply perfBuckets_of_fields
    · rw [(randomChoice_perf ev o r s).1, applyOutcome_eq]
    · rw [(randomChoice_perf ev o r s).2, applyOutcome_eq]
  · apply perfBuckets_of_fields <;> (rw [applyScriptedOutcome_eq])
  · apply perfBuckets_of_fields <;> (rw [scriptedChoice_eq, applyScriptedOutcome_eq])

/-- C16 witness: the outcome "明天再说" of `urgent_request` (performance -1) on the initial
state adds 1 to the daily penalty and leaves the weekly extra at 0. -/
theorem C16_perf_delta_buckets_witness :
    (applyOutcome (mkO 2 (-1) 0 (-1)) 0 init).dailyPenaltyPerf = init.dailyPenaltyPerf + |(-1 : ℚ)|
      ∧ (applyOutcome (mkO 2 (-1) 0 (-1)) 0 init).weeklyExtraPerf = init.weeklyExtraPerf :=
  ((C16_perf_delta_buckets (mkO 2 (-1) 0 (-1)) init).1 0).2.1 (by decide!)

/-- C17 counterexample: at mood 99 the outcomes "大群开喷" (mood +5) and "收到" (mood -3) of
the random catalog, neither with the lottery tag, leave mood 97 in one order and 100 in the
other, because each application clamps to [0, 100]. -/
theorem C17_counterexample :
    (mkO 5 0 0 1).special = none ∧ (mkO (-3) 1 0 0).special = none
      ∧ (applyOutcome (mkO (-3) 1 0 0) 0 (applyOutcome (mkO 5 0 0 1) 0 mood99)).mood = 97
      ∧ (applyOutcome (mkO 5 0 0 1) 0 (applyOutcome (mkO (-3) 1 0 0) 0 mood99)).mood = 100 := by
  decide!

/-- C17 (amended): for every state and every two outcome records without the lottery tag,
each applied by either applier, both orders yield the same money, `weeklyExtraPerf`,
`dailyPenaltyPerf` and expense accumulators; they yield the same mood when applying either
outcome alone keeps mood within [0, 100] without clamping, and the same relationship when
relationship starts within [0, 100] and either outcome alone keeps it there. -/
theorem C17_outcome_order (s a ab b ba : State) (o1 o2 : Outcome)
    (h1 : Applied o1 s a) (h2 : Applied o2 a ab) (h3 : Applied o2 s b) (h4 : Applied o1 b ba) :
    ab.money = ba.money
    ∧ ab.weeklyExtraPerf = ba.weeklyExtraPerf
    ∧ ab.dailyPenaltyPerf = ba.dailyPenaltyPerf
    ∧ ab.dailyEventExpenses = ba.dailyEventExpenses
    ∧ ab.weeklyEventExpenses = ba.weeklyEventExpenses
    ∧ (0 ≤ s.mood + o1.mood → s.mood + o1.mood ≤ 100 →
        0 ≤ s.mood + o2.mood → s.mood + o2.mood ≤ 100 → ab.mood = ba.mood)
    ∧ (0 ≤ s.relationship → s.relationship ≤ 100 →
        0 ≤ s.relationship + o1.relationship → s.relationship + o1.relationship ≤ 100 →
        0 ≤ s.relationship + o2.relationship → s.relationship + o2.relationship ≤ 100 →
        ab.relationship = ba.relationship) := by
  obtain ⟨am, amo, ae, ap, ar, ad, aw⟩ := applied_fields h1
  obtain ⟨abm, abmo, abe, abp, abr, abd, abw⟩ := applied_fields h2
  obtain ⟨bm, bmo, be, bp, br, bd, bw⟩ := applied_fields h3
  obtain ⟨bam, bamo, bae, bap, bar, bad, baw⟩ := applied_fields h4
  refine ⟨?_, ?_, ?_, ?_, ?_, ?_, ?_⟩
  · rw [abmo, amo, bamo, bmo]; ring
  · rw [abe, ae, bae, be]; split_ifs <;> ring
  · rw [abp, ap, bap, bp]; split_ifs <;> ring
  · rw [abd, ad, bad, bd]; split_ifs <;> ring
  · rw [abw, aw, baw, bw]; split_ifs <;> ring
  · intro p1 p2 p3 p4
    rw [abm, am, bam, bm, clamp_of_mem _ p1 p2, clamp_of_mem _ p3 p4]
    congr 1; ring
  · intro r0 r1 p1 p2 p3 p4
    have ha : a.relationship = s.relationship + o1.relationship := by
      rw [ar]
      split_ifs with h
      · exact clamp_of_mem _ p1 p2
      · rw [not_not.mp h]; ring
    have hb : b.relationship = s.relationship + o2.relationship := by
      rw [br]
      split_ifs with h
      · exact clamp_of_mem _ p3 p4
      · rw [not_not.mp h]; ring
    rw [abr, bar, ha, hb]
    by_cases z1 : o1.relationship = 0 <;> by_cases z2 : o2.relationship = 0
    · rw [if_neg (not_not.mpr z2), if_neg (not_not.mpr z1), z1, z2]
    · rw [if_pos z2, if_neg (not_not.mpr z1), z1, add_zero, clamp_of_mem _ p3 p4]
    · rw [if_neg (not_not.mpr z2), if_pos z1, z2, add_zero, clamp_of_mem _ p1 p2]
    · rw [if_pos z2, if_pos z1]
      congr 1; ring

/-- C17 witness: the same two outcomes at mood 60, far from the bounds. -/
theorem C17_outcome_order_witness :
    (applyOutcome (mkO (-3) 1 0 0) 0 (applyOutcome (mkO 5 0 0 1) 0 init)).money
        = (applyOutcome (mkO 5 0 0 1) 0 (applyOutcome (mkO (-3) 1 0 0) 0 init)).money
      ∧ (applyOutcome (mkO (-3) 1 0 0) 0 (applyOutcome (mkO 5 0 0 1) 0 init)).relationship
        = (applyOutcome (mkO 5 0 0 1) 0 (applyOutcome (mkO (-3) 1 0 0) 0 init)).relationship := by
  have h := C17_outcome_order init (applyOutcome (mkO 5 0 0 1) 0 init)
    (applyOutcome (mkO (-3) 1 0 0) 0 (applyOutcome (mkO 5 0 0 1) 0 init))
    (applyOutcome (mkO (-3) 1 0 0) 0 init)
    (applyOutcome (mkO 5 0 0 1) 0 (applyOutcome (mkO (-3) 1 0 0) 0 init))
    (mkO 5 0 0 1) (mkO (-3) 1 0 0)
    (Or.inl ⟨0, by decide, rfl⟩) (Or.inl ⟨0, by decide, rfl⟩)
    (Or.inl ⟨0, by decide, rfl⟩) (Or.inl ⟨0, by decide, rfl⟩)
  exact ⟨h.1, h.2.2.2.2.2.2 (by decide!) (by decide!) (by decide!) (by decide!) (by decide!)
    (by decide!)⟩

/-- C18: when the outcome of a scripted event is applied with branch tag `c`, every flag the
event declares with value `c` or `A_or_B` becomes `c`, and every other flag, declared with
another value or not declared, keeps its value. So choosing B on `DAY1_MENTOR_INTRO` leaves
`mentor_closeness` unset and `DAY4_MENTOR_GUIDANCE` ineligible on day 4, and choosing A
makes it eligible. -/
theorem C18_story_flags (ev : ScriptedEvent) (o : Outcome) (c : String) (s : State)
    (f : String) :
    ((∃ declared, (f, declared) ∈ ev.flags ∧ (declared = c ∨ declared = "A_or_B")) →
        (scriptedChoice ev o c s).storyFlags.lookup f = some c)
    ∧ ((∀ declared, (f, declared) ∈ ev.flags → ¬ (declared = c ∨ declared = "A_or_B")) →
        (scriptedChoice ev o c s).storyFlags.lookup f = s.storyFlags.lookup f)
    ∧ mentorIntro ∈ scriptedEvents ∧ mentorGuidance ∈ scriptedEvents
    ∧ (scriptedChoice mentorIntro mentorIntro.b "B" init).storyFlags.lookup "mentor_closeness"
        = none
    ∧ scriptedAvailable
        { scriptedChoice mentorIntro mentorIntro.b "B" init with day := 4 } mentorGuidance
        = false
    ∧ scriptedAvailable
        { scriptedChoice mentorIntro mentorIntro.a "A" init with day := 4 } mentorGuidance
        = true := by
  have hl : (scriptedChoice ev o c s).storyFlags.lookup f
      = if ev.flags.any (fun p => p.1 == f && (p.2 == c || p.2 == "A_or_B")) then some c
        else s.storyFlags.lookup f := by
    rw [scriptedChoice_eq, applyScriptedOutcome_eq]
    exact lookup_writeFlags c f ev.flags s.storyFlags
  refine ⟨?_, ?_, by decide, by decide, by decide!, by decide!, by decide!⟩
  · rintro ⟨d, hmem, hd⟩
    rw [hl, if_pos]
    rw [List.any_eq_true]
    exact ⟨(f, d), hmem, by simpa using hd⟩
  · intro hno
    rw [hl, if_neg]
    rw [List.any_eq_true]
    rintro ⟨⟨k, d⟩, hmem, hp⟩
    simp only [Bool.and_eq_true, beq_iff_eq, Bool.or_eq_true] at hp
    rw [hp.1] at hmem
    exact hno d hmem hp.2

/-- C18 witness: choosing A on `DAY1_MENTOR_INTRO` sets `mentor_closeness` to A. -/
theorem C18_story_flags_witness :
    (scriptedChoice mentorIntro mentorIntro.a "A" init).storyFlags.lookup "mentor_closeness"
      = some "A" :=
  (C18_story_flags mentorIntro mentorIntro.a "A" init "mentor_closeness").1
    ⟨"A", by decide, Or.inl rfl⟩

/-- C19 counterexample: a random event opens in the last tick of the good first day, so the
day ends with `lockEventOrBoss` true, and after the day advance it is still true. -/
theorem C19_counterexample :
    (run init (goodDay ++ [Action.tick eventDraws])).summaryOpen = true
      ∧ (run init (goodDay ++ [Action.tick eventDraws, Action.nextDay])).day = 2
      ∧ (run init (goodDay ++ [Action.tick eventDraws, Action.nextDay])).lockEventOrBoss = true := by
  decide!

/-- C19 (amended): after `proceedNextDayCore`, `secondsLeft = 240`, `clicksToday = 0`,
`mood = 100`, `dailyPenaltyPerf = 0`, `dailyCaught = 0`, `dailyEventExpenses = 0`,
`dailyTriggeredEvents` is empty, `isFishing`, `bossVisible`, `dayEnded` and `pausedForEvent`
are false; `lockEventOrBoss` keeps the value it had. -/
theorem C19_next_day_reset (s : State) :
    (proceedNextDayCore s).secondsLeft = 240
    ∧ (proceedNextDayCore s).clicksToday = 0
    ∧ (proceedNextDayCore s).mood = 100
    ∧ (proceedNextDayCore s).dailyPenaltyPerf = 0
    ∧ (proceedNextDayCore s).dailyCaught = 0
    ∧ (proceedNextDayCore s).dailyEventExpenses = 0
    ∧ (proceedNextDayCore s).dailyTriggeredEvents = []
    ∧ (proceedNextDayCore s).isFishing = false
    ∧ (proceedNextDayCore s).bossVisible = false
    ∧ (proceedNextDayCore s).dayEnded = false
    ∧ (proceedNextDayCore s).pausedForEvent = false
    ∧ (proceedNextDayCore s).lockEventOrBoss = s.lockEventOrBoss := by
  unfold proceedNextDayCore ONE_DAY_SECONDS
  simp only []
  split <;> norm_num

/-- C20 (the code at the failing input): `resetGame` returns every field of the `state`
object to its initial value except `currentBossVariant`, which `Object.assign` leaves out,
and clears every `triggered` mark; after a game in which the boss last appeared in its
second image the reset state differs from the initial one in that field. -/
theorem C20_reset_keeps_boss_variant :
    (∀ s : State,
        resetGame s =
          { init with currentBossVariant := s.currentBossVariant,
                      opt1 := s.opt1, opt2 := s.opt2, opt2Hidden := s.opt2Hidden,
                      endingOpen := s.endingOpen, bossTimers := s.bossTimers,
                      nextTimerId := s.nextTimerId, hideTimers := s.hideTimers,
                      lotteryTimers := s.lotteryTimers, log := s.log })
      ∧ (∀ s : State, (resetGame s).triggered = [] ∧ (resetGame s).pausedForEvent = false)
      ∧ (step endedWithBoss01 Action.restart).currentBossVariant = BossVariant.boss01
      ∧ init.currentBossVariant = BossVariant.boss
      ∧ (step endedWithBoss01 Action.restart).currentBossVariant ≠ init.currentBossVariant :=
  ⟨fun _ => rfl, fun _ => ⟨rfl, rfl⟩, by decide, by decide, by decide⟩

/-- C21: `showEndingModal` sets `gameEnded`; from a state with `gameEnded = true` every run
of actions without the restart button ends in a state with `gameEnded = true`, while
`resetGame` clears it; and in such a state a tick, the random-event check, the
scripted-event check and the relationship-crisis check each return the state unchanged. -/
theorem C21_ending_is_terminal (s : State) (hg : s.gameEnded = true) :
    (∀ (kind : EndingKind) (message : String) (t : State),
        (showEndingModal kind message t).gameEnded = true)
    ∧ (∀ actions : List Action, Action.restart ∉ actions → (run s actions).gameEnded = true)
    ∧ (resetGame s).gameEnded = false
    ∧ (∀ d : TickDraws, tick d s = s)
    ∧ (∀ (fortySecondTick : ℤ) (r rp : ℚ), maybeEvent fortySecondTick r rp s = s)
    ∧ (∀ rp : ℚ, checkScriptedEvents rp s = s)
    ∧ checkRelationshipEvents s = s := by
  refine ⟨fun _ _ _ => rfl, fun actions hno => gameEnded_run actions s hno hg, rfl, ?_, ?_, ?_, ?_⟩
  · intro d; unfold tick; rw [if_pos hg]
  · intro f r rp; unfold maybeEvent; rw [if_pos hg]
  · intro rp; unfold checkScriptedEvents; rw [if_pos hg]
  · unfold checkRelationshipEvents; rw [if_pos hg]

/-- C21 witness: a lost game; work clicks, ticks and the day advance leave it ended. -/
theorem C21_ending_is_terminal_witness :
    endedWithBoss01.gameEnded = true
      ∧ (run endedWithBoss01
            [Action.workClick, Action.tick eventDraws, Action.nextDay, Action.openFish]).gameEnded
          = true
      ∧ tick eventDraws endedWithBoss01 = endedWithBoss01 :=
  have h := C21_ending_is_terminal endedWithBoss01 (by decide)
  ⟨by decide, h.2.1 _ (by decide), h.2.2.2.1 eventDraws⟩

/-- C22: in every state in which the day has ended, an event or toast holds the clock, or
the game has not been started, a tick returns the state it was given: no field changes,
whatever the draws. -/
theorem C22_tick_frozen (d : TickDraws) (s : State)
    (h : s.dayEnded = true ∨ s.pausedForEvent = true ∨ s.prestart = true) :
    tick d s = s := by
  unfold tick
  rcases h with h | h | h
  · split_ifs <;> rfl
  · split_ifs <;> rfl
  · split_ifs <;> rfl

/-- C22 witness: a tick on a started, paused state. -/
theorem C22_tick_frozen_witness :
    (pausedExample.dayEnded = true ∨ pausedExample.pausedForEvent = true
        ∨ pausedExample.prestart = true)
      ∧ tick eventDraws pausedExample = pausedExample :=
  ⟨by decide, C22_tick_frozen eventDraws pausedExample (by decide)⟩

/-- C23: the random-event check is not performed in every bucket of a later day.
`maybeEvent` returns before its draw when `lastEventMinute` equals the bucket, and
`proceedNextDayCore` keeps `lastEventMinute`. In the run `dayWithEvent` the only event of
day 1 fires in bucket 1, which leaves `lastEventMinute = 1` into day 2. At second 40 of
day 2 (the first tick of bucket 1, not paused, not locked, no event used yet) a tick whose
event draw is 0 opens nothing, while the same draws open an event at second 40 of day 1. -/
theorem C23_bucket_skipped_on_day_2 :
    (∀ (k : ℤ) (r rp : ℚ) (s : State), s.lastEventMinute = k → maybeEvent k r rp s = s)
      ∧ (∀ s : State, (proceedNextDayCore s).lastEventMinute = s.lastEventMinute)
      ∧ (run init secondDay39).day = 2
      ∧ (run init secondDay39).secondsLeft = 201
      ∧ (run init secondDay39).gameEnded = false
      ∧ (run init secondDay39).dayEnded = false
      ∧ (run init secondDay39).pausedForEvent = false
      ∧ (run init secondDay39).lockEventOrBoss = false
      ∧ (run init secondDay39).dailyTriggeredEvents = []
      ∧ (run init secondDay39).lastMinuteMark = 0
      ∧ (run init secondDay39).lastEventMinute = 1
      ∧ bucket 40 (tick eventDraws (run init secondDay39)) = 1
      ∧ eventDraws.event < 6 / 10
      ∧ (tick eventDraws (run init secondDay39)).modalOpen = false
      ∧ (tick eventDraws (run init secondDay39)).dailyTriggeredEvents = []
      ∧ (run init eventAtSecond40).modalOpen = true
      ∧ (run init eventAtSecond40).dailyTriggeredEvents = ["colleague_help"] := by
  refine ⟨?_, proceedNextDayCore_lastEventMinute, ?_⟩
  · intro k r rp s hk
    unfold maybeEvent
    rw [if_pos hk]
    split_ifs <;> rfl
  · decide!

/-- C24 (counterexample): on day 1 nothing has opened after 39 seconds, and the tick of
second 40, with 200 seconds left and fewer than 60 elapsed, opens a random event. -/
theorem C24_counterexample :
    (run init eventAtSecond40).day = 1
      ∧ (run init eventAtSecond40).secondsLeft = 200
      ∧ (run init eventAtSecond40).secondsLeft > 180
      ∧ ONE_DAY_SECONDS - (run init eventAtSecond40).secondsLeft < 60
      ∧ (run init (eventAtSecond40.take 40)).dailyTriggeredEvents = []
      ∧ eventModalActive (run init eventAtSecond40) = true
      ∧ (run init eventAtSecond40).dailyTriggeredEvents = ["colleague_help"] := by
  decide!

/-- C24 (amended): a random event never fires during the first 40 seconds of a day, the
bucket 0 of the 40-second clock: `maybeEvent` returns the state unchanged for bucket 0, and
a tick that counts one of the seconds 1 to 39 (it starts with 202 to 240 seconds left)
leaves the record of the day's random events as it was. -/
theorem C24_no_event_in_bucket_0 (d : TickDraws) (s : State) (h1 : 202 ≤ s.secondsLeft)
    (h2 : s.secondsLeft ≤ 240) :
    (∀ r rp : ℚ, maybeEvent 0 r rp s = s)
    ∧ (tick d s).dailyTriggeredEvents = s.dailyTriggeredEvents := by
  refine ⟨fun r rp => maybeEvent_zero r rp s, ?_⟩
  obtain ⟨e1, e2⟩ := sr_tickChecked d s h1 h2
  rcases tick_cases d s with h | h | ⟨_, _, h0, _⟩
  · rw [h]
  · rw [h, e1]
  · rw [e2] at h0
    omega

/-- C24 witness: the tick of second 39 of day 1 with draws that would fire an event. -/
theorem C24_no_event_in_bucket_0_witness :
    202 ≤ (run init (eventAtSecond40.take 39)).secondsLeft
      ∧ (run init (eventAtSecond40.take 39)).secondsLeft ≤ 240
      ∧ (tick eventDraws (run init (eventAtSecond40.take 39))).dailyTriggeredEvents
          = (run init (eventAtSecond40.take 39)).dailyTriggeredEvents :=
  ⟨by decide!, by decide!,
    (C24_no_event_in_bucket_0 eventDraws (run init (eventAtSecond40.take 39))
      (by decide!) (by decide!)).2⟩

/-- C25: when `checkScriptedEvents` fires an event (marks it, binds the two options to it and
opens the modal), the event is a catalog entry that was not marked as triggered, has no
fixed day or the current day as its fixed day, and has no condition or one that holds in
the state: relationship at least the threshold, or the story flag equal to the required
value. Otherwise the check returns the state as it is; and on day 1 with fewer than 60
seconds elapsed it always returns the state as it is. -/
theorem C25_scripted_eligibility (rp : ℚ) (s : State) :
    (checkScriptedEvents rp s = s
      ∨ ∃ ev ∈ scriptedEvents,
          (checkScriptedEvents rp s).triggered = ev.id :: s.triggered
          ∧ (checkScriptedEvents rp s).opt1 = some (Handler.scripted ev ev.a "A")
          ∧ (checkScriptedEvents rp s).opt2 = some (Handler.scripted ev ev.b "B")
          ∧ (checkScriptedEvents rp s).modalOpen = true
          ∧ ev.id ∉ s.triggered
          ∧ (ev.day = none ∨ ev.day = some s.day)
          ∧ (ev.condition = none
              ∨ (∃ value, ev.condition = some (Condition.relationship value)
                    ∧ s.relationship ≥ value)
              ∨ (∃ flag value, ev.condition = some (Condition.flag flag value)
                    ∧ s.storyFlags.lookup flag = some value)))
    ∧ (s.day = 1 → ONE_DAY_SECONDS - s.secondsLeft < 60 → checkScriptedEvents rp s = s) := by
  constructor
  · rcases checkScriptedEvents_selects rp s with h | ⟨ev, hmem, hnot, hav, ht, h1, h2, hm, _⟩
    · exact Or.inl h
    · refine Or.inr ⟨ev, hmem, ht, h1, h2, hm, hnot, ?_, ?_⟩
      · have h0 := scriptedEvents_day_ne_zero ev hmem
        unfold scriptedAvailable at hav
        simp only [Bool.and_eq_true] at hav
        have hday := hav.1.2
        cases hd : ev.day with
        | none => exact Or.inl rfl
        | some d =>
          right
          rw [hd] at hday h0
          simp only [Bool.not_eq_true', Bool.and_eq_false_iff, bne_eq_false_iff_eq] at hday
          rcases hday with hz | hz
          · exact absurd (by rw [hz]) h0
          · rw [hz]
      · unfold scriptedAvailable at hav
        simp only [Bool.and_eq_true] at hav
        have hcond := hav.2
        cases hc : ev.condition with
        | none => exact Or.inl rfl
        | some c =>
          rw [hc] at hcond
          cases c with
          | relationship value =>
            refine Or.inr (Or.inl ⟨value, rfl, ?_⟩)
            simpa using hcond
          | flag flag value =>
            refine Or.inr (Or.inr ⟨flag, value, rfl, ?_⟩)
            simpa using hcond
  · intro hd he
    unfold checkScriptedEvents
    split_ifs <;> first | rfl | exact absurd (And.intro hd he) (by assumption)

/-- C26: the weekly base performance can exceed 50. Only day 5 jumps over a weekend, so
after day 12 the days 13 to 19 form one stretch of seven working days without a weekly
reset; the reachable run `sixteenDays` of full working days stands at the first second of
day 19 with the game running and `weeklyBasePerf = 60`. The lower bound holds: in every
reachable state `weeklyBasePerf` is at least 0. -/
theorem C26_weekly_base_exceeds_50 :
    Reachable (run init sixteenDays)
      ∧ (run init sixteenDays).day = 19
      ∧ (run init sixteenDays).gameEnded = false
      ∧ (run init sixteenDays).weeklyBasePerf = 60
      ∧ ¬ (run init sixteenDays).weeklyBasePerf ≤ 50
      ∧ (∀ s : State, Reachable s → 0 ≤ s.weeklyBasePerf) := by
  refine ⟨reachable_run _ _ Reachable.init sixteenDays_valid, ?_, ?_, ?_, ?_,
    fun s h => (reachable_tallies s h).2.2.2⟩
  · rw [sixteenDays_end]; rfl
  · rw [sixteenDays_end]; rfl
  · rw [sixteenDays_end]; rfl
  · rw [sixteenDays_end]
    show ¬ (60 : ℚ) ≤ 50
    norm_num

/-- C27: in every reachable state in which the game has not ended, `dailyCaught ≤ 2` and
`weeklyCaught ≤ 4`; a reaction window that runs out and brings a counter to 3 (daily) or 5
(weekly) leaves the game ended; and neither catch ending is among the effects of a tick,
the only caller of `endOfDay`, nor among the effects of `endOfDay` itself. -/
theorem C27_catch_limits (s : State) (h : Reachable s) (hg : s.gameEnded = false) :
    s.dailyCaught ≤ 2 ∧ s.weeklyCaught ≤ 4
    ∧ (∀ id : ℕ, (step s (Action.bossWindow id)).dailyCaught ≥ 3
          ∨ (step s (Action.bossWindow id)).weeklyCaught ≥ 5 →
        (step s (Action.bossWindow id)).gameEnded = true)
    ∧ (∀ d : TickDraws,
        dailyCatchEnding ∉ fired s (tick d s) ∧ weeklyCatchEnding ∉ fired s (tick d s))
    ∧ dailyCatchEnding ∉ fired s (endOfDay s) ∧ weeklyCatchEnding ∉ fired s (endOfDay s) := by
  have ht := reachable_tallies s h
  obtain ⟨hc, hw⟩ := ht.1 hg
  refine ⟨hc, hw, ?_, fun d => tick_nocatch d s hc hw, endOfDay_nocatch s hc hw⟩
  intro id hor
  have ht2 := tallies_step s (Action.bossWindow id) ht
  cases hge : (step s (Action.bossWindow id)).gameEnded with
  | true => rfl
  | false =>
    obtain ⟨h1, h2⟩ := ht2.1 hge
    omega

/-- C27 witness: the state right after the start button, with no catch yet. -/
theorem C27_catch_limits_witness :
    (step init Action.start).gameEnded = false
      ∧ (step init Action.start).dailyCaught ≤ 2
      ∧ (step init Action.start).weeklyCaught ≤ 4
      ∧ dailyCatchEnding ∉ fired (step init Action.start)
          (tick quietDraws (step init Action.start)) :=
  have h := C27_catch_limits (step init Action.start)
    (Reachable.step _ _ Reachable.init trivial) (by decide)
  ⟨by decide, h.1, h.2.1, (h.2.2.2.1 quietDraws).1⟩

/-- C28: the acknowledgement of the crisis prompt adds 5 to `dailyPenaltyPerf`. From a
reachable state, after it and any run of actions of the same day (no day advance, no
restart) the penalty is at least 5, so the daily performance is at most 5 for every click
count; `endOfDay` on a day that has not ended fires the daily-performance bad ending and
ends the game, and so does every tick that ends the day. -/
theorem C28_crisis_penalty (s : State) (h : Reachable s) (actions : List Action)
    (hno : Action.restart ∉ actions) (hnd : Action.nextDay ∉ actions) :
    (crisisAck s).dailyPenaltyPerf = s.dailyPenaltyPerf + 5
    ∧ 5 ≤ (run (crisisAck s) actions).dailyPenaltyPerf
    ∧ (∀ clicks : ℕ,
        dailyPerf { run (crisisAck s) actions with clicksToday := clicks } ≤ 5)
    ∧ ((run (crisisAck s) actions).dayEnded = false →
        fired (run (crisisAck s) actions) (endOfDay (run (crisisAck s) actions))
            = [dailyPerfEnding]
          ∧ (endOfDay (run (crisisAck s) actions)).gameEnded = true)
    ∧ (∀ d : TickDraws, (run (crisisAck s) actions).dayEnded = false →
        (tick d (run (crisisAck s) actions)).dayEnded = true →
        fired (run (crisisAck s) actions) (tick d (run (crisisAck s) actions))
            = [dailyPerfEnding]
          ∧ (tick d (run (crisisAck s) actions)).gameEnded = true) := by
  have hs := (reachable_tallies s h).2.1
  have h5 : (crisisAck s).dailyPenaltyPerf = s.dailyPenaltyPerf + 5 := (crisisAck_fields s).2.1
  have hrun := (on_run actions (crisisAck s) hno hnd).2.1
  have hp : 5 ≤ (run (crisisAck s) actions).dailyPenaltyPerf := by linarith
  generalize run (crisisAck s) actions = t at hp ⊢
  have hend : ∀ u : State, u.dayEnded = false → 5 ≤ u.dailyPenaltyPerf →
      fired u (endOfDay u) = [dailyPerfEnding] ∧ (endOfDay u).gameEnded = true := by
    intro u hd hu
    have hlt : dailyPerf u < 6 := lt_of_le_of_lt (dailyPerf_le_five u hu) (by norm_num)
    refine ⟨(endOfDay_fired_cases u hd).1 hlt, ?_⟩
    rw [endOfDay_perf_lt u hd hlt]
    rfl
  refine ⟨h5, hp, fun clicks => dailyPerf_le_five _ hp, fun hd => hend t hd hp, ?_⟩
  intro d hd hde
  obtain ⟨_, e2, e3, _, _, _, e7, _⟩ := st_tickChecked d t
  rcases tick_cases d t with hh | hh | ⟨_, _, _, hh⟩
  · rw [hh, hd] at hde; cases hde
  · rw [hh, e2, hd] at hde; cases hde
  · rw [hh]
    have hl : ({ tickChecked d t with secondsLeft := 0 } : State).log = t.log := e7
    rw [← fired_same_log _ hl]
    exact hend _ (by show (tickChecked d t).dayEnded = false; rw [e2]; exact hd)
      (by show 5 ≤ (tickChecked d t).dailyPenaltyPerf; rw [e3]; exact hp)

/-- C28 witness: the crisis prompt acknowledged right after the start, then a click and the
fishing panel: the penalty is 5, and with the click count of a full quota the daily
performance is still at most 5. -/
theorem C28_crisis_penalty_witness :
    (crisisAck (step init Action.start)).dailyPenaltyPerf = 5
      ∧ 5 ≤ (run (crisisAck (step init Action.start))
              [Action.workClick, Action.openFish]).dailyPenaltyPerf
      ∧ dailyPerf { run (crisisAck (step init Action.start))
              [Action.workClick, Action.openFish] with clicksToday := 400 } ≤ 5 :=
  have h := C28_crisis_penalty (step init Action.start)
    (Reachable.step _ _ Reachable.init trivial) [Action.workClick, Action.openFish]
    (by decide) (by decide)
  ⟨by decide!, h.2.1, h.2.2.1 400⟩

/-- C29: in every reachable state `earlyFinishDaysStreak = 0`. The only caller of `endOfDay`
is the tick, which sets `secondsLeft` to 0 first; there the finish hour is 18, above 16.5,
so the streak is reset to 0 and never incremented. -/
theorem C29_early_finish_streak (s : State) (h : Reachable s) :
    s.earlyFinishDaysStreak = 0
    ∧ (∀ t : State, t.secondsLeft = 0 →
        finishHour t = 18 ∧ (dayBooked t).earlyFinishDaysStreak = 0) :=
  ⟨(reachable_tallies s h).2.2.1, fun t h0 => ⟨finishHour_end t h0, dayBooked_streak t h0⟩⟩

/-- C29 witness: the end of the first day of `goodDay`, with the quota met: the streak is
still 0. -/
theorem C29_early_finish_streak_witness :
    (run init (goodDay ++ [Action.tick quietDraws])).summaryOpen = true
      ∧ dailyPerf lastSecond = 10
      ∧ (run init (goodDay ++ [Action.tick quietDraws])).earlyFinishDaysStreak = 0 :=
  ⟨by decide!, by decide!,
    (C29_early_finish_streak _ (reachable_run _ _ Reachable.init (by decide!))).1⟩

/-- C30: from a start-of-day state (no clicks yet, mood 100, game running) `n` work clicks
in a row and nothing else leave `clicksToday = n` and
`mood = max(0, 100 - 3 * floor(n / 16))`; before the 272nd click no ending has fired and
the game runs, the 272nd click fires the mood-based bad ending, and from then on the
game is ended, so every state of the run with 400 clicks is an ended one. -/
theorem C30_clicks_only (s : State) (hc : s.clicksToday = 0) (hm : s.mood = 100)
    (hg : s.gameEnded = false) (n : ℕ) :
    (clicks n s).clicksToday = n
    ∧ (clicks n s).mood = max 0 (100 - 3 * ((n / 16 : ℕ) : ℚ))
    ∧ (n < 272 → (clicks n s).gameEnded = false ∧ fired s (clicks n s) = [])
    ∧ (n = 272 → (clicks n s).gameEnded = true ∧ fired s (clicks n s) = [moodEnding])
    ∧ (272 ≤ n → (clicks n s).gameEnded = true)
    ∧ (400 ≤ (clicks n s).clicksToday → (clicks n s).gameEnded = true) := by
  obtain ⟨h1, h2, h3, h4⟩ := clicks_fields s hc hm hg n
  refine ⟨h1, h2, ?_, ?_, h3.mpr, ?_⟩
  · intro hn
    constructor
    · cases hge : (clicks n s).gameEnded with
      | false => rfl
      | true => exact absurd (h3.mp hge) (by omega)
    · apply fired_of_append
      rw [h4]
      have : n / 16 - 16 = 0 := by omega
      rw [this]
      rfl
  · intro hn
    constructor
    · exact h3.mpr (by omega)
    · apply fired_of_append
      rw [h4]
      have : n / 16 - 16 = 1 := by omega
      rw [this]
      rfl
  · intro h400
    rw [h1] at h400
    exact h3.mpr (by omega)

/-- C30 witness: 272 clicks from the state right after the start button. -/
theorem C30_clicks_only_witness :
    (step init Action.start).clicksToday = 0 ∧ (step init Action.start).mood = 100
      ∧ (step init Action.start).gameEnded = false
      ∧ (clicks 272 (step init Action.start)).mood = max 0 (100 - 3 * ((272 / 16 : ℕ) : ℚ))
      ∧ fired (step init Action.start) (clicks 272 (step init Action.start)) = [moodEnding] :=
  have h := C30_clicks_only (step init Action.start) (by decide) (by decide!) (by decide) 272
  ⟨by decide, by decide!, by decide, h.2.1, (h.2.2.2.1 rfl).2⟩

end Sim996
